import Mathlib

/-!
Aura subsystem (SpellAuras.cpp): shallow embedding and verified properties

The definitions below follow `src/server/game/Spells/Auras/SpellAuras.cpp`
function by function and keep the names of the source.

Conventions of the embedding

* Machine integers are `Nat`/`Int` values; every conversion the C++ performs is
  written out (`toInt32`, `toUInt8`), signed 32-bit arithmetic wraps.
* A fatal assertion, `ABORT()`, a null dereference or a remainder by zero makes
  the operation return `none`.
* Collaborators whose code is not part of the sources (`Unit`, `SpellInfo`,
  `SpellMgr`, `AuraEffect`, scripts, configuration) appear as fields of
  environment records: each field is the value the collaborator returns at the
  call site.  Their effects on objects other than the aura are not tracked.
* Constants declared in headers that are not part of the sources are the fields
  of `Consts`.
* The accessors of `SpellAuras.h`, which is not part of the sources either
  (`GetId`, `GetEffect`, `GetCharges`, `IsRemoved`, `GetSlot`, ...), return the
  member they are named after; default arguments declared there are named in
  the doc comment of the definition that relies on them.
-/

namespace Firelands

/-! ## Machine integers -/

/-- Smallest `int32`. -/
def INT32_MIN : Int := -2147483648

/-- Largest `int32`. -/
def INT32_MAX : Int := 2147483647

/-- Conversion to `int32` (two's complement wrap). -/
def toInt32 (x : Int) : Int := (x + 2147483648) % 4294967296 - 2147483648

/-- Conversion to `uint8`. -/
def toUInt8 (x : Int) : Nat := (x % 256).toNat

/-- The C++ remainder `a % b` on `int32`: truncated, undefined for `b = 0` and
for `INT32_MIN % -1`. -/
def cRem (a b : Int) : Option Int :=
  if b = 0 ∨ (a = INT32_MIN ∧ b = -1) then none else some (Int.tmod a b)

/-! ## Constants of absent headers -/

/-- Constants the source uses but whose declarations are in headers that are
not among the sources. -/
structure Consts where
  MAX_AURAS : Nat
  MAX_SPELL_EFFECTS : Nat
  UPDATE_TARGET_MAP_INTERVAL : Int
  IN_MILLISECONDS : Int
  POWER_HEALTH : Nat
  PROC_ATTR_TRIGGERED_CAN_PROC : Nat
  PROC_ATTR_REQ_SPELLMOD : Nat
  PROC_ATTR_USE_STACKS_FOR_CHARGES : Nat
  PROC_ATTR_CANT_PROC_FROM_ITEM_CAST : Nat
  AUTO_ATTACK_PROC_FLAG_MASK : Nat
  ITEM_CLASS_WEAPON : Int
  ITEM_CLASS_ARMOR : Int
  AFLAG_CASTER : Nat
  AFLAG_POSITIVE : Nat
  AFLAG_ANY_EFFECT_AMOUNT_SENT : Nat
  AFLAG_NEGATIVE : Nat

/-! ## Data model -/

/-- The aura types (`AuraType`) the file names; every other value is `OTHER`. -/
inductive AuraType where
  | SPELL_AURA_PERIODIC_DAMAGE
  | SPELL_AURA_PERIODIC_DUMMY
  | SPELL_AURA_PERIODIC_HEAL
  | SPELL_AURA_PERIODIC_TRIGGER_SPELL
  | SPELL_AURA_PERIODIC_ENERGIZE
  | SPELL_AURA_PERIODIC_MANA_LEECH
  | SPELL_AURA_PERIODIC_LEECH
  | SPELL_AURA_POWER_BURN
  | SPELL_AURA_OBS_MOD_POWER
  | SPELL_AURA_OBS_MOD_HEALTH
  | SPELL_AURA_PERIODIC_TRIGGER_SPELL_WITH_VALUE
  | SPELL_AURA_CONTROL_VEHICLE
  | SPELL_AURA_TRACK_RESOURCES
  | SPELL_AURA_MOD_STEALTH
  | SPELL_AURA_ABILITY_IGNORE_AURASTATE
  | SPELL_AURA_CAST_WHILE_WALKING
  | SPELL_AURA_OVERRIDE_ACTIONBAR_SPELLS
  | SPELL_AURA_MOD_SPELL_COOLDOWN_BY_HASTE
  | OTHER (n : Nat)
  deriving DecidableEq, Repr

/-- The spell attributes (`HasAttribute`) read by the modelled functions. -/
inductive SpellAttr where
  | SPELL_ATTR0_CU_ENCHANT_PROC
  | SPELL_ATTR0_CU_DONT_BREAK_STEALTH
  | SPELL_ATTR1_DONT_REFRESH_DURATION_ON_RECAST
  | SPELL_ATTR3_CAN_PROC_FROM_PROCS
  | SPELL_ATTR3_NOT_A_PROC
  | SPELL_ATTR3_STACK_FOR_DIFF_CASTERS
  | SPELL_ATTR3_IGNORE_PROC_SUBCLASS_MASK
  | SPELL_ATTR6_DONT_CONSUME_PROC_CHARGES
  | SPELL_ATTR8_AURA_SEND_AMOUNT
  deriving DecidableEq, Repr

/-- One entry of `SpellInfo::Effects`. -/
structure SpellEffectInfo where
  ApplyAuraName : AuraType
  TriggerSpell : Nat
  IsTargetingArea : Bool
  IsAreaAuraEffect : Bool

/-- The parts of `SpellInfo` the modelled functions read.  Fields with a
method name hold the value that method returns. -/
structure SpellInfo where
  Id : Nat
  StackAmount : Nat
  ProcCharges : Nat
  ManaPerSecond : Nat
  PowerType : Nat
  SpellFamilyName : Nat
  EquippedItemClass : Int
  Effects : Nat → SpellEffectInfo
  HasAttribute : SpellAttr → Bool
  HasAura : AuraType → Bool
  IsPositiveEffect : Nat → Bool
  IsPassive : Bool
  IsChanneled : Bool
  IsMultiSlotAura : Bool
  IsRollingDurationOver : Bool
  HasAreaAuraEffect : Bool

/-- An `AuraRemoveFlags` mask: the `DontResetPeriodicTimer` bit and the
remaining bits. -/
structure AuraRemoveFlags where
  DontResetPeriodicTimer : Bool
  others : Nat

/-- Modelled from the spec: the reason code `AuraRemoveFlags::ByDefault` (declared
in a header that is not among the sources), the default argument of `Remove`,
`ModCharges` and `ModStackAmount`: a removal reason, without the
`DontResetPeriodicTimer` flag that `_Remove` refuses. -/
def AuraRemoveFlags.ByDefault : AuraRemoveFlags := ⟨false, 1⟩

/-- The result of `removeMode & ~AuraRemoveFlags::DontResetPeriodicTimer`. -/
def AuraRemoveFlags.withoutDontReset (m : AuraRemoveFlags) : AuraRemoveFlags :=
  { m with DontResetPeriodicTimer := false }

/-- The state of an `AuraEffect` the aura reads or hands on. -/
structure AuraEffect where
  auraType : AuraType
  m_amount : Int
  m_period : Int
  m_periodicTimer : Int

/-- The value of `AuraEffect::GetPeriodic`. -/
def AuraEffect.GetPeriodic (e : AuraEffect) : Int := e.m_period

/-- The value of `AuraEffect::GetAuraType`. -/
def AuraEffect.GetAuraType (e : AuraEffect) : AuraType := e.auraType

/-- The members of `AuraApplication`.  The field `self` stands for the address of
the object, `target` for the GUID of `_target`; `baseId`, `baseCasterGUID` and
`baseCastItemGUID` are `GetId()`, `GetCasterGUID()` and `GetCastItemGUID()` of
`GetBase()`. -/
structure AuraApplication where
  self : Nat
  target : Nat
  baseId : Nat
  baseCasterGUID : Nat
  baseCastItemGUID : Nat
  _removeMode : AuraRemoveFlags
  _slot : Nat
  _flags : Nat
  _effectsToApply : Nat
  _needClientUpdate : Bool

/-- The owner kinds `Aura::GetType` distinguishes. -/
inductive AuraObjectType where
  | UNIT_AURA_TYPE
  | DYNOBJ_AURA_TYPE
  deriving DecidableEq, Repr

/-- The members of `Aura`.  The field `self` stands for the address of the object
(`this`). -/
structure Aura where
  self : Nat
  m_spellInfo : SpellInfo
  m_casterGuid : Nat
  m_castItemGuid : Nat
  ownerType : AuraObjectType
  ownerGuid : Nat
  m_maxDuration : Int
  m_duration : Int
  m_rolledOverDuration : Int
  m_timeCla : Int
  m_updateTargetMapInterval : Int
  m_procCharges : Nat
  m_stackAmount : Nat
  m_effects : Nat → Option AuraEffect
  m_applications : List AuraApplication
  m_removedApplications : List AuraApplication
  m_isRemoved : Bool
  m_isUsingCharges : Bool
  m_dropEvent : Bool
  m_procCooldown : Int

/-- A `SpellProcEntry`. -/
structure SpellProcEntry where
  AttributesMask : Nat
  DisableEffectsMask : Nat
  Charges : Nat
  Cooldown : Int

/-- What the collaborators return to the duration, charge and stack
operations of one aura. -/
structure AuraEnv where
  /-- The entry `sSpellMgr->GetSpellProcEntry(GetId())`, if any. -/
  procEntry : Option SpellProcEntry
  /-- The effect of `ApplySpellMod(GetId(), SPELLMOD_CHARGES, _)` of the
  caster's spell-mod owner; the identity when there is none. -/
  chargesMod : Nat → Nat
  /-- The value of `m_spellInfo->CalcDuration(caster)`. -/
  calcDuration : Int
  /-- Whether `GetCaster()` finds the caster. -/
  casterPresent : Bool
  /-- The duration `RefreshDuration` computes from `GetMaxDuration()` of the
  spell and the caster's haste when called with mods and a caster. -/
  durationWithMods : Int
  /-- The effect of `ApplySpellMod(GetId(), SPELLMOD_DURATION, _)`. -/
  durationMod : Int → Int
  /-- The value of `aurEff->CalculateAmount(caster)` at a stack count. -/
  calculateAmount : Nat → AuraEffect → Int
  /-- The effect of `aurEff->CalculatePeriodic(caster, reset, false)`. -/
  calculatePeriodic : Bool → AuraEffect → AuraEffect

/-- The attack types `GetProcEffectMask` distinguishes. -/
inductive WeaponAttackType where
  | BASE_ATTACK
  | OFF_ATTACK
  | RANGED_ATTACK
  deriving DecidableEq, Repr

/-- The equipment slots `GetProcEffectMask` looks at. -/
inductive EquipmentSlot where
  | EQUIPMENT_SLOT_MAINHAND
  | EQUIPMENT_SLOT_OFFHAND
  | EQUIPMENT_SLOT_RANGED
  deriving DecidableEq, Repr

/-- What `GetProcEffectMask` asks of an `Item`. -/
structure Item where
  IsBroken : Bool
  IsFitToSpellRequirements : Bool

/-- What the proc functions ask of the `Spell` of an event
(`ProcEventInfo::GetProcSpell`); `appliedModsCount` is
`m_appliedMods.count(this)`. -/
structure ProcSpell where
  IsTriggeredByAura : Bool
  IsTriggered : Bool
  spellInfo : SpellInfo
  m_CastItem : Bool
  appliedModsCount : Nat

/-- What the proc functions read of a `ProcEventInfo`. -/
structure ProcEventInfo where
  GetProcSpell : Option ProcSpell
  GetSpellInfo : Option SpellInfo
  GetTypeMask : Nat
  GetDamageInfo : Option WeaponAttackType

/-- What the collaborators return to one proc evaluation of an aura. -/
structure ProcEnv extends AuraEnv where
  /-- The value of `SpellMgr::CanSpellTriggerProcOnEvent`. -/
  CanSpellTriggerProcOnEvent : Bool
  /-- The value of `sConditionMgr->IsObjectMeetingNotGroupedConditions`. -/
  conditionsMet : Bool
  /-- The results of the `DoCheckProc` hooks, in call order. -/
  checkProcHooks : List Bool
  /-- The value of `GetEffect(i)->CheckEffectProc(aurApp, eventInfo)`. -/
  CheckEffectProc : Nat → Bool
  /-- Whether the target of the application is a player. -/
  targetIsPlayer : Bool
  /-- The value of `IsInFeralForm()` of that player. -/
  IsInFeralForm : Bool
  /-- The value of `GetUseableItemByPos(INVENTORY_SLOT_BAG_0, _)`. -/
  GetUseableItemByPos : EquipmentSlot → Option Item
  /-- The value of `roll_chance_f(CalcProcChance(*procEntry, eventInfo))`. -/
  rollChance : Bool
  /-- For every loaded script, `_IsDefaultActionPrevented()` after its
  `DoPrepareProc` hooks. -/
  prepareProcPrevented : List Bool
  /-- For every loaded script, `_IsDefaultActionPrevented()` after its `OnProc`
  hooks. -/
  procPrevented : List Bool
  /-- What `GetEffect(i)->HandleProc(aurApp, eventInfo)` does to the aura. -/
  HandleProc : Nat → Aura → Aura
  /-- What the `AfterProc` hooks do to the aura. -/
  afterProcHooks : Aura → Aura

/-- The values of `SpellGroupStackRule`. -/
inductive SpellGroupStackRule where
  | SPELL_GROUP_STACK_RULE_DEFAULT
  | SPELL_GROUP_STACK_RULE_EXCLUSIVE
  | SPELL_GROUP_STACK_RULE_EXCLUSIVE_FROM_SAME_CASTER
  | SPELL_GROUP_STACK_RULE_EXCLUSIVE_SAME_EFFECT
  | SPELL_GROUP_STACK_RULE_EXCLUSIVE_HIGHEST
  deriving DecidableEq, Repr

/-- What the collaborators return to `this->CanStackWith(existingAura)`. -/
structure StackEnv where
  /-- The value of `m_spellInfo->IsDifferentRankOf(existingSpellInfo)`. -/
  IsDifferentRankOf : Bool
  /-- The value of `m_spellInfo->IsRankOf(existingSpellInfo)`. -/
  IsRankOf : Bool
  /-- The value of `m_spellInfo->IsAuraExclusiveBySpecificWith(existingSpellInfo)`. -/
  IsAuraExclusiveBySpecificWith : Bool
  /-- The value of
  `m_spellInfo->IsAuraExclusiveBySpecificPerCasterWith(existingSpellInfo)`. -/
  IsAuraExclusiveBySpecificPerCasterWith : Bool
  /-- The value of `sSpellMgr->CheckSpellGroupStackRules(m_spellInfo, existingSpellInfo)`. -/
  CheckSpellGroupStackRules : SpellGroupStackRule
  /-- The value of `sWorld->getBoolConfig(CONFIG_ALLOW_TRACK_BOTH_RESOURCES)`. -/
  CONFIG_ALLOW_TRACK_BOTH_RESOURCES : Bool
  /-- The value of `GetAvailableSeatCount()` of the vehicle kit of the owner of
  this aura, `none` when the owner has no vehicle kit. -/
  ownerVehicleSeats : Option Nat

/-- Modelled from the spec: the parts of `Unit` the application code uses
(`Unit.h` and `Unit.cpp` are not among the sources): the GUID, the applied
applications in lookup order, and the mapping from visible-slot number to
application (`m_visibleAuras`, a map keyed by the 8-bit slot whose values are
the addresses of applications). -/
structure UnitAuras where
  guid : Nat
  m_appliedAuras : List AuraApplication
  m_visibleAuras : Nat → Option Nat

/-- What the collaborators return to `AuraApplication::_InitFlags`: whether the
caster exists and the value of `caster->IsFriendlyTo(GetTarget())`. -/
structure AppEnv where
  casterPresent : Bool
  IsFriendlyTo : Bool

namespace UnitAuras

/-- Modelled from the spec: `Unit::GetAuraApplication(spellId, casterGUID,
itemCasterGUID)`, the first applied application of the same aura identity. -/
def GetAuraApplication (u : UnitAuras) (spellId casterGUID itemCasterGUID : Nat) :
    Option AuraApplication :=
  u.m_appliedAuras.find? fun app =>
    app.baseId == spellId && app.baseCasterGUID == casterGUID &&
      app.baseCastItemGUID == itemCasterGUID

/-- Modelled from the spec: `Unit::GetVisibleAura(slot)`. -/
def GetVisibleAura (u : UnitAuras) (slot : Nat) : Option Nat := u.m_visibleAuras slot

/-- Modelled from the spec: `Unit::SetVisibleAura(slot, aur)`. -/
def SetVisibleAura (u : UnitAuras) (slot aur : Nat) : UnitAuras :=
  { u with m_visibleAuras := fun k => if k = slot then some aur else u.m_visibleAuras k }

/-- Modelled from the spec: `Unit::RemoveVisibleAura(slot)`. -/
def RemoveVisibleAura (u : UnitAuras) (slot : Nat) : UnitAuras :=
  { u with m_visibleAuras := fun k => if k = slot then none else u.m_visibleAuras k }

/-- Modelled from the spec: the entries of `*GetVisibleAuras()` in iteration
order, which for a map keyed by the 8-bit slot is ascending key order. -/
def visibleEntries (u : UnitAuras) : List (Nat × Nat) :=
  (List.range 256).filterMap fun k => (u.m_visibleAuras k).map fun v => (k, v)

/-- Modelled from the spec: the iterator `visibleAuras->find(key)`, as the
entries from that key on; the empty list is `end()`. -/
def visibleFind (u : UnitAuras) (key : Nat) : List (Nat × Nat) :=
  u.visibleEntries.dropWhile fun e => e.1 != key

/-- The effect of `foundAura->SetNeedClientUpdate()` on the applied application
at the address `aur`. -/
def markNeedClientUpdate (u : UnitAuras) (aur : Nat) : UnitAuras :=
  { u with m_appliedAuras := u.m_appliedAuras.map fun app =>
      if app.self = aur then { app with _needClientUpdate := true } else app }

end UnitAuras

/-- Modelled from the spec: the caster as `Aura::Update` uses it (`Unit` is not
among the sources): its health and its power pools. -/
structure CasterState where
  health : Nat
  power : Nat → Int

namespace CasterState

/-- Modelled from the spec: `Unit::GetHealth`. -/
def GetHealth (c : CasterState) : Nat := c.health

/-- Modelled from the spec: `Unit::GetPower`. -/
def GetPower (c : CasterState) (powertype : Nat) : Int := c.power powertype

/-- Modelled from the spec: `Unit::ModifyHealth` for a drain, the health changes
by `dVal` and does not fall below 0. -/
def ModifyHealth (c : CasterState) (dVal : Int) : CasterState :=
  { c with health := ((c.health : Int) + dVal).toNat }

/-- Modelled from the spec: `Unit::ModifyPower` for a drain, the pool changes by
`dVal`. -/
def ModifyPower (c : CasterState) (powertype : Nat) (dVal : Int) : CasterState :=
  { c with power := fun p => if p = powertype then c.power p + dVal else c.power p }

end CasterState

/-- An aura together with its caster, `none` when `GetCaster()` finds none. -/
structure AuraWorld where
  aura : Aura
  caster : Option CasterState

/-- What the collaborators return to `Aura::UpdateOwner`. -/
structure UpdateEnv where
  /-- The applications that are bound once `Aura::UpdateTargetMap` has filled the
  target map and run its unapply, register and apply phases on the given
  aura. -/
  resolveTargets : Aura → Bool → List AuraApplication
  /-- The effect of `m_effects[i]->Update(diff, caster)` on the effect. -/
  effectUpdate : Nat → AuraEffect → AuraEffect

namespace AuraApplication

/-- The accessor `AuraApplication::GetSlot`. -/
def GetSlot (app : AuraApplication) : Nat := app._slot

/-- Modelled from the spec: the accessor `AuraApplication::GetEffectMask`
(`SpellAuras.h` is not among the sources), the active-effect bitmask: the effect
bits of `_flags`. -/
def GetEffectMask (K : Consts) (app : AuraApplication) : Nat :=
  app._flags &&& (2 ^ K.MAX_SPELL_EFFECTS - 1)

/-- Modelled from the spec: the accessor `AuraApplication::HasEffect`
(`SpellAuras.h` is not among the sources): the bit of the effect in the
active-effect bitmask. -/
def HasEffect (app : AuraApplication) (effect : Nat) : Bool :=
  app._flags &&& (1 <<< effect) != 0

end AuraApplication

namespace Aura

/-- The accessor `Aura::GetId`. -/
def GetId (a : Aura) : Nat := a.m_spellInfo.Id

/-- The accessor `Aura::GetEffect`. -/
def GetEffect (a : Aura) (i : Nat) : Option AuraEffect := a.m_effects i

/-- The accessor `Aura::HasEffect`. -/
def HasEffect (a : Aura) (i : Nat) : Bool := (a.GetEffect i).isSome

/-- The accessor `Aura::GetType`. -/
def GetType (a : Aura) : AuraObjectType := a.ownerType

/-- The accessor `Aura::IsRemoved`. -/
def IsRemoved (a : Aura) : Bool := a.m_isRemoved

/-- The accessor `Aura::IsUsingCharges`. -/
def IsUsingCharges (a : Aura) : Bool := a.m_isUsingCharges

/-- The accessor `Aura::GetCharges`. -/
def GetCharges (a : Aura) : Nat := a.m_procCharges

/-- The accessor `Aura::GetStackAmount`. -/
def GetStackAmount (a : Aura) : Nat := a.m_stackAmount

/-- The function `Aura::_Remove`: both assertions, the removed flag, the unapply
loop (which ends only once `m_applications` is empty, every unapplied
application being queued by `_UnapplyForTarget`) and the drop event. -/
def _Remove (a : Aura) (removeMode : AuraRemoveFlags) : Option Aura :=
  if a.m_isRemoved then none
  else if removeMode.DontResetPeriodicTimer then none
  else some { a with
    m_isRemoved := true
    m_removedApplications := a.m_removedApplications ++ a.m_applications
    m_applications := []
    m_dropEvent := false }

/-- Modelled from the spec: `Unit::RemoveOwnedAura(aura, removeMode)` (`Unit.cpp`
is not among the sources), the removal entry point of the owner: the owner
drops the aura, which is unapplied from every bound target and marked removed
by `Aura::_Remove`. -/
def Unit_RemoveOwnedAura (a : Aura) (removeMode : AuraRemoveFlags) : Option Aura :=
  a._Remove removeMode

/-- The functions `UnitAura::Remove` and `DynObjAura::Remove`. -/
def Remove (a : Aura) (removeMode : AuraRemoveFlags) : Option Aura :=
  if a.IsRemoved then some a
  else
    match a.GetType with
    | AuraObjectType.UNIT_AURA_TYPE => Unit_RemoveOwnedAura a removeMode
    | AuraObjectType.DYNOBJ_AURA_TYPE => a._Remove removeMode

/-- The function `Aura::SetCharges`. -/
def SetCharges (a : Aura) (charges : Nat) : Aura :=
  if a.m_procCharges = charges then a
  else { a with m_procCharges := charges, m_isUsingCharges := decide (charges ≠ 0) }

/-- The function `Aura::CalcMaxCharges`. -/
def CalcMaxCharges (env : AuraEnv) (a : Aura) : Nat :=
  let maxProcCharges : Nat :=
    match env.procEntry with
    | some procEntry => procEntry.Charges
    | none => a.m_spellInfo.ProcCharges
  toUInt8 (env.chargesMod maxProcCharges)

/-- The function `Aura::CalcMaxDuration`. -/
def CalcMaxDuration (env : AuraEnv) (_a : Aura) : Int := env.calcDuration

/-- The function `Aura::SetDuration`. -/
def SetDuration (env : AuraEnv) (a : Aura) (duration : Int) (withMods : Bool) : Aura :=
  let duration := if withMods && env.casterPresent then env.durationMod duration else duration
  { a with m_duration := duration }

/-- The function `Aura::RefreshDuration`; the calls of `SetDuration` leave out
the second argument (`false`). -/
def RefreshDuration (K : Consts) (env : AuraEnv) (a : Aura) (withMods : Bool) : Aura :=
  let a1 :=
    if withMods && env.casterPresent then
      let duration := env.durationWithMods
      SetDuration env { a with m_maxDuration := duration } duration false
    else
      SetDuration env a a.m_maxDuration false
  if a1.m_spellInfo.ManaPerSecond ≠ 0 then { a1 with m_timeCla := 1 * K.IN_MILLISECONDS } else a1

/-- The divisor `minAmplitude` of `Aura::RefreshTimers`: the minimum of the new
maximum duration and the non-zero periods of the effects. -/
def minAmplitude (K : Consts) (a : Aura) (maxDuration : Int) : Int :=
  (List.range K.MAX_SPELL_EFFECTS).foldl
    (fun m i =>
      match a.GetEffect i with
      | some eff => if eff.GetPeriodic ≠ 0 then min eff.GetPeriodic m else m
      | none => m)
    maxDuration

/-- The function `Aura::RefreshTimers`; `RefreshDuration()` is called without
argument (`false`). -/
def RefreshTimers (K : Consts) (env : AuraEnv) (a : Aura) : Option Aura :=
  let a1 := { a with m_maxDuration := CalcMaxDuration env a }
  let resetPeriodicTimer := !a1.m_spellInfo.IsRollingDurationOver
  let rolled : Option Aura :=
    if !resetPeriodicTimer then
      (cRem a1.m_duration (minAmplitude K a1 a1.m_maxDuration)).map fun r =>
        { a1 with m_rolledOverDuration := r, m_maxDuration := toInt32 (a1.m_maxDuration + r) }
    else some a1
  rolled.map fun a2 =>
    let a3 := RefreshDuration K env a2 false
    { a3 with m_effects := fun i => (a3.m_effects i).map (env.calculatePeriodic resetPeriodicTimer) }

/-- The function `Aura::SetStackAmount`: the stored count, then the amounts of
the effects.  `HandleAuraSpecificMods` acts on other objects only. -/
def SetStackAmount (env : AuraEnv) (a : Aura) (stackAmount : Nat) : Aura :=
  let a1 := { a with m_stackAmount := stackAmount }
  { a1 with m_effects := fun i =>
      (a1.m_effects i).map fun eff => { eff with m_amount := env.calculateAmount a1.m_stackAmount eff } }

/-- Whether the remainder taken by `Aura::RefreshTimers` is defined: always for a
spell that is not rolling-duration. -/
def RefreshTimersDefined (K : Consts) (env : AuraEnv) (a : Aura) : Bool :=
  !a.m_spellInfo.IsRollingDurationOver ||
    (cRem a.m_duration (minAmplitude K a (CalcMaxDuration env a))).isSome

/-- The part of `Aura::ModStackAmount` that follows the limit checks, from the
computation of `refresh` on, for the local value `stackAmount`. -/
def ModStackAmount_update (K : Consts) (env : AuraEnv) (a : Aura) (stackAmount : Int)
    (removeMode : AuraRemoveFlags) : Option (Bool × Aura) :=
  let refresh : Bool := decide (stackAmount ≥ a.GetStackAmount) &&
    (decide (a.m_spellInfo.StackAmount ≠ 0) ||
      !a.m_spellInfo.HasAttribute SpellAttr.SPELL_ATTR1_DONT_REFRESH_DURATION_ON_RECAST)
  let a1 := SetStackAmount env a (toUInt8 stackAmount)
  if refresh && !removeMode.DontResetPeriodicTimer then
    (RefreshTimers K env a1).map fun a2 => (false, a2.SetCharges (CalcMaxCharges env a2))
  else some (false, a1)

/-- The function `Aura::ModStackAmount`; the result is the returned flag with the
new state. -/
def ModStackAmount (K : Consts) (env : AuraEnv) (a : Aura) (num : Int)
    (removeMode : AuraRemoveFlags) : Option (Bool × Aura) :=
  let stackAmount : Int := toInt32 (a.m_stackAmount + num)
  if num > 0 ∧ stackAmount > toInt32 a.m_spellInfo.StackAmount then
    if a.m_spellInfo.StackAmount = 0 then ModStackAmount_update K env a 1 removeMode
    else ModStackAmount_update K env a (toInt32 a.m_spellInfo.StackAmount) removeMode
  else if stackAmount ≤ 0 then
    (a.Remove removeMode.withoutDontReset).map fun a1 => (true, a1)
  else ModStackAmount_update K env a stackAmount removeMode

/-- The function `Aura::ModCharges`; the result is the returned flag with the new
state. -/
def ModCharges (env : AuraEnv) (a : Aura) (num : Int) (removeMode : AuraRemoveFlags) :
    Option (Bool × Aura) :=
  if a.IsUsingCharges then
    let charges : Int := toInt32 (a.m_procCharges + num)
    let maxCharges : Int := CalcMaxCharges env a
    if num > 0 ∧ charges > maxCharges then
      some (false, a.SetCharges (toUInt8 maxCharges))
    else if charges ≤ 0 then
      (a.Remove removeMode).map fun a1 => (true, a1)
    else some (false, a.SetCharges (toUInt8 charges))
  else some (false, a)

/-- The function `Aura::IsProcOnCooldown`. -/
def IsProcOnCooldown (a : Aura) (now : Int) : Bool := decide (a.m_procCooldown > now)

/-- The function `Aura::AddProcCooldown`. -/
def AddProcCooldown (a : Aura) (cooldownEnd : Int) : Aura :=
  { a with m_procCooldown := cooldownEnd }

/-- The function `Aura::CallScriptCheckProcHandlers`. -/
def CallScriptCheckProcHandlers (hooks : List Bool) : Bool :=
  hooks.foldl (fun result call => result && call) true

/-- The function `Aura::CallScriptPrepareProcHandlers`. -/
def CallScriptPrepareProcHandlers (prevented : List Bool) : Bool :=
  prevented.foldl (fun prepare p => if prepare then !p else prepare) true

/-- The function `Aura::CallScriptProcHandlers`. -/
def CallScriptProcHandlers (prevented : List Bool) : Bool :=
  prevented.foldl (fun handled p => handled || p) false

/-- The function `Aura::PrepareProcToTrigger`. -/
def PrepareProcToTrigger (K : Consts) (env : ProcEnv) (a : Aura) (eventInfo : ProcEventInfo)
    (now : Int) : Option Aura :=
  let prepare := CallScriptPrepareProcHandlers env.prepareProcPrevented
  if !prepare then some a
  else
    match env.procEntry with
    | none => none
    | some procEntry =>
      let exempt : Bool :=
        match eventInfo.GetSpellInfo with
        | some spellInfo => spellInfo.HasAttribute SpellAttr.SPELL_ATTR6_DONT_CONSUME_PROC_CHARGES
        | none => false
      let a1 :=
        if (procEntry.AttributesMask &&& K.PROC_ATTR_USE_STACKS_FOR_CHARGES == 0) &&
            a.IsUsingCharges && !exempt then
          { a with m_procCharges := toUInt8 ((a.m_procCharges : Int) - 1) }
        else a
      some (a1.AddProcCooldown (now + procEntry.Cooldown))

/-- The effect loop of `Aura::GetProcEffectMask`: the bits of the application's
effect mask whose effect is neither disabled by the proc entry nor rejected by
`CheckEffectProc`; `none` when `GetEffect(i)` is null. -/
def procEffectLoop (env : ProcEnv) (a : Aura) (procEntry : SpellProcEntry) :
    List Nat → Nat → Option Nat
  | [], procEffectMask => some procEffectMask
  | i :: rest, procEffectMask =>
    if procEffectMask &&& (1 <<< i) ≠ 0 then
      if procEntry.DisableEffectsMask &&& (1 <<< i) ≠ 0 then
        procEffectLoop env a procEntry rest ((procEffectMask &&& (4294967295 ^^^ (1 <<< i))) % 256)
      else
        match a.GetEffect i with
        | none => none
        | some _ =>
          if !env.CheckEffectProc i then
            procEffectLoop env a procEntry rest
              ((procEffectMask &&& (4294967295 ^^^ (1 <<< i))) % 256)
          else procEffectLoop env a procEntry rest procEffectMask
    else procEffectLoop env a procEntry rest procEffectMask

/-- The equipment check of `Aura::GetProcEffectMask` for a passive aura on a
player: whether the function returns 0 there. -/
def procEquipmentFails (K : Consts) (env : ProcEnv) (a : Aura) (eventInfo : ProcEventInfo) : Bool :=
  if a.m_spellInfo.IsPassive && env.targetIsPlayer && a.m_spellInfo.EquippedItemClass != -1 then
    if !a.m_spellInfo.HasAttribute SpellAttr.SPELL_ATTR3_IGNORE_PROC_SUBCLASS_MASK then
      if a.m_spellInfo.EquippedItemClass == K.ITEM_CLASS_WEAPON then
        if env.IsInFeralForm then true
        else
          let item : Option Item :=
            match eventInfo.GetDamageInfo with
            | some WeaponAttackType.BASE_ATTACK =>
              env.GetUseableItemByPos EquipmentSlot.EQUIPMENT_SLOT_MAINHAND
            | some WeaponAttackType.OFF_ATTACK =>
              env.GetUseableItemByPos EquipmentSlot.EQUIPMENT_SLOT_OFFHAND
            | some _ => env.GetUseableItemByPos EquipmentSlot.EQUIPMENT_SLOT_RANGED
            | none => none
          match item with
          | none => true
          | some it => it.IsBroken || !it.IsFitToSpellRequirements
      else
        let item : Option Item :=
          if a.m_spellInfo.EquippedItemClass == K.ITEM_CLASS_ARMOR then
            env.GetUseableItemByPos EquipmentSlot.EQUIPMENT_SLOT_OFFHAND
          else none
        match item with
        | none => true
        | some it => it.IsBroken || !it.IsFitToSpellRequirements
    else false
  else false

/-- The checks of `Aura::GetProcEffectMask` on the spell that triggered the
event: whether the function returns 0 there. -/
def procSpellFails (K : Consts) (a : Aura) (procEntry : SpellProcEntry)
    (eventInfo : ProcEventInfo) : Bool :=
  match eventInfo.GetProcSpell with
  | none => false
  | some spell =>
    if spell.IsTriggeredByAura then true
    else if !a.m_spellInfo.HasAttribute SpellAttr.SPELL_ATTR3_CAN_PROC_FROM_PROCS &&
        (procEntry.AttributesMask &&& K.PROC_ATTR_TRIGGERED_CAN_PROC == 0) &&
        (eventInfo.GetTypeMask &&& K.AUTO_ATTACK_PROC_FLAG_MASK == 0) &&
        (spell.IsTriggered && !spell.spellInfo.HasAttribute SpellAttr.SPELL_ATTR3_NOT_A_PROC) then
      true
    else spell.m_CastItem && (procEntry.AttributesMask &&& K.PROC_ATTR_CANT_PROC_FROM_ITEM_CAST != 0)

/-- The stealth check of `Aura::GetProcEffectMask`: whether the function returns
0 there. -/
def procStealthFails (a : Aura) (eventInfo : ProcEventInfo) : Bool :=
  a.m_spellInfo.HasAura AuraType.SPELL_AURA_MOD_STEALTH &&
    (match eventInfo.GetSpellInfo with
     | some spellInfo => spellInfo.HasAttribute SpellAttr.SPELL_ATTR0_CU_DONT_BREAK_STEALTH
     | none => false)

/-- The charge check of `Aura::GetProcEffectMask`: whether the function returns 0
there. -/
def procChargesFail (K : Consts) (a : Aura) (procEntry : SpellProcEntry)
    (eventInfo : ProcEventInfo) : Bool :=
  a.IsUsingCharges &&
    (a.GetCharges == 0 ||
      ((procEntry.AttributesMask &&& K.PROC_ATTR_REQ_SPELLMOD != 0) &&
        (match eventInfo.GetProcSpell with
         | some spell => spell.appliedModsCount == 0
         | none => false)))

/-- The function `Aura::GetProcEffectMask`. -/
def GetProcEffectMask (K : Consts) (env : ProcEnv) (a : Aura) (aurApp : AuraApplication)
    (eventInfo : ProcEventInfo) (now : Int) : Option Nat :=
  match env.procEntry with
  | none => some 0
  | some procEntry =>
    if procSpellFails K a procEntry eventInfo then some 0
    else if procStealthFails a eventInfo then some 0
    else if procChargesFail K a procEntry eventInfo then some 0
    else if a.IsProcOnCooldown now then some 0
    else if !env.CanSpellTriggerProcOnEvent then some 0
    else if !env.conditionsMet then some 0
    else if !CallScriptCheckProcHandlers env.checkProcHooks then some 0
    else
      match procEffectLoop env a procEntry (List.range K.MAX_SPELL_EFFECTS)
          (aurApp.GetEffectMask K) with
      | none => none
      | some procEffectMask =>
        if procEffectMask = 0 then some 0
        else if procEquipmentFails K env a eventInfo then some 0
        else if env.rollChance then some procEffectMask
        else some 0

/-- The handler loop of `Aura::TriggerProcOnEvent`; `none` when `GetEffect(i)` is
null for an effect the application has. -/
def procHandlerLoop (env : ProcEnv) (procEffectMask : Nat) (aurApp : AuraApplication) :
    List Nat → Aura → Option Aura
  | [], a => some a
  | i :: rest, a =>
    if procEffectMask &&& (1 <<< i) = 0 then procHandlerLoop env procEffectMask aurApp rest a
    else if aurApp.HasEffect i then
      match a.GetEffect i with
      | none => none
      | some _ => procHandlerLoop env procEffectMask aurApp rest (env.HandleProc i a)
    else procHandlerLoop env procEffectMask aurApp rest a

/-- The function `Aura::TriggerProcOnEvent`. -/
def TriggerProcOnEvent (K : Consts) (env : ProcEnv) (a : Aura) (procEffectMask : Nat)
    (aurApp : AuraApplication) : Option Aura :=
  let prevented := CallScriptProcHandlers env.procPrevented
  let handled : Option Aura :=
    if !prevented then
      (procHandlerLoop env procEffectMask aurApp (List.range K.MAX_SPELL_EFFECTS) a).map
        env.afterProcHooks
    else some a
  handled.bind fun a1 =>
    match env.procEntry with
    | none => none
    | some procEntry =>
      if procEntry.AttributesMask &&& K.PROC_ATTR_USE_STACKS_FOR_CHARGES ≠ 0 then
        (ModStackAmount K env.toAuraEnv a1 (-1) AuraRemoveFlags.ByDefault).map fun r => r.2
      else if a1.IsUsingCharges then
        if a1.GetCharges = 0 then a1.Remove AuraRemoveFlags.ByDefault else some a1
      else some a1

/-- The accessor `Aura::GetCasterGUID`. -/
def GetCasterGUID (a : Aura) : Nat := a.m_casterGuid

/-- The accessor `Aura::GetCastItemGUID`. -/
def GetCastItemGUID (a : Aura) : Nat := a.m_castItemGuid

/-- The function `Aura::HasEffectType`. -/
def HasEffectType (K : Consts) (a : Aura) (type : AuraType) : Bool :=
  (List.range K.MAX_SPELL_EFFECTS).any fun i =>
    match a.GetEffect i with
    | some eff => eff.GetAuraType == type
    | none => false

/-- The function `Aura::IsArea`. -/
def IsArea (K : Consts) (a : Aura) : Bool :=
  (List.range K.MAX_SPELL_EFFECTS).any fun i =>
    a.HasEffect i && (a.m_spellInfo.Effects i).IsAreaAuraEffect

/-- The function `Aura::IsPassive`. -/
def IsPassive (a : Aura) : Bool := a.m_spellInfo.IsPassive

/-- The function `Aura::CanBeSentToClient`. -/
def CanBeSentToClient (K : Consts) (a : Aura) : Bool :=
  if !a.IsPassive || a.m_spellInfo.HasAreaAuraEffect then true
  else
    a.HasEffectType K AuraType.SPELL_AURA_ABILITY_IGNORE_AURASTATE ||
    a.HasEffectType K AuraType.SPELL_AURA_CAST_WHILE_WALKING ||
    a.HasEffectType K AuraType.SPELL_AURA_OVERRIDE_ACTIONBAR_SPELLS ||
    a.HasEffectType K AuraType.SPELL_AURA_MOD_SPELL_COOLDOWN_BY_HASTE

/-- The aura types listed in the periodic switch of `Aura::CanStackWith`. -/
def isPeriodicStackType : AuraType → Bool
  | AuraType.SPELL_AURA_PERIODIC_DAMAGE => true
  | AuraType.SPELL_AURA_PERIODIC_DUMMY => true
  | AuraType.SPELL_AURA_PERIODIC_HEAL => true
  | AuraType.SPELL_AURA_PERIODIC_TRIGGER_SPELL => true
  | AuraType.SPELL_AURA_PERIODIC_ENERGIZE => true
  | AuraType.SPELL_AURA_PERIODIC_MANA_LEECH => true
  | AuraType.SPELL_AURA_PERIODIC_LEECH => true
  | AuraType.SPELL_AURA_POWER_BURN => true
  | AuraType.SPELL_AURA_OBS_MOD_POWER => true
  | AuraType.SPELL_AURA_OBS_MOD_HEALTH => true
  | AuraType.SPELL_AURA_PERIODIC_TRIGGER_SPELL_WITH_VALUE => true
  | _ => false

/-- The trigger loop of `Aura::CanStackWith`: some effect of either spell has the
other aura's spell as trigger spell. -/
def hasTriggerLink (K : Consts) (a existingAura : Aura) : Bool :=
  (List.range K.MAX_SPELL_EFFECTS).any fun i =>
    (existingAura.m_spellInfo.Effects i).TriggerSpell == a.GetId ||
    (a.m_spellInfo.Effects i).TriggerSpell == existingAura.GetId

/-- The periodic loop of `Aura::CanStackWith`: some effect of this spell has a
listed periodic type and neither spell targets an area with that effect. -/
def hasStackablePeriodic (K : Consts) (a existingAura : Aura) : Bool :=
  (List.range K.MAX_SPELL_EFFECTS).any fun i =>
    isPeriodicStackType (a.m_spellInfo.Effects i).ApplyAuraName &&
    !((a.m_spellInfo.Effects i).IsTargetingArea ||
      (existingAura.m_spellInfo.Effects i).IsTargetingArea)

/-- The function `Aura::CanStackWith`. -/
def CanStackWith (K : Consts) (env : StackEnv) (a existingAura : Aura) : Bool :=
  if a.self = existingAura.self then true
  else
    let sameCaster : Bool := a.GetCasterGUID == existingAura.GetCasterGUID
    let existingSpellInfo := existingAura.m_spellInfo
    if a.GetType = AuraObjectType.DYNOBJ_AURA_TYPE ∨
        existingAura.GetType = AuraObjectType.DYNOBJ_AURA_TYPE then
      if sameCaster ∧ a.m_spellInfo.Id = existingSpellInfo.Id then false else true
    else if a.IsPassive && sameCaster &&
        (env.IsDifferentRankOf ||
          (a.m_spellInfo.Id == existingSpellInfo.Id && a.m_castItemGuid == 0)) then
      false
    else if hasTriggerLink K a existingAura then true
    else if a.m_spellInfo.HasAura AuraType.SPELL_AURA_TRACK_RESOURCES &&
        existingSpellInfo.HasAura AuraType.SPELL_AURA_TRACK_RESOURCES then
      env.CONFIG_ALLOW_TRACK_BOTH_RESOURCES
    else if env.IsAuraExclusiveBySpecificWith ||
        (sameCaster && env.IsAuraExclusiveBySpecificPerCasterWith) then
      false
    else if env.CheckSpellGroupStackRules = SpellGroupStackRule.SPELL_GROUP_STACK_RULE_EXCLUSIVE ∨
        env.CheckSpellGroupStackRules =
          SpellGroupStackRule.SPELL_GROUP_STACK_RULE_EXCLUSIVE_HIGHEST then
      false
    else if env.CheckSpellGroupStackRules =
          SpellGroupStackRule.SPELL_GROUP_STACK_RULE_EXCLUSIVE_FROM_SAME_CASTER ∧
        sameCaster = true then
      false
    else if a.m_spellInfo.SpellFamilyName ≠ existingSpellInfo.SpellFamilyName then true
    else if !sameCaster && existingAura.m_spellInfo.IsChanneled then true
    else if !sameCaster &&
        a.m_spellInfo.HasAttribute SpellAttr.SPELL_ATTR3_STACK_FOR_DIFF_CASTERS then
      true
    else if !sameCaster && hasStackablePeriodic K a existingAura then true
    else if a.HasEffectType K AuraType.SPELL_AURA_CONTROL_VEHICLE &&
        existingAura.HasEffectType K AuraType.SPELL_AURA_CONTROL_VEHICLE then
      match env.ownerVehicleSeats with
      | none => true
      | some seats => if seats = 0 then false else true
    else if env.IsRankOf then
      if a.m_spellInfo.IsMultiSlotAura && !a.IsArea K then true
      else if a.GetCastItemGUID != 0 && existingAura.GetCastItemGUID != 0 &&
          (a.GetCastItemGUID != existingAura.GetCastItemGUID &&
            a.m_spellInfo.HasAttribute SpellAttr.SPELL_ATTR0_CU_ENCHANT_PROC) then
        true
      else false
    else true

/-- The function `Aura::Update`. -/
def Update (K : Consts) (w : AuraWorld) (diff : Nat) : Option AuraWorld :=
  let a := w.aura
  if a.m_duration > 0 then
    let duration := toInt32 (a.m_duration - diff)
    let a1 := { a with m_duration := if duration < 0 then 0 else duration }
    if a1.m_timeCla ≠ 0 then
      if a1.m_timeCla > toInt32 diff then
        some { w with aura := { a1 with m_timeCla := toInt32 (a1.m_timeCla - diff) } }
      else
        match w.caster with
        | none => some { w with aura := a1 }
        | some caster =>
          let manaPerSecond : Int := toInt32 a1.m_spellInfo.ManaPerSecond
          if manaPerSecond ≠ 0 then
            let a2 := { a1 with m_timeCla := toInt32 (a1.m_timeCla + 1000 - diff) }
            let powertype := a2.m_spellInfo.PowerType
            if powertype = K.POWER_HEALTH then
              if toInt32 caster.GetHealth > manaPerSecond then
                some { aura := a2, caster := some (caster.ModifyHealth (-manaPerSecond)) }
              else
                (a2.Remove AuraRemoveFlags.ByDefault).map fun a3 =>
                  { aura := a3, caster := some caster }
            else if toInt32 (caster.GetPower powertype) ≥ manaPerSecond then
              some { aura := a2, caster := some (caster.ModifyPower powertype (-manaPerSecond)) }
            else
              (a2.Remove AuraRemoveFlags.ByDefault).map fun a3 =>
                { aura := a3, caster := some caster }
          else some { w with aura := a1 }
    else some { w with aura := a1 }
  else some w

/-- The function `Aura::UpdateTargetMap`: the guard, the reset of the interval
and the outcome of the resolution; the applications that are no longer bound
are queued for deletion. -/
def UpdateTargetMap (K : Consts) (env : UpdateEnv) (a : Aura) (apply : Bool) : Aura :=
  if a.IsRemoved then a
  else
    let a1 := { a with m_updateTargetMapInterval := K.UPDATE_TARGET_MAP_INTERVAL }
    let targets := env.resolveTargets a1 apply
    { a1 with
      m_applications := targets
      m_removedApplications := a1.m_removedApplications ++
        a1.m_applications.filter fun x => !targets.any fun y => y.self == x.self }

/-- The interval step of `Aura::UpdateOwner`, between `Update` and the update of
the effects; `UpdateTargetMap(caster)` is called with `apply = true`. -/
def UpdateOwner_interval (K : Consts) (env : UpdateEnv) (a : Aura) (diff : Nat) : Aura :=
  if a.m_updateTargetMapInterval ≤ toInt32 diff then UpdateTargetMap K env a true
  else { a with m_updateTargetMapInterval := toInt32 (a.m_updateTargetMapInterval - diff) }

/-- The end of `Aura::UpdateOwner`: the update of the effects and
`_DeleteRemovedApplications`. -/
def UpdateOwner_effects (K : Consts) (env : UpdateEnv) (a : Aura) (diff : Nat) : Aura :=
  { a with
    m_effects := fun i =>
      if i < K.MAX_SPELL_EFFECTS then (a.m_effects i).map (env.effectUpdate diff)
      else a.m_effects i
    m_removedApplications := [] }

/-- The function `Aura::UpdateOwner`. -/
def UpdateOwner (K : Consts) (env : UpdateEnv) (w : AuraWorld) (diff : Nat) : Option AuraWorld :=
  (Update K w diff).map fun w1 =>
    { aura := UpdateOwner_effects K env (UpdateOwner_interval K env w1.aura diff) diff
      caster := w1.caster }

end Aura

namespace AuraApplication

/-- Modelled from the spec: the accessor `AuraApplication::IsSelfcast`
(`SpellAuras.h` is not among the sources): the self-cast flag. -/
def IsSelfcast (K : Consts) (app : AuraApplication) : Bool := app._flags &&& K.AFLAG_CASTER != 0

/-- The function `AuraApplication::_InitFlags`. -/
def _InitFlags (K : Consts) (env : AppEnv) (base : Aura) (app : AuraApplication)
    (effMask : Nat) : AuraApplication :=
  let app1 := { app with
    _flags := app._flags ||| (if base.GetCasterGUID = app.target then K.AFLAG_CASTER else 0) }
  let app2 :=
    if app1.IsSelfcast K || !env.casterPresent || !env.IsFriendlyTo then
      let negativeFound := (List.range K.MAX_SPELL_EFFECTS).any fun i =>
        ((1 <<< i) &&& effMask != 0) && !base.m_spellInfo.IsPositiveEffect i
      { app1 with
        _flags := app1._flags ||| (if negativeFound then K.AFLAG_NEGATIVE else K.AFLAG_POSITIVE) }
    else
      let positiveFound := (List.range K.MAX_SPELL_EFFECTS).any fun i =>
        ((1 <<< i) &&& effMask != 0) && base.m_spellInfo.IsPositiveEffect i
      { app1 with
        _flags := app1._flags ||| (if positiveFound then K.AFLAG_POSITIVE else K.AFLAG_NEGATIVE) }
  if base.m_spellInfo.HasAttribute SpellAttr.SPELL_ATTR8_AURA_SEND_AMOUNT ||
      base.HasEffectType K AuraType.SPELL_AURA_OVERRIDE_ACTIONBAR_SPELLS then
    { app2 with _flags := app2._flags ||| K.AFLAG_ANY_EFFECT_AMOUNT_SENT }
  else app2

/-- The loop of the constructor that looks for a free slot: `itr` walks the
entries of the visible-aura map while `freeSlot` counts up; the result is the
value of `slot` after the loop. -/
def freeSlotLoop (K : Consts) : List (Nat × Nat) → Nat → Nat
  | [], freeSlot => if freeSlot < K.MAX_AURAS then freeSlot else K.MAX_AURAS
  | (key, _) :: itr, freeSlot =>
    if freeSlot < K.MAX_AURAS then
      if key ≠ freeSlot then freeSlot else freeSlotLoop K itr (freeSlot + 1)
    else K.MAX_AURAS

/-- The constructor `AuraApplication::AuraApplication(target, caster, aura,
effMask)` for the new object at the address `self`: the application and the
target afterwards. -/
def construct (K : Consts) (env : AppEnv) (u : UnitAuras) (self : Nat) (base : Aura)
    (effMask : Nat) : AuraApplication × UnitAuras :=
  let app0 : AuraApplication :=
    { self := self, target := u.guid, baseId := base.GetId, baseCasterGUID := base.GetCasterGUID,
      baseCastItemGUID := base.GetCastItemGUID, _removeMode := ⟨false, 0⟩,
      _slot := K.MAX_AURAS, _flags := 0, _effectsToApply := effMask, _needClientUpdate := false }
  let registered : AuraApplication × UnitAuras :=
    if base.CanBeSentToClient K then
      let slot : Nat :=
        match u.GetAuraApplication base.GetId base.GetCasterGUID base.GetCastItemGUID with
        | some foundAura => foundAura.GetSlot
        | none => freeSlotLoop K (u.visibleFind 0) 0
      if slot < K.MAX_AURAS then
        ({ app0 with _slot := slot, _needClientUpdate := true }, u.SetVisibleAura slot self)
      else (app0, u)
    else (app0, u)
  (_InitFlags K env base registered.1 effMask, registered.2)

/-- The function `AuraApplication::_Remove`: the application and the target
afterwards. -/
def _Remove (K : Consts) (u : UnitAuras) (app : AuraApplication) : AuraApplication × UnitAuras :=
  let slot := app.GetSlot
  if slot ≥ K.MAX_AURAS then (app, u)
  else
    let handedOver : Option UnitAuras :=
      match u.GetAuraApplication app.baseId app.baseCasterGUID app.baseCastItemGUID with
      | some foundAura =>
        if slot = foundAura.GetSlot then
          if u.GetVisibleAura slot = some app.self then
            some ((u.SetVisibleAura slot foundAura.self).markNeedClientUpdate foundAura.self)
          else some u
        else none
      | none => none
    match handedOver with
    | some u1 => (app, u1)
    | none => ({ app with _needClientUpdate := false }, u.RemoveVisibleAura slot)

end AuraApplication

/-- An operation on the applications of one target: the construction of an
application of the aura `base`, or the removal of the application at an
address. -/
inductive AppOp where
  | create (base : Aura) (env : AppEnv) (effMask : Nat)
  | remove (address : Nat)

/-- A target together with the address the next application object gets. -/
structure TargetState where
  unit : UnitAuras
  nextAddress : Nat

namespace TargetState

/-- A target without applications. -/
def empty (guid : Nat) : TargetState := ⟨⟨guid, [], fun _ => none⟩, 1⟩

/-- Modelled from the spec: the apply and unapply steps of the target
(`Unit::_CreateAuraApplication`, `Unit::_UnapplyAura`, not among the sources).
Creation runs the constructor and then registers the application among the
applied ones; removal takes the application off the applied ones and then
calls `AuraApplication::_Remove`. -/
def step (K : Consts) (s : TargetState) : AppOp → TargetState
  | AppOp.create base env effMask =>
    let r := AuraApplication.construct K env s.unit s.nextAddress base effMask
    { unit := { r.2 with m_appliedAuras := r.2.m_appliedAuras ++ [r.1] },
      nextAddress := s.nextAddress + 1 }
  | AppOp.remove address =>
    match s.unit.m_appliedAuras.find? fun app => app.self == address with
    | none => s
    | some app =>
      let u1 : UnitAuras :=
        { s.unit with m_appliedAuras := s.unit.m_appliedAuras.filter fun x => x.self != address }
      { s with unit := (AuraApplication._Remove K u1 app).2 }

/-- A sequence of constructions and removals on one target. -/
def run (K : Consts) (s : TargetState) (ops : List AppOp) : TargetState :=
  ops.foldl (step K) s

end TargetState

/-- Two applications belong to auras of the same identity (spell id, caster
GUID, cast-item GUID). -/
def AuraApplication.sameIdentity (x y : AuraApplication) : Prop :=
  x.baseId = y.baseId ∧ x.baseCasterGUID = y.baseCasterGUID ∧
    x.baseCastItemGUID = y.baseCastItemGUID

/-- The slot assignment of a target is consistent: no slot number exceeds
`MAX_AURAS`, every visible slot held by an applied application is a key of the
visible-aura map, applications sharing a visible slot have the same aura
identity, and applications of the same identity have the same slot number. -/
def SlotInvariant (K : Consts) (u : UnitAuras) : Prop :=
  (∀ x ∈ u.m_appliedAuras, x._slot ≤ K.MAX_AURAS) ∧
  (∀ x ∈ u.m_appliedAuras, x._slot < K.MAX_AURAS → (u.m_visibleAuras x._slot).isSome = true) ∧
  (∀ x ∈ u.m_appliedAuras, ∀ y ∈ u.m_appliedAuras,
    x._slot = y._slot → x._slot < K.MAX_AURAS → x.sameIdentity y) ∧
  (∀ x ∈ u.m_appliedAuras, ∀ y ∈ u.m_appliedAuras, x.sameIdentity y → x._slot = y._slot)

/-- The slot assignment of a target is sound: every visible slot held by an
applied application is a key of the visible-aura map, and applications sharing
a visible slot have the same aura identity. -/
def SlotSound (K : Consts) (u : UnitAuras) : Prop :=
  (∀ x ∈ u.m_appliedAuras, x._slot < K.MAX_AURAS → (u.m_visibleAuras x._slot).isSome = true) ∧
  (∀ x ∈ u.m_appliedAuras, ∀ y ∈ u.m_appliedAuras,
    x._slot = y._slot → x._slot < K.MAX_AURAS → x.sameIdentity y)

/-- Whether `AuraApplication::_Remove` of `app`, already taken off the applied
applications of `u`, frees the slot of `app` although an applied application of
the same identity still holds that slot: the one application that the lookup
finds has another slot number. -/
def AuraApplication.freesHeldSlot (K : Consts) (u : UnitAuras) (app : AuraApplication) : Bool :=
  decide (app.GetSlot < K.MAX_AURAS) &&
  (match u.GetAuraApplication app.baseId app.baseCasterGUID app.baseCastItemGUID with
    | some foundAura => foundAura.GetSlot != app.GetSlot
    | none => false) &&
  u.m_appliedAuras.any fun y =>
    y.baseId == app.baseId && y.baseCasterGUID == app.baseCasterGUID &&
      y.baseCastItemGUID == app.baseCastItemGUID && y._slot == app._slot

/-- Whether the operation `op` on the target is a removal whose `_Remove` frees
a slot that an applied application of the same identity still holds. -/
def TargetState.freesHeldSlot (K : Consts) (s : TargetState) : AppOp → Bool
  | AppOp.create _ _ _ => false
  | AppOp.remove address =>
    match s.unit.m_appliedAuras.find? fun app => app.self == address with
    | none => false
    | some app =>
      app.freesHeldSlot K
        { s.unit with m_appliedAuras := s.unit.m_appliedAuras.filter fun x => x.self != address }

/-- Whether no removal of the sequence frees a slot that an applied application
of the same identity still holds. -/
def TargetState.neverFreesHeldSlot (K : Consts) : TargetState → List AppOp → Bool
  | _, [] => true
  | s, op :: rest => !s.freesHeldSlot K op && neverFreesHeldSlot K (s.step K op) rest

/-! ## The calls of `Aura::SetStackAmount` -/

/-- A call made by `Aura::SetStackAmount`.  `HandleAuraSpecificMods` is recorded
with the address of the application, its two flags and the value that
`GetStackAmount()` has while the call runs; `ChangeAmount` with the effect index
and the new amount. -/
inductive StackCall where
  | HandleAuraSpecificMods (aurApp : Nat) (apply onReapply : Bool) (GetStackAmount : Nat)
  | ChangeAmount (effIndex : Nat) (newAmount : Int)
  | SetNeedClientUpdateForTargets
  deriving DecidableEq, Repr

/-- The aura during `Aura::SetStackAmount` and the calls made so far. -/
structure StackRun where
  aura : Aura
  calls : List StackCall

namespace StackRun

/-- The call `HandleAuraSpecificMods(aurApp, caster, apply, onReapply)`: it acts
on other objects and reads `GetStackAmount()` of the aura as it is at the time
of the call. -/
def HandleAuraSpecificMods (s : StackRun) (aurApp : AuraApplication) (apply onReapply : Bool) :
    StackRun :=
  { s with calls := s.calls ++
      [StackCall.HandleAuraSpecificMods aurApp.self apply onReapply s.aura.GetStackAmount] }

/-- The call `aurEff->ChangeAmount(aurEff->CalculateAmount(caster), false, true)`
on the effect of index `i`. -/
def ChangeAmount (env : AuraEnv) (s : StackRun) (i : Nat) (aurEff : AuraEffect) : StackRun :=
  let newAmount := env.calculateAmount s.aura.m_stackAmount aurEff
  let effects : Nat → Option AuraEffect := fun j =>
    if j = i then some { aurEff with m_amount := newAmount } else s.aura.m_effects j
  { aura := { s.aura with m_effects := effects },
    calls := s.calls ++ [StackCall.ChangeAmount i newAmount] }

end StackRun

/-- The map `std::unordered_map<Unit*, uint8>` from a unit (the address of the
object) to an effect mask: the entries in iteration order. -/
abbrev TargetMap := List (Nat × Nat)

/-- The lookup `targets.find(unit)`: the mask of the entry, if there is one. -/
def TargetMap.find (targets : TargetMap) (unit : Nat) : Option Nat :=
  List.lookup unit targets

/-- The update `itr->second |= bits` of the entry of `unit`; the result is stored
in 8 bits. -/
def TargetMap.orMask (targets : TargetMap) (unit bits : Nat) : TargetMap :=
  targets.map fun e => if e.1 = unit then (e.1, (e.2 ||| bits) % 2 ^ 8) else e

/-- The insertion `targets[unit] = bits` of a unit that has no entry; the mask is
stored in 8 bits.  The container does not fix the place of a new entry in the
iteration order; here it comes last. -/
def TargetMap.insert (targets : TargetMap) (unit bits : Nat) : TargetMap :=
  targets ++ [(unit, bits % 2 ^ 8)]

/-- The mask of `unit` in the map, 0 without entry. -/
def TargetMap.maskOf (targets : TargetMap) (unit : Nat) : Nat :=
  (TargetMap.find targets unit).getD 0

/-- The body of the merge loop of `FillTargetMap` for one unit of `units`. -/
def mergeUnit (targets : TargetMap) (unit effIndex : Nat) : TargetMap :=
  match TargetMap.find targets unit with
  | some _ => TargetMap.orMask targets unit (1 <<< effIndex)
  | none => TargetMap.insert targets unit (1 <<< effIndex)

/-- The merge loop `for (Unit* unit : units)` of `FillTargetMap`. -/
def mergeUnits (targets : TargetMap) (units : List Nat) (effIndex : Nat) : TargetMap :=
  units.foldl (fun targets unit => mergeUnit targets unit effIndex) targets

/-- The functions `UnitAura::FillTargetMap` and `DynObjAura::FillTargetMap` on an
empty map.  `units effIndex` is the content of the vector `units` when the merge
loop of the effect is reached, the empty list for an effect that
`UnitAura::FillTargetMap` skips by `continue`. -/
def Aura.FillTargetMap (K : Consts) (a : Aura) (units : Nat → List Nat) : TargetMap :=
  (List.range K.MAX_SPELL_EFFECTS).foldl
    (fun targets effIndex =>
      if !a.HasEffect effIndex then targets else mergeUnits targets (units effIndex) effIndex)
    []

/-- The map `targets` holds exactly the pairs of `P`: a unit has an entry iff
`P i unit` for some effect index `i`, and bit `i` of its mask is set iff
`P i unit`. -/
def TargetMap.Represents (targets : TargetMap) (P : Nat → Nat → Prop) : Prop :=
  (∀ u, (TargetMap.find targets u).isSome = true ↔ ∃ i, P i u) ∧
  (∀ u i, (TargetMap.maskOf targets u).testBit i = true ↔ P i u)

/-- The removal `targets.erase(itr)` of the entry of `unit`. -/
def TargetMap.erase (targets : TargetMap) (unit : Nat) : TargetMap :=
  targets.filter fun e => e.1 != unit

/-! ## The target operations of `Aura::UpdateTargetMap` -/

/-- A target operation of `Aura::UpdateTargetMap`: a call of
`unit->_UnapplyAura(aurApp, ByDefault)`, of
`unit->_CreateAuraApplication(this, effMask)` or of
`unit->_ApplyAura(aurApp, effMask)`, with the addresses of the unit and of the
application. -/
inductive TargetOp where
  | _UnapplyAura (unit aurApp : Nat)
  | _CreateAuraApplication (unit effMask : Nat)
  | _ApplyAura (unit aurApp effMask : Nat)
  deriving DecidableEq, Repr

/-- What the collaborators return to `Aura::UpdateTargetMap`.  A unit is the
address of the object. -/
structure TargetEnv where
  /-- The content of `units` in `FillTargetMap` for an effect index. -/
  units : Nat → List Nat
  /-- The value of `unit->GetGUID()`. -/
  GetGUID : Nat → Nat
  /-- The address of `aurApp->GetTarget()`. -/
  GetTarget : AuraApplication → Nat
  /-- The address of `GetOwner()`. -/
  GetOwner : Nat
  /-- The value of `CanBeAppliedOn(unit)`. -/
  CanBeAppliedOn : Nat → Bool
  /-- The value of `unit->IsImmunedToSpellEffect(GetSpellInfo(), effIndex, caster)`. -/
  IsImmunedToSpellEffect : Nat → Nat → Bool
  /-- The value of `unit->IsImmunedToSpell(GetSpellInfo(), caster)`. -/
  IsImmunedToSpell : Nat → Bool
  /-- The value of `unit->IsHighestExclusiveAura(this, true)`. -/
  IsHighestExclusiveAura : Nat → Bool
  /-- The value of `unit->IsInFlight()`. -/
  IsInFlight : Nat → Bool
  /-- The bases of `unit->GetAppliedAuras()` in order, each with what the
  collaborators return to `CanStackWith` for it. -/
  GetAppliedAuras : Nat → List (StackEnv × Aura)
  /-- The value of `GetOwner()->IsSelfOrInSameMap(unit)`. -/
  IsSelfOrInSameMap : Nat → Bool
  /-- The value of `GetOwner()->IsInWorld()`. -/
  ownerIsInWorld : Bool
  /-- The value of `GetOwner()->IsInMap(unit)`. -/
  IsInMap : Nat → Bool
  /-- The map `m_applications` after `unit->_CreateAuraApplication(this, effMask)`. -/
  _CreateAuraApplication : List AuraApplication → Nat → Nat → List AuraApplication
  /-- The map `m_applications` after `unit->_UnapplyAura(aurApp, ByDefault)`. -/
  _UnapplyAura : List AuraApplication → Nat → AuraApplication → List AuraApplication
  /-- The map `m_applications` after `unit->_ApplyAura(aurApp, effMask)`. -/
  _ApplyAura : List AuraApplication → Nat → AuraApplication → Nat → List AuraApplication

/-- The applications of the aura during `Aura::UpdateTargetMap`, the target
operations performed so far, and whether `ABORT()` or a failed `ASSERT` has
ended the call. -/
structure TargetRun where
  m_applications : List AuraApplication
  ops : List TargetOp
  aborted : Bool

/-- The state after a target operation that leaves `applications`. -/
def TargetRun.call (s : TargetRun) (applications : List AuraApplication) (op : TargetOp) :
    TargetRun :=
  { m_applications := applications, ops := s.ops ++ [op], aborted := s.aborted }

/-- The state after `ABORT()` or a failed `ASSERT`. -/
def TargetRun.abort (s : TargetRun) : TargetRun := { s with aborted := true }

/-- Modelled from the spec: the accessor `Aura::GetApplicationOfTarget(guid)`
(`SpellAuras.h` is not among the sources), the application that
`m_applications` holds for the GUID. -/
def GetApplicationOfTarget (applications : List AuraApplication) (guid : Nat) :
    Option AuraApplication :=
  applications.find? fun app => app.target == guid

/-- The loop "mark all auras as ready to remove" of `Aura::UpdateTargetMap`: the
queue `targetsToRemove` and the map without the units that are bound
already. -/
def markLoop (K : Consts) (env : TargetEnv) :
    List AuraApplication → TargetMap → List Nat × TargetMap
  | [], targets => ([], targets)
  | app :: rest, targets =>
    match TargetMap.find targets (env.GetTarget app) with
    | none =>
      let r := markLoop K env rest targets
      (env.GetTarget app :: r.1, r.2)
    | some effMask =>
      let r := markLoop K env rest (TargetMap.erase targets (env.GetTarget app))
      if app.GetEffectMask K != effMask || !env.CanBeAppliedOn (env.GetTarget app) then
        (env.GetTarget app :: r.1, r.2)
      else r

/-- The immunity loop of `Aura::UpdateTargetMap`: `effMask &= ~(1 << effIndex)`
for every effect the unit is immune to; on the 8 bits of the mask the
complement is `255 - (1 << effIndex) % 256`. -/
def clearImmuneEffects (K : Consts) (env : TargetEnv) (unit effMask : Nat) : Nat :=
  (List.range K.MAX_SPELL_EFFECTS).foldl
    (fun effMask effIndex =>
      if env.IsImmunedToSpellEffect unit effIndex then
        effMask &&& (255 - (1 <<< effIndex) % 2 ^ 8)
      else effMask)
    effMask

/-- The value of `addUnit` at the end of the checks of the register loop, for a
unit whose mask after the immunity loop is `effMask`. -/
def addUnit (K : Consts) (env : TargetEnv) (a : Aura) (unit effMask : Nat) : Bool :=
  let addUnit : Bool :=
    !(effMask == 0 || env.IsImmunedToSpell unit || !env.CanBeAppliedOn unit)
  let addUnit : Bool := if addUnit && !env.IsHighestExclusiveAura unit then false else addUnit
  let addUnit : Bool :=
    if a.GetType = AuraObjectType.DYNOBJ_AURA_TYPE ∧ env.IsInFlight unit = true then false
    else addUnit
  if addUnit = true ∧ unit ≠ env.GetOwner then
    (env.GetAppliedAuras unit).all fun existing => Aura.CanStackWith K existing.1 a existing.2
  else addUnit

/-- The loop "register auras for units" of `Aura::UpdateTargetMap` over the
entries of `targets`: the entries that are left in the map, and the state. -/
def registerLoop (K : Consts) (env : TargetEnv) (a : Aura) :
    TargetMap → TargetRun → TargetMap × TargetRun
  | [], s => ([], s)
  | (unit, effMask) :: rest, s =>
    match GetApplicationOfTarget s.m_applications (env.GetGUID unit) with
    | some aurApp =>
      if env.GetTarget aurApp ≠ unit then registerLoop K env a rest s
      else ((unit, effMask) :: rest, s.abort)
    | none =>
      let effMask1 := clearImmuneEffects K env unit effMask
      if !addUnit K env a unit effMask1 then registerLoop K env a rest s
      else if !env.IsSelfOrInSameMap unit then ((unit, effMask1) :: rest, s.abort)
      else
        let s1 := s.call (env._CreateAuraApplication s.m_applications unit effMask1)
          (TargetOp._CreateAuraApplication unit effMask1)
        let r := registerLoop K env a rest s1
        ((unit, effMask1) :: r.1, r.2)

/-- The loop "remove auras from units no longer needing them" of
`Aura::UpdateTargetMap` over `targetsToRemove`. -/
def unapplyLoop (env : TargetEnv) : List Nat → TargetRun → TargetRun
  | [], s => s
  | unit :: rest, s =>
    match GetApplicationOfTarget s.m_applications (env.GetGUID unit) with
    | some aurApp =>
      unapplyLoop env rest
        (s.call (env._UnapplyAura s.m_applications unit aurApp)
          (TargetOp._UnapplyAura unit aurApp.self))
    | none => unapplyLoop env rest s

/-- The loop "apply aura effects for units" of `Aura::UpdateTargetMap` over the
entries left in `targets`. -/
def applyLoop (env : TargetEnv) : TargetMap → TargetRun → TargetRun
  | [], s => s
  | (unit, effMask) :: rest, s =>
    match GetApplicationOfTarget s.m_applications (env.GetGUID unit) with
    | some aurApp =>
      if (!env.ownerIsInWorld && env.GetOwner == unit) || env.IsInMap unit then
        applyLoop env rest
          (s.call (env._ApplyAura s.m_applications unit aurApp effMask)
            (TargetOp._ApplyAura unit aurApp.self effMask))
      else s.abort
    | none => applyLoop env rest s

/-- The function `Aura::UpdateTargetMap` with its target operations recorded in
order: the guard, the filled map, the marking loop, the register loop, the
unapply loop and, for `apply = true`, the apply loop. -/
def Aura.UpdateTargetMap_calls (K : Consts) (env : TargetEnv) (a : Aura) (apply : Bool) :
    TargetRun :=
  let s0 : TargetRun := { m_applications := a.m_applications, ops := [], aborted := false }
  if a.IsRemoved then s0
  else
    let targets := a.FillTargetMap K env.units
    let marked := markLoop K env a.m_applications targets
    let registered := registerLoop K env a marked.2 s0
    if registered.2.aborted then registered.2
    else
      let s2 := unapplyLoop env marked.1 registered.2
      if !apply then s2 else applyLoop env registered.1 s2

/-! ## The operations on one aura -/

/-- A call of one of the functions of `Aura` that change the aura, with its
arguments; for `Update` and `UpdateOwner` the caster that the call finds. -/
inductive AuraOp where
  | SetCharges (charges : Nat)
  | SetDuration (duration : Int) (withMods : Bool)
  | RefreshDuration (withMods : Bool)
  | RefreshTimers
  | SetStackAmount (stackAmount : Nat)
  | ModStackAmount (num : Int) (removeMode : AuraRemoveFlags)
  | ModCharges (num : Int) (removeMode : AuraRemoveFlags)
  | Remove (removeMode : AuraRemoveFlags)
  | _Remove (removeMode : AuraRemoveFlags)
  | AddProcCooldown (cooldownEnd : Int)
  | PrepareProcToTrigger (eventInfo : ProcEventInfo) (now : Int)
  | TriggerProcOnEvent (procEffectMask : Nat) (aurApp : AuraApplication)
  | Update (caster : Option CasterState) (diff : Nat)
  | UpdateTargetMap (apply : Bool)
  | UpdateOwner (caster : Option CasterState) (diff : Nat)

/-- The aura after one operation; `none` when the call does not complete. -/
def AuraOp.run (K : Consts) (penv : ProcEnv) (uenv : UpdateEnv) (a : Aura) : AuraOp → Option Aura
  | AuraOp.SetCharges charges => some (a.SetCharges charges)
  | AuraOp.SetDuration duration withMods =>
    some (Aura.SetDuration penv.toAuraEnv a duration withMods)
  | AuraOp.RefreshDuration withMods => some (Aura.RefreshDuration K penv.toAuraEnv a withMods)
  | AuraOp.RefreshTimers => Aura.RefreshTimers K penv.toAuraEnv a
  | AuraOp.SetStackAmount stackAmount => some (Aura.SetStackAmount penv.toAuraEnv a stackAmount)
  | AuraOp.ModStackAmount num removeMode =>
    (Aura.ModStackAmount K penv.toAuraEnv a num removeMode).map fun r => r.2
  | AuraOp.ModCharges num removeMode =>
    (Aura.ModCharges penv.toAuraEnv a num removeMode).map fun r => r.2
  | AuraOp.Remove removeMode => a.Remove removeMode
  | AuraOp._Remove removeMode => a._Remove removeMode
  | AuraOp.AddProcCooldown cooldownEnd => some (a.AddProcCooldown cooldownEnd)
  | AuraOp.PrepareProcToTrigger eventInfo now => Aura.PrepareProcToTrigger K penv a eventInfo now
  | AuraOp.TriggerProcOnEvent procEffectMask aurApp =>
    Aura.TriggerProcOnEvent K penv a procEffectMask aurApp
  | AuraOp.Update caster diff =>
    (Aura.Update K { aura := a, caster := caster } diff).map fun w => w.aura
  | AuraOp.UpdateTargetMap apply => some (Aura.UpdateTargetMap K uenv a apply)
  | AuraOp.UpdateOwner caster diff =>
    (Aura.UpdateOwner K uenv { aura := a, caster := caster } diff).map fun w => w.aura

/-- The aura after a sequence of operations, each of which completes. -/
def AuraOp.runAll (K : Consts) (penv : ProcEnv) (uenv : UpdateEnv) : List AuraOp → Aura → Option Aura
  | [], a => some a
  | op :: rest, a => (op.run K penv uenv a).bind (AuraOp.runAll K penv uenv rest)

/-! ## The unapply loop of `Aura::_Remove` -/

/-- The applications that `m_applications` held before a call and does not hold
after it.  `Aura::_UnapplyForTarget`, the one function that erases an entry of
the map, pushes the application to `m_removedApplications`. -/
def unappliedBy (before after : List AuraApplication) : List AuraApplication :=
  before.filter fun x => !after.any fun y => y.self == x.self

/-- The loop of `Aura::_Remove`, which restarts from `m_applications.begin()`
after every `target->_UnapplyAura(aurApp, removeMode)`, for at most `fuel`
iterations; `none` when the map is not empty after these.  `unapply` gives the
map that the call leaves. -/
def Aura._Remove_loop (unapply : List AuraApplication → AuraApplication → List AuraApplication) :
    Nat → Aura → Option Aura
  | fuel, a =>
    match a.m_applications with
    | [] => some a
    | aurApp :: rest =>
      match fuel with
      | 0 => none
      | fuel + 1 =>
        let applications := unapply (aurApp :: rest) aurApp
        let removed := a.m_removedApplications ++ unappliedBy (aurApp :: rest) applications
        Aura._Remove_loop unapply fuel
          { a with m_applications := applications, m_removedApplications := removed }

/-- The end of `Aura::_Remove`: whether `m_dropEvent->ScheduleAbort()` is called,
and the aura with `m_dropEvent` cleared. -/
def Aura._Remove_dropEvent (a : Aura) : Aura × Bool :=
  if a.m_dropEvent then ({ a with m_dropEvent := false }, true) else (a, false)

/-- The function `Aura::_Remove` with its loop: both assertions, the removed
flag, the loop and the drop event.  The result is the aura and whether the drop
event was aborted. -/
def Aura._Remove_cascading
    (unapply : List AuraApplication → AuraApplication → List AuraApplication) (fuel : Nat)
    (a : Aura) (removeMode : AuraRemoveFlags) : Option (Aura × Bool) :=
  if a.m_isRemoved then none
  else if removeMode.DontResetPeriodicTimer then none
  else (Aura._Remove_loop unapply fuel { a with m_isRemoved := true }).map Aura._Remove_dropEvent

/-! ## Refresh or create -/

/-- The values of `owner->GetTypeId()` that `Aura::BuildEffectMaskForOwner`
distinguishes. -/
inductive TypeID where
  | TYPEID_UNIT
  | TYPEID_PLAYER
  | TYPEID_DYNAMICOBJECT
  | OTHER (n : Nat)
  deriving DecidableEq, Repr

/-- What the collaborators return to `Aura::TryRefreshStackOrCreate`. -/
structure CreateEnv where
  /-- The value of `owner->GetTypeId()`. -/
  GetTypeId : TypeID
  /-- The value of `spellProto->Effects[i].IsUnitOwnedAuraEffect()`. -/
  IsUnitOwnedAuraEffect : Nat → Bool
  /-- Whether `spellProto->Effects[i].Effect` is
  `SPELL_EFFECT_PERSISTENT_AREA_AURA`. -/
  IsPersistentAreaAura : Nat → Bool
  /-- The value of `caster || casterGUID`. -/
  casterGiven : Bool
  /-- The constant `MAX_EFFECT_MASK`. -/
  MAX_EFFECT_MASK : Nat
  /-- The aura that `owner->ToUnit()->_TryStackingOrRefreshingExistingAura` returns
  for an effect mask, as the routine leaves it; `none` for `nullptr`. -/
  _TryStackingOrRefreshingExistingAura : Nat → Option Aura
  /-- The aura that `Aura::Create` returns for an effect mask; `none` for
  `nullptr`. -/
  Create : Nat → Option Aura

/-- A call that `Aura::TryRefreshStackOrCreate` makes, with the effect mask
passed. -/
inductive CreateCall where
  | _TryStackingOrRefreshingExistingAura (effMask : Nat)
  | Create (effMask : Nat)
  deriving DecidableEq, Repr

/-- The outcome of `Aura::TryRefreshStackOrCreate`: the returned aura (`none` for
`nullptr`), the value stored in `*refresh`, and the calls made. -/
structure CreateResult where
  result : Option Aura
  refresh : Bool
  calls : List CreateCall

/-- The loops of `Aura::BuildEffectMaskForOwner`: `effMask |= 1 << i`, stored in
8 bits, for every effect index that `owned` accepts. -/
def ownedEffectMask (K : Consts) (owned : Nat → Bool) : Nat :=
  (List.range K.MAX_SPELL_EFFECTS).foldl
    (fun effMask i => if owned i then (effMask ||| 1 <<< i) % 2 ^ 8 else effMask)
    0

/-- The function `Aura::BuildEffectMaskForOwner`; `none` for `ABORT()`. -/
def Aura.BuildEffectMaskForOwner (K : Consts) (env : CreateEnv) (availableEffectMask : Nat) :
    Option Nat :=
  match env.GetTypeId with
  | TypeID.TYPEID_UNIT => some (ownedEffectMask K env.IsUnitOwnedAuraEffect &&& availableEffectMask)
  | TypeID.TYPEID_PLAYER =>
    some (ownedEffectMask K env.IsUnitOwnedAuraEffect &&& availableEffectMask)
  | TypeID.TYPEID_DYNAMICOBJECT =>
    some (ownedEffectMask K env.IsPersistentAreaAura &&& availableEffectMask)
  | TypeID.OTHER _ => none

/-- The function `Aura::TryRefreshStackOrCreate` for non-null `spellproto`,
`owner` and `refresh`; `none` when an assertion fails, on `ABORT()`, and when
`owner->ToUnit()` is null (the owner is neither a unit nor a player) where it is
dereferenced. -/
def Aura.TryRefreshStackOrCreate (K : Consts) (env : CreateEnv) (tryEffMask : Nat) :
    Option CreateResult :=
  if !env.casterGiven then none
  else if tryEffMask > env.MAX_EFFECT_MASK then none
  else
    match Aura.BuildEffectMaskForOwner K env tryEffMask with
    | none => none
    | some effMask =>
      if effMask = 0 then some { result := none, refresh := false, calls := [] }
      else if env.GetTypeId = TypeID.TYPEID_UNIT ∨ env.GetTypeId = TypeID.TYPEID_PLAYER then
        match env._TryStackingOrRefreshingExistingAura effMask with
        | some foundAura =>
          if foundAura.IsRemoved then
            some { result := none, refresh := false,
                   calls := [CreateCall._TryStackingOrRefreshingExistingAura effMask] }
          else
            some { result := some foundAura, refresh := true,
                   calls := [CreateCall._TryStackingOrRefreshingExistingAura effMask] }
        | none =>
          some { result := env.Create effMask, refresh := false,
                 calls := [CreateCall._TryStackingOrRefreshingExistingAura effMask,
                   CreateCall.Create effMask] }
      else none

/-! ## Apply and unapply of one effect -/

/-- The function `AuraApplication::_HandleEffect` on the application of the aura
`base`; `none` when an assertion fails.  The flags are stored in 8 bits, where
the complement of `1 << effIndex` is `255 ^ ((1 << effIndex) % 256)`;
`aurEff->HandleEffect` acts on the target, and `SetNeedClientUpdate()` marks the
application. -/
def AuraApplication._HandleEffect (base : Aura) (app : AuraApplication) (effIndex : Nat)
    (apply : Bool) : Option AuraApplication :=
  match base.GetEffect effIndex with
  | none => none
  | some _ =>
    if app.HasEffect effIndex != !apply then none
    else if (1 <<< effIndex) &&& app._effectsToApply = 0 then none
    else if apply then
      if app._flags &&& (1 <<< effIndex) ≠ 0 then none
      else
        some { app with
          _flags := (app._flags ||| 1 <<< effIndex) % 2 ^ 8, _needClientUpdate := true }
    else
      if app._flags &&& (1 <<< effIndex) = 0 then none
      else
        some { app with
          _flags := app._flags &&& (255 ^^^ ((1 <<< effIndex) % 2 ^ 8)), _needClientUpdate := true }

/-! ## Concrete objects for the scenarios -/

/-- The constants with the values of the upstream headers. -/
def exampleConsts : Consts where
  MAX_AURAS := 255
  MAX_SPELL_EFFECTS := 3
  UPDATE_TARGET_MAP_INTERVAL := 500
  IN_MILLISECONDS := 1000
  POWER_HEALTH := 4294967294
  PROC_ATTR_TRIGGERED_CAN_PROC := 2
  PROC_ATTR_REQ_SPELLMOD := 8
  PROC_ATTR_USE_STACKS_FOR_CHARGES := 16
  PROC_ATTR_CANT_PROC_FROM_ITEM_CAST := 256
  AUTO_ATTACK_PROC_FLAG_MASK := 60
  ITEM_CLASS_WEAPON := 2
  ITEM_CLASS_ARMOR := 4
  AFLAG_CASTER := 8
  AFLAG_POSITIVE := 16
  AFLAG_ANY_EFFECT_AMOUNT_SENT := 64
  AFLAG_NEGATIVE := 128

/-- A spell effect without trigger spell or area targeting. -/
def exampleEffectInfo : SpellEffectInfo where
  ApplyAuraName := AuraType.OTHER 4
  TriggerSpell := 0
  IsTargetingArea := false
  IsAreaAuraEffect := false

/-- A plain spell with the given id and stack amount. -/
def exampleSpell (id stackAmount : Nat) : SpellInfo where
  Id := id
  StackAmount := stackAmount
  ProcCharges := 0
  ManaPerSecond := 0
  PowerType := 0
  SpellFamilyName := 0
  EquippedItemClass := -1
  Effects := fun _ => exampleEffectInfo
  HasAttribute := fun _ => false
  HasAura := fun _ => false
  IsPositiveEffect := fun _ => true
  IsPassive := false
  IsChanneled := false
  IsMultiSlotAura := false
  IsRollingDurationOver := false
  HasAreaAuraEffect := false

/-- A unit aura of `spell` with the given stack and charge counts, 10 s of 30 s
left, no effects and no targets. -/
def exampleAura (spell : SpellInfo) (stack charges : Nat) : Aura where
  self := 1
  m_spellInfo := spell
  m_casterGuid := 7
  m_castItemGuid := 0
  ownerType := AuraObjectType.UNIT_AURA_TYPE
  ownerGuid := 7
  m_maxDuration := 30000
  m_duration := 10000
  m_rolledOverDuration := 0
  m_timeCla := 0
  m_updateTargetMapInterval := 500
  m_procCharges := charges
  m_stackAmount := stack
  m_effects := fun _ => none
  m_applications := []
  m_removedApplications := []
  m_isRemoved := false
  m_isUsingCharges := decide (charges ≠ 0)
  m_dropEvent := false
  m_procCooldown := 0

/-- An environment without proc entry and without spell mods, in which the
spell lasts `duration` and `CalcMaxCharges` yields the `ProcCharges` of the
spell. -/
def exampleEnv (duration : Int) : AuraEnv where
  procEntry := none
  chargesMod := fun n => n
  calcDuration := duration
  casterPresent := true
  durationWithMods := duration
  durationMod := fun d => d
  calculateAmount := fun _ eff => eff.m_amount
  calculatePeriodic := fun _ eff => eff

/-- An application of the example aura on target 7 with all three effect bits
set. -/
def exampleApplication : AuraApplication where
  self := 100
  target := 7
  baseId := 1
  baseCasterGUID := 7
  baseCastItemGUID := 0
  _removeMode := ⟨false, 0⟩
  _slot := 0
  _flags := 7
  _effectsToApply := 7
  _needClientUpdate := false

/-- A proc entry with the given attributes and a cooldown of 0. -/
def exampleProcEntry (attributes : Nat) : SpellProcEntry where
  AttributesMask := attributes
  DisableEffectsMask := 0
  Charges := 3
  Cooldown := 0

/-- An evaluation in which every check passes, no script intervenes and the
handlers leave the aura alone. -/
def exampleProcEnv : ProcEnv where
  toAuraEnv := { exampleEnv 30000 with procEntry := some (exampleProcEntry 0) }
  CanSpellTriggerProcOnEvent := true
  conditionsMet := true
  checkProcHooks := []
  CheckEffectProc := fun _ => true
  targetIsPlayer := false
  IsInFeralForm := false
  GetUseableItemByPos := fun _ => none
  rollChance := true
  prepareProcPrevented := [false]
  procPrevented := [false]
  HandleProc := fun _ a => a
  afterProcHooks := fun a => a

/-- A melee hit without triggering spell. -/
def exampleEvent : ProcEventInfo where
  GetProcSpell := none
  GetSpellInfo := none
  GetTypeMask := 4
  GetDamageInfo := some WeaponAttackType.BASE_ATTACK

/-- An aura with `charges` charges of at most 3 and all three effects. -/
def exampleChargedAura (charges : Nat) : Aura :=
  { exampleAura { exampleSpell 1 0 with ProcCharges := 3 } 1 charges with
    m_effects := fun i => if i < 3 then some ⟨AuraType.OTHER 4, 0, 0, 0⟩ else none }

/-- A collaborator state in which no rank, exclusivity or group rule applies. -/
def exampleStackEnv : StackEnv where
  IsDifferentRankOf := false
  IsRankOf := false
  IsAuraExclusiveBySpecificWith := false
  IsAuraExclusiveBySpecificPerCasterWith := false
  CheckSpellGroupStackRules := SpellGroupStackRule.SPELL_GROUP_STACK_RULE_DEFAULT
  CONFIG_ALLOW_TRACK_BOTH_RESOURCES := false
  ownerVehicleSeats := none

/-- A ground-area instance (owned by a dynamic object) of the spell `id`, cast by
`caster`; `self` is the address of the aura. -/
def exampleDynObjAura (self id caster : Nat) : Aura :=
  { exampleAura (exampleSpell id 0) 1 0 with
    self := self, m_casterGuid := caster, ownerType := AuraObjectType.DYNOBJ_AURA_TYPE,
    ownerGuid := 1000 + self }

/-- A spell whose first effect triggers the spell `trigger`. -/
def exampleTriggeringSpell (id trigger : Nat) : SpellInfo :=
  { exampleSpell id 0 with
    Effects := fun i => if i = 0 then { exampleEffectInfo with TriggerSpell := trigger }
      else exampleEffectInfo }

/-- An application of the aura `(id, caster 7, no cast item)` at the address
`self`, holding `slot`. -/
def exampleApp (self id slot : Nat) : AuraApplication :=
  { exampleApplication with self := self, baseId := id, _slot := slot }

/-- A target on which the applications at the addresses 11, 12 and 13 (spells
101, 102, 103) hold the visible slots 0, 1 and 3. -/
def exampleUnit : UnitAuras where
  guid := 7
  m_appliedAuras := [exampleApp 11 101 0, exampleApp 12 102 1, exampleApp 13 103 3]
  m_visibleAuras := fun k =>
    if k = 0 then some 11 else if k = 1 then some 12 else if k = 3 then some 13 else none

/-- A caster that is present and friendly. -/
def exampleAppEnv : AppEnv := ⟨true, true⟩

/-- The construction of an application of the aura of spell `id` cast by caster
7 without cast item. -/
def exampleCreate (id : Nat) : AppOp :=
  AppOp.create (exampleAura (exampleSpell id 0) 1 0) exampleAppEnv 7

/-- A resolution that finds no candidate, and effects that do not change. -/
def exampleUpdateEnv : UpdateEnv where
  resolveTargets := fun _ _ => []
  effectUpdate := fun _ eff => eff

/-- An area aura just resolved (interval 500) that is bound to one target; no
caster is found. -/
def exampleAreaWorld : AuraWorld where
  aura := { exampleAura (exampleSpell 1 0) 1 0 with m_applications := [exampleApplication] }
  caster := none

/-- A unit aura of `spell` at the address `self`, cast by `caster`, without
effects. -/
def exampleAuraOf (self : Nat) (spell : SpellInfo) (caster : Nat) : Aura :=
  { exampleAura spell 1 0 with self := self, m_casterGuid := caster }

/-- A spell whose first effect applies the aura type `type`. -/
def exampleSpellWithAura (id : Nat) (type : AuraType) : SpellInfo :=
  { exampleSpell id 0 with
    Effects := fun i => if i = 0 then { exampleEffectInfo with ApplyAuraName := type }
      else exampleEffectInfo }

/-- A unit aura at the address `self` whose only effect is a vehicle-control
effect. -/
def exampleVehicleAura (self id caster : Nat) : Aura :=
  { exampleAuraOf self (exampleSpellWithAura id AuraType.SPELL_AURA_CONTROL_VEHICLE) caster with
    m_effects := fun i =>
      if i = 0 then some ⟨AuraType.SPELL_AURA_CONTROL_VEHICLE, 0, 0, 0⟩ else none }

/-- The answers of the collaborators for two spells of one rank chain that no
exclusivity rule relates; the owner has no vehicle kit. -/
def exampleRankEnv : StackEnv := { exampleStackEnv with IsRankOf := true }

/-- A spell that costs `cost` per second of the power `powerType`. -/
def exampleDrainSpell (cost powerType : Nat) : SpellInfo :=
  { exampleSpell 1 0 with ManaPerSecond := cost, PowerType := powerType }

/-- A caster with the given health and with `power` in every pool. -/
def exampleCaster (health : Nat) (power : Int) : CasterState :=
  { health := health, power := fun _ => power }

/-- An aura of `spell` bound to one target, with `duration` left and the drain
timer at `timeCla`, together with its caster. -/
def exampleWorld (spell : SpellInfo) (duration timeCla : Int) (caster : Option CasterState) :
    AuraWorld where
  aura := { exampleAura spell 1 0 with
    m_applications := [exampleApplication], m_duration := duration, m_timeCla := timeCla }
  caster := caster

/-- An aura that has the effects 0 and 2. -/
def exampleEffectAura : Aura :=
  { exampleAura (exampleSpell 1 0) 1 0 with
    m_effects := fun i => if i = 0 ∨ i = 2 then some ⟨AuraType.OTHER 4, 0, 0, 0⟩ else none }

/-- The candidates of the effects: the units 10, 11 and again 10 for effect 0,
the unit 12 for effect 1, the unit 11 for effect 2. -/
def exampleUnits (effIndex : Nat) : List Nat :=
  if effIndex = 0 then [10, 11, 10] else if effIndex = 1 then [12]
  else if effIndex = 2 then [11] else []

/-- The aura with the effects 0 and 2, bound to the unit 1 by the application at
the address 100. -/
def exampleBoundAura : Aura :=
  { exampleEffectAura with m_applications := [{ exampleApplication with target := 1 }] }

/-- Collaborators for which the unit 2 is the only candidate (of effect 0) and
passes every check.  A unit has its address as GUID, the owner is the unit 7.
As `Aura::_ApplyForTarget` and `Aura::_UnapplyForTarget` do, the creation adds
an application (at the address `200 + unit`) to `m_applications` and the
unapply takes the application off. -/
def exampleTargetEnv : TargetEnv where
  units := fun effIndex => if effIndex = 0 then [2] else []
  GetGUID := fun unit => unit
  GetTarget := fun app => app.target
  GetOwner := 7
  CanBeAppliedOn := fun _ => true
  IsImmunedToSpellEffect := fun _ _ => false
  IsImmunedToSpell := fun _ => false
  IsHighestExclusiveAura := fun _ => true
  IsInFlight := fun _ => false
  GetAppliedAuras := fun _ => []
  IsSelfOrInSameMap := fun _ => true
  ownerIsInWorld := true
  IsInMap := fun _ => true
  _CreateAuraApplication := fun applications unit effMask =>
    applications ++
      [{ exampleApplication with
        self := 200 + unit, target := unit, _flags := 0, _effectsToApply := effMask }]
  _UnapplyAura := fun applications _ aurApp => applications.filter fun x => x.self != aurApp.self
  _ApplyAura := fun applications _ _ _ => applications

/-- An aura bound to the units 1, 2 and 3 (applications at the addresses 101, 102
and 103) with a pending charge-drop event. -/
def exampleCascadeAura : Aura :=
  { exampleAura (exampleSpell 1 0) 1 0 with
    m_applications :=
      [{ exampleApplication with self := 101, target := 1 },
        { exampleApplication with self := 102, target := 2 },
        { exampleApplication with self := 103, target := 3 }]
    m_dropEvent := true }

/-- An unapply that erases the entry of the target and, by a cascade, the entry
after it as well. -/
def exampleCascade (applications : List AuraApplication) (_aurApp : AuraApplication) :
    List AuraApplication :=
  applications.drop 2

/-- A unit owner and a spell whose effects 0 and 1 are unit-owned aura effects;
the owner has an aura of the spell, caster and cast item exactly when `found`
is given. -/
def exampleCreateEnv (found : Option Aura) : CreateEnv where
  GetTypeId := TypeID.TYPEID_UNIT
  IsUnitOwnedAuraEffect := fun i => decide (i < 2)
  IsPersistentAreaAura := fun _ => false
  casterGiven := true
  MAX_EFFECT_MASK := 7
  _TryStackingOrRefreshingExistingAura := fun _ => found
  Create := fun _ => some (exampleAuraOf 9 (exampleSpell 1 0) 7)

/-- The passive spell 1 of an item enchantment: its effect 0 overrides
action-bar spells, its other effects are of a plain type.  A passive spell is a
multi-slot aura. -/
def exampleItemSpell : SpellInfo :=
  { exampleSpell 1 0 with
    IsPassive := true
    IsMultiSlotAura := true
    Effects := fun i =>
      if i = 0 then
        { exampleEffectInfo with ApplyAuraName := AuraType.SPELL_AURA_OVERRIDE_ACTIONBAR_SPELLS }
      else exampleEffectInfo
    HasAura := fun t => t == AuraType.SPELL_AURA_OVERRIDE_ACTIONBAR_SPELLS || t == AuraType.OTHER 4 }

/-- The aura at the address `self` of the passive spell 1 cast by caster 7 from
the item 5, with the effects 0 and 1 of the spell that are in `effMask`. -/
def exampleItemAura (self effMask : Nat) : Aura :=
  { exampleAura exampleItemSpell 1 0 with
    self := self
    m_castItemGuid := 5
    m_effects := fun i =>
      if i < 2 ∧ (1 <<< i) &&& effMask ≠ 0 then
        some ⟨(exampleItemSpell.Effects i).ApplyAuraName, 0, 0, 0⟩
      else none }

/-- The construction of an application of the aura at `self` of the item spell
with the effects of `effMask`. -/
def exampleItemCreate (self effMask : Nat) : AppOp :=
  AppOp.create (exampleItemAura self effMask) exampleAppEnv effMask

/-- A target on which three auras of the item spell (same spell, caster and cast
item) are applied in turn: with the effects 0 and 1, with the effect 1 only,
and with the effects 0 and 1 again. -/
def exampleItemTarget : TargetState :=
  (TargetState.empty 7).run exampleConsts
    [exampleItemCreate 21 3, exampleItemCreate 22 2, exampleItemCreate 23 3]

/-- A rolling-duration aura without periodic effect that has `duration` left. -/
def exampleRollingAura (duration : Int) : Aura :=
  { exampleAura { exampleSpell 1 0 with IsRollingDurationOver := true } 1 0 with
    m_duration := duration }

/-- A rolling-duration aura with 2500 ms left whose effects 0, 1 and 2 have the
periods 3000 ms, none and 1000 ms. -/
def examplePeriodicRollingAura : Aura :=
  { exampleRollingAura 2500 with
    m_effects := fun i =>
      if i = 0 then some ⟨AuraType.OTHER 4, 0, 3000, 0⟩
      else if i = 1 then some ⟨AuraType.OTHER 4, 0, 0, 0⟩
      else if i = 2 then some ⟨AuraType.OTHER 4, 0, 1000, 0⟩ else none }

/-! ## Theorems -/

open Aura

/-! ### Machine integers -/

theorem toInt32_eq_self {x : Int} (h1 : INT32_MIN ≤ x) (h2 : x ≤ INT32_MAX) : toInt32 x = x := by
  unfold toInt32
  unfold INT32_MIN at h1
  unfold INT32_MAX at h2
  omega

theorem toUInt8_lt (x : Int) : toUInt8 x < 256 := by
  unfold toUInt8
  omega

theorem toUInt8_natCast {n : Nat} (h : n < 256) : toUInt8 (n : Int) = n := by
  unfold toUInt8
  omega

/-! ### Frame properties of the duration, charge and stack operations -/

theorem SetCharges_frame (a : Aura) (c : Nat) :
    (a.SetCharges c).m_procCharges = c ∧
    (a.SetCharges c).m_stackAmount = a.m_stackAmount ∧
    (a.SetCharges c).m_isRemoved = a.m_isRemoved ∧
    (a.SetCharges c).m_duration = a.m_duration ∧
    (a.SetCharges c).m_maxDuration = a.m_maxDuration := by
  unfold SetCharges
  split
  · next h => exact ⟨h, rfl, rfl, rfl, rfl⟩
  · exact ⟨rfl, rfl, rfl, rfl, rfl⟩

theorem RefreshDuration_frame (K : Consts) (env : AuraEnv) (a : Aura) (withMods : Bool) :
    (RefreshDuration K env a withMods).m_stackAmount = a.m_stackAmount ∧
    (RefreshDuration K env a withMods).m_isRemoved = a.m_isRemoved ∧
    (RefreshDuration K env a withMods).m_procCharges = a.m_procCharges ∧
    (RefreshDuration K env a withMods).m_spellInfo = a.m_spellInfo ∧
    (RefreshDuration K env a withMods).m_duration = (RefreshDuration K env a withMods).m_maxDuration := by
  unfold RefreshDuration SetDuration
  simp only [Bool.false_and, Bool.false_eq_true, if_false]
  split <;> split <;> simp

theorem RefreshTimers_frame {K : Consts} {env : AuraEnv} {a b : Aura}
    (h : RefreshTimers K env a = some b) :
    b.m_stackAmount = a.m_stackAmount ∧ b.m_isRemoved = a.m_isRemoved ∧
    b.m_procCharges = a.m_procCharges ∧ b.m_spellInfo = a.m_spellInfo ∧
    b.m_duration = b.m_maxDuration := by
  unfold RefreshTimers at h
  simp only [Option.map_eq_some'] at h
  obtain ⟨a2, h2, rfl⟩ := h
  have hf := RefreshDuration_frame K env a2 false
  have h2f : a2.m_stackAmount = a.m_stackAmount ∧ a2.m_isRemoved = a.m_isRemoved ∧
      a2.m_procCharges = a.m_procCharges ∧ a2.m_spellInfo = a.m_spellInfo := by
    split at h2
    · simp only [Option.map_eq_some'] at h2
      obtain ⟨r, _, rfl⟩ := h2
      exact ⟨rfl, rfl, rfl, rfl⟩
    · cases h2
      exact ⟨rfl, rfl, rfl, rfl⟩
  obtain ⟨f1, f2, f3, f4, f5⟩ := hf
  obtain ⟨g1, g2, g3, g4⟩ := h2f
  exact ⟨f1.trans g1, f2.trans g2, f3.trans g3, f4.trans g4, f5⟩

theorem minAmplitude_SetStackAmount (K : Consts) (env : AuraEnv) (a : Aura) (n : Nat) (D : Int) :
    minAmplitude K (SetStackAmount env a n) D = minAmplitude K a D := by
  unfold minAmplitude
  congr 1
  funext m i
  simp only [SetStackAmount, GetEffect]
  cases a.m_effects i <;> rfl

theorem RefreshTimers_isSome (K : Consts) (env : AuraEnv) (a : Aura) :
    (RefreshTimers K env a).isSome = RefreshTimersDefined K env a := by
  unfold RefreshTimers RefreshTimersDefined
  cases h : a.m_spellInfo.IsRollingDurationOver
  · simp [h]
  · simp only [h, Bool.not_true, Bool.false_or, Bool.not_false, if_true, Option.isSome_map']
    rfl

theorem RefreshTimersDefined_SetStackAmount (K : Consts) (env : AuraEnv) (a : Aura) (n : Nat) :
    RefreshTimersDefined K env (SetStackAmount env a n) = RefreshTimersDefined K env a := by
  unfold RefreshTimersDefined
  rw [show CalcMaxDuration env (SetStackAmount env a n) = CalcMaxDuration env a from rfl,
    minAmplitude_SetStackAmount]
  rfl

theorem ModStackAmount_update_spec (K : Consts) (env : AuraEnv) (a : Aura) (sa : Int)
    (removeMode : AuraRemoveFlags) :
    (RefreshTimersDefined K env a = true →
      (ModStackAmount_update K env a sa removeMode).isSome = true) ∧
    ∀ r, ModStackAmount_update K env a sa removeMode = some r →
      r.1 = false ∧ r.2.m_stackAmount = toUInt8 sa ∧ r.2.m_isRemoved = a.m_isRemoved := by
  unfold ModStackAmount_update
  constructor
  · intro hd
    simp only []
    split
    · rw [Option.isSome_map', RefreshTimers_isSome, RefreshTimersDefined_SetStackAmount, hd]
    · rfl
  · intro r hr
    simp only [] at hr
    split at hr
    · simp only [Option.map_eq_some'] at hr
      obtain ⟨a2, h2, rfl⟩ := hr
      obtain ⟨f1, f2, _, _, _⟩ := RefreshTimers_frame h2
      obtain ⟨_, g1, g2, _, _⟩ := SetCharges_frame a2 (CalcMaxCharges env a2)
      exact ⟨rfl, (g1.trans f1), (g2.trans f2)⟩
    · cases hr
      exact ⟨rfl, rfl, rfl⟩

theorem Remove_spec (a : Aura) (removeMode : AuraRemoveFlags)
    (h : removeMode.DontResetPeriodicTimer = false) :
    ∃ b, a.Remove removeMode = some b ∧ b.m_isRemoved = true ∧
      b.m_procCharges = a.m_procCharges ∧ b.m_stackAmount = a.m_stackAmount ∧
      b.m_isUsingCharges = a.m_isUsingCharges ∧ ∀ i, b.HasEffect i = a.HasEffect i := by
  unfold Remove Unit_RemoveOwnedAura _Remove IsRemoved
  cases hr : a.m_isRemoved
  · simp only [Bool.false_eq_true, if_false, h]
    cases a.GetType <;> exact ⟨_, rfl, rfl, rfl, rfl, rfl, fun _ => rfl⟩
  · simp only [if_true]
    exact ⟨_, rfl, hr, rfl, rfl, rfl, fun _ => rfl⟩

/-- C1 (amended): let `M = max(1, StackAmount)` with `StackAmount <= 255`. For an
aura whose stack count is in `[1, M]` and an `int32` value `num` whose sum with
the count does not exceed `INT32_MAX`, `ModStackAmount(num)` completes whenever
the remainder of the refresh is defined; whenever it completes it returns true
exactly when `count + num <= 0`, the aura is then removed, and otherwise the
stored count is again in `[1, M]`, exactly 1 for an unstackable spell. -/
theorem ModStackAmount_stack_count_invariant (K : Consts) (env : AuraEnv) (a : Aura) (num : Int)
    (removeMode : AuraRemoveFlags)
    (hS : a.m_spellInfo.StackAmount ≤ 255)
    (hlo : 1 ≤ a.m_stackAmount)
    (hhi : a.m_stackAmount ≤ max 1 a.m_spellInfo.StackAmount)
    (hmin : INT32_MIN ≤ num)
    (hmax : (a.m_stackAmount : Int) + num ≤ INT32_MAX) :
    (RefreshTimersDefined K env a = true →
      (ModStackAmount K env a num removeMode).isSome = true) ∧
    ∀ r, ModStackAmount K env a num removeMode = some r →
      (r.1 = true ↔ (a.m_stackAmount : Int) + num ≤ 0) ∧
      (r.1 = true → r.2.m_isRemoved = true) ∧
      (r.1 = false → 1 ≤ r.2.m_stackAmount ∧
        r.2.m_stackAmount ≤ max 1 a.m_spellInfo.StackAmount ∧
        (a.m_spellInfo.StackAmount = 0 → r.2.m_stackAmount = 1)) := by
  have hcount : a.m_stackAmount ≤ 255 := by omega
  have hsum : toInt32 ((a.m_stackAmount : Int) + num) = (a.m_stackAmount : Int) + num := by
    apply toInt32_eq_self _ hmax
    unfold INT32_MIN at *
    omega
  have hSi : toInt32 (a.m_spellInfo.StackAmount : Int) = (a.m_spellInfo.StackAmount : Int) := by
    apply toInt32_eq_self <;> (try unfold INT32_MIN) <;> (try unfold INT32_MAX) <;> omega
  have hrem := Remove_spec a removeMode.withoutDontReset rfl
  unfold ModStackAmount
  simp only [hsum, hSi]
  by_cases hc1 : num > 0 ∧ (a.m_stackAmount : Int) + num > (a.m_spellInfo.StackAmount : Int)
  · rw [if_pos hc1]
    by_cases hz : a.m_spellInfo.StackAmount = 0
    · rw [if_pos hz]
      obtain ⟨htot, hres⟩ := ModStackAmount_update_spec K env a 1 removeMode
      refine ⟨htot, fun r hr => ?_⟩
      obtain ⟨h1, h2, _⟩ := hres r hr
      have h8 : toUInt8 1 = 1 := by decide
      rw [h8] at h2
      refine ⟨?_, ?_, ?_⟩
      · rw [h1]; constructor
        · intro h; cases h
        · intro h; omega
      · rw [h1]; intro h; cases h
      · intro _; rw [h2]; exact ⟨le_refl 1, le_max_left 1 _, fun _ => rfl⟩
    · rw [if_neg hz]
      obtain ⟨htot, hres⟩ :=
        ModStackAmount_update_spec K env a (a.m_spellInfo.StackAmount : Int) removeMode
      refine ⟨htot, fun r hr => ?_⟩
      obtain ⟨h1, h2, _⟩ := hres r hr
      rw [toUInt8_natCast (by omega)] at h2
      refine ⟨?_, ?_, ?_⟩
      · rw [h1]; constructor
        · intro h; cases h
        · intro h; omega
      · rw [h1]; intro h; cases h
      · intro _; rw [h2]
        exact ⟨by omega, le_max_right 1 _, fun h => absurd h hz⟩
  · rw [if_neg hc1]
    by_cases hc2 : (a.m_stackAmount : Int) + num ≤ 0
    · rw [if_pos hc2]
      obtain ⟨b, hb, hbr, _⟩ := hrem
      rw [hb]
      refine ⟨fun _ => rfl, fun r hr => ?_⟩
      simp only [Option.map_some', Option.some.injEq] at hr
      subst hr
      exact ⟨⟨fun _ => hc2, fun _ => rfl⟩, fun _ => hbr, fun h => by cases h⟩
    · rw [if_neg hc2]
      obtain ⟨htot, hres⟩ :=
        ModStackAmount_update_spec K env a ((a.m_stackAmount : Int) + num) removeMode
      refine ⟨htot, fun r hr => ?_⟩
      obtain ⟨h1, h2, _⟩ := hres r hr
      have hM : (a.m_stackAmount : Int) + num ≤ max 1 a.m_spellInfo.StackAmount := by
        have : ((max 1 a.m_spellInfo.StackAmount : Nat) : Int) ≥ a.m_stackAmount := by
          exact_mod_cast hhi
        by_cases hn : num > 0
        · have : ¬ ((a.m_stackAmount : Int) + num > (a.m_spellInfo.StackAmount : Int)) :=
            fun h => hc1 ⟨hn, h⟩
          have h3 : (a.m_spellInfo.StackAmount : Int) ≤ max 1 a.m_spellInfo.StackAmount := by
            exact_mod_cast le_max_right 1 _
          omega
        · omega
      have hM2 : max 1 a.m_spellInfo.StackAmount ≤ 255 := max_le (by omega) hS
      have h8 : toUInt8 ((a.m_stackAmount : Int) + num) = ((a.m_stackAmount : Int) + num).toNat := by
        unfold toUInt8
        rw [Int.emod_eq_of_lt (by omega) (by omega)]
      rw [h8] at h2
      refine ⟨?_, ?_, ?_⟩
      · rw [h1]; constructor
        · intro h; cases h
        · intro h; exact absurd h hc2
      · rw [h1]; intro h; cases h
      · intro _; rw [h2]
        refine ⟨by omega, by omega, fun hz => ?_⟩
        rw [hz] at hM hhi
        simp only [Nat.max_zero] at hM hhi
        omega

/-- C1, witness: a spell with `StackAmount = 5`, three stacks, two more. -/
theorem ModStackAmount_stack_count_invariant_witness :
    (RefreshTimersDefined exampleConsts (exampleEnv 30000) (exampleAura (exampleSpell 1 5) 3 0) = true →
      (ModStackAmount exampleConsts (exampleEnv 30000) (exampleAura (exampleSpell 1 5) 3 0) 2
        AuraRemoveFlags.ByDefault).isSome = true) ∧
    ∀ r, ModStackAmount exampleConsts (exampleEnv 30000) (exampleAura (exampleSpell 1 5) 3 0) 2
        AuraRemoveFlags.ByDefault = some r →
      (r.1 = true ↔ (((exampleAura (exampleSpell 1 5) 3 0).m_stackAmount : Nat) : Int) + 2 ≤ 0) ∧
      (r.1 = true → r.2.m_isRemoved = true) ∧
      (r.1 = false → 1 ≤ r.2.m_stackAmount ∧
        r.2.m_stackAmount ≤ max 1 (exampleAura (exampleSpell 1 5) 3 0).m_spellInfo.StackAmount ∧
        ((exampleAura (exampleSpell 1 5) 3 0).m_spellInfo.StackAmount = 0 →
          r.2.m_stackAmount = 1)) :=
  ModStackAmount_stack_count_invariant exampleConsts (exampleEnv 30000)
    (exampleAura (exampleSpell 1 5) 3 0) 2 AuraRemoveFlags.ByDefault
    (by decide) (by decide) (by decide) (by decide) (by decide)

/-- C1, counterexample: with `StackAmount = 300` the count 255 lies in `[1, M]`,
yet `ModStackAmount(1)` keeps the aura and stores the count 0 (256 truncated to
8 bits); and with `StackAmount = 5`, count 1, `ModStackAmount(2147483647)`
removes the aura although `count + num` is positive (the 32-bit sum wraps). -/
theorem ModStackAmount_stack_count_counterexample :
    ((ModStackAmount exampleConsts (exampleEnv 30000) (exampleAura (exampleSpell 1 300) 255 0) 1
        AuraRemoveFlags.ByDefault).map (fun r => (r.1, r.2.m_stackAmount, r.2.m_isRemoved))
      = some (false, 0, false) ∧ 1 ≤ 255 ∧ 255 ≤ max 1 300) ∧
    ((ModStackAmount exampleConsts (exampleEnv 30000) (exampleAura (exampleSpell 1 5) 1 0)
        2147483647 AuraRemoveFlags.ByDefault).map (fun r => (r.1, r.2.m_isRemoved))
      = some (true, true) ∧ ¬ ((1 : Int) + 2147483647 ≤ 0)) := by
  decide

theorem CalcMaxCharges_le (env : AuraEnv) (a : Aura) : CalcMaxCharges env a ≤ 255 := by
  have h : ∀ x : Int, toUInt8 x ≤ 255 := fun x => by have := toUInt8_lt x; omega
  exact h _

/-- C2 (amended): for an aura that is using charges, whose maximum
`CalcMaxCharges()` is at least 1 and whose 8-bit charge count does not exceed
that maximum unless `num > 0`, and an `int32` value `num` whose sum with the
count does not exceed `INT32_MAX`, `ModCharges(num)` completes, leaves the count
in `[0, max]`, returns true exactly when `count + num <= 0`, the aura is then
removed, and an aura that survives has a count in `[1, max]`. -/
theorem ModCharges_clamps_and_removes (env : AuraEnv) (a : Aura) (num : Int)
    (husing : a.IsUsingCharges = true)
    (hu8 : a.m_procCharges ≤ 255)
    (hmax1 : 1 ≤ CalcMaxCharges env a)
    (hle : a.m_procCharges ≤ CalcMaxCharges env a ∨ 0 < num)
    (hmin : INT32_MIN ≤ num)
    (hsum : (a.m_procCharges : Int) + num ≤ INT32_MAX) :
    ∃ r, ModCharges env a num AuraRemoveFlags.ByDefault = some r ∧
      (r.1 = true ↔ (a.m_procCharges : Int) + num ≤ 0) ∧
      (r.1 = true → r.2.m_isRemoved = true) ∧
      r.2.m_procCharges ≤ CalcMaxCharges env a ∧
      (r.1 = false → 1 ≤ r.2.m_procCharges ∧ r.2.m_isRemoved = a.m_isRemoved) := by
  have hM := CalcMaxCharges_le env a
  have hs : toInt32 ((a.m_procCharges : Int) + num) = (a.m_procCharges : Int) + num := by
    apply toInt32_eq_self _ hsum
    unfold INT32_MIN at *
    omega
  unfold ModCharges
  simp only [husing, if_true, hs]
  by_cases hc1 : num > 0 ∧ (a.m_procCharges : Int) + num > (CalcMaxCharges env a : Int)
  · rw [if_pos hc1]
    obtain ⟨g1, _, g3, _, _⟩ := SetCharges_frame a (toUInt8 (CalcMaxCharges env a : Int))
    have h8 : toUInt8 (CalcMaxCharges env a : Int) = CalcMaxCharges env a :=
      toUInt8_natCast (by omega)
    refine ⟨(false, a.SetCharges (toUInt8 (CalcMaxCharges env a : Int))), rfl, ?_, ?_, ?_, ?_⟩
    · exact ⟨(fun h => by cases h), (fun h => by omega)⟩
    · intro h; cases h
    · show (a.SetCharges (toUInt8 (CalcMaxCharges env a : Int))).m_procCharges ≤ _
      rw [g1, h8]
    · intro _
      refine ⟨?_, g3⟩
      show 1 ≤ (a.SetCharges (toUInt8 (CalcMaxCharges env a : Int))).m_procCharges
      rw [g1, h8]; exact hmax1
  · rw [if_neg hc1]
    by_cases hc2 : (a.m_procCharges : Int) + num ≤ 0
    · rw [if_pos hc2]
      obtain ⟨b, hb, hbr, hbc, _⟩ := Remove_spec a AuraRemoveFlags.ByDefault rfl
      rw [hb]
      refine ⟨(true, b), rfl, ?_, ?_, ?_, ?_⟩
      · exact ⟨fun _ => hc2, fun _ => rfl⟩
      · intro _; exact hbr
      · show b.m_procCharges ≤ CalcMaxCharges env a
        rw [hbc]
        rcases hle with h | h
        · exact h
        · omega
      · intro h; cases h
    · rw [if_neg hc2]
      have hb : (a.m_procCharges : Int) + num ≤ (CalcMaxCharges env a : Int) := by
        by_cases hn : num > 0
        · have : ¬ ((a.m_procCharges : Int) + num > (CalcMaxCharges env a : Int)) :=
            fun h => hc1 ⟨hn, h⟩
          omega
        · rcases hle with h | h
          · have : (a.m_procCharges : Int) ≤ (CalcMaxCharges env a : Int) := by exact_mod_cast h
            omega
          · exact absurd h hn
      have h8 : toUInt8 ((a.m_procCharges : Int) + num) = ((a.m_procCharges : Int) + num).toNat := by
        unfold toUInt8
        rw [Int.emod_eq_of_lt (by omega) (by omega)]
      obtain ⟨g1, _, g3, _, _⟩ := SetCharges_frame a (toUInt8 ((a.m_procCharges : Int) + num))
      refine ⟨(false, a.SetCharges (toUInt8 ((a.m_procCharges : Int) + num))), rfl, ?_, ?_, ?_, ?_⟩
      · exact ⟨(fun h => by cases h), (fun h => absurd h hc2)⟩
      · intro h; cases h
      · show (a.SetCharges (toUInt8 ((a.m_procCharges : Int) + num))).m_procCharges ≤ _
        rw [g1, h8]; omega
      · intro _
        refine ⟨?_, g3⟩
        show 1 ≤ (a.SetCharges (toUInt8 ((a.m_procCharges : Int) + num))).m_procCharges
        rw [g1, h8]; omega

/-- C2, witness: 2 of at most 3 charges, one charge taken. -/
theorem ModCharges_clamps_and_removes_witness :
    ∃ r, ModCharges (exampleEnv 30000)
        (exampleAura { exampleSpell 1 0 with ProcCharges := 3 } 1 2) (-1)
        AuraRemoveFlags.ByDefault = some r ∧
      (r.1 = true ↔
        (((exampleAura { exampleSpell 1 0 with ProcCharges := 3 } 1 2).m_procCharges : Nat) : Int)
          + (-1) ≤ 0) ∧
      (r.1 = true → r.2.m_isRemoved = true) ∧
      r.2.m_procCharges ≤ CalcMaxCharges (exampleEnv 30000)
          (exampleAura { exampleSpell 1 0 with ProcCharges := 3 } 1 2) ∧
      (r.1 = false → 1 ≤ r.2.m_procCharges ∧
        r.2.m_isRemoved = (exampleAura { exampleSpell 1 0 with ProcCharges := 3 } 1 2).m_isRemoved) :=
  ModCharges_clamps_and_removes (exampleEnv 30000)
    (exampleAura { exampleSpell 1 0 with ProcCharges := 3 } 1 2) (-1)
    (by decide) (by decide) (by decide) (by decide) (by decide) (by decide)

/-- C2, counterexample: (a) 5 charges with maximum 3 and `num = 0` leaves the
count 5, outside `[0, max]`; (b) 1 charge with maximum 0 and `num = 1` stores
the count 0 and returns false, so the aura survives at zero charges; (c) 2
charges with maximum 3 and `num = 2147483647` removes the aura although the
adjusted count is positive (the 32-bit sum wraps). -/
theorem ModCharges_clamps_and_removes_counterexample :
    ((ModCharges (exampleEnv 30000) (exampleAura { exampleSpell 1 0 with ProcCharges := 3 } 1 5) 0
        AuraRemoveFlags.ByDefault).map (fun r => (r.1, r.2.m_procCharges, r.2.m_isRemoved))
      = some (false, 5, false) ∧
      CalcMaxCharges (exampleEnv 30000)
        (exampleAura { exampleSpell 1 0 with ProcCharges := 3 } 1 5) = 3) ∧
    ((ModCharges (exampleEnv 30000) (exampleAura { exampleSpell 1 0 with ProcCharges := 0 } 1 1) 1
        AuraRemoveFlags.ByDefault).map (fun r => (r.1, r.2.m_procCharges, r.2.m_isRemoved))
      = some (false, 0, false) ∧
      (exampleAura { exampleSpell 1 0 with ProcCharges := 0 } 1 1).IsUsingCharges = true) ∧
    ((ModCharges (exampleEnv 30000) (exampleAura { exampleSpell 1 0 with ProcCharges := 3 } 1 2)
        2147483647 AuraRemoveFlags.ByDefault).map (fun r => (r.1, r.2.m_isRemoved))
      = some (true, true) ∧ ¬ ((2 : Int) + 2147483647 ≤ 0)) := by
  decide

/-! ### Procs and charges -/

theorem RefreshTimers_maxDuration {K : Consts} {env : AuraEnv} {a b : Aura}
    (h : RefreshTimers K env a = some b) :
    (a.m_spellInfo.IsRollingDurationOver = false → b.m_maxDuration = CalcMaxDuration env a) ∧
    (a.m_spellInfo.IsRollingDurationOver = true →
      ∃ r, cRem a.m_duration (minAmplitude K a (CalcMaxDuration env a)) = some r ∧
        b.m_rolledOverDuration = r ∧ b.m_maxDuration = toInt32 (CalcMaxDuration env a + r)) := by
  unfold RefreshTimers at h
  simp only [Option.map_eq_some'] at h
  obtain ⟨a2, h2, rfl⟩ := h
  have hm : ∀ x : Aura, (RefreshDuration K env x false).m_maxDuration = x.m_maxDuration ∧
      (RefreshDuration K env x false).m_rolledOverDuration = x.m_rolledOverDuration := by
    intro x
    unfold RefreshDuration SetDuration
    simp only [Bool.false_and, Bool.false_eq_true, if_false]
    split <;> exact ⟨rfl, rfl⟩
  cases hroll : a.m_spellInfo.IsRollingDurationOver
  · simp only [hroll, Bool.not_false, Bool.not_true, Bool.false_eq_true, if_false,
      Option.some.injEq] at h2
    subst h2
    exact ⟨fun _ => (hm _).1, fun h => Bool.noConfusion h⟩
  · simp only [hroll, Bool.not_true, Bool.not_false, if_true, Option.map_eq_some'] at h2
    obtain ⟨r, hr, rfl⟩ := h2
    exact ⟨fun h => Bool.noConfusion h, fun _ => ⟨r, hr, (hm _).2, (hm _).1⟩⟩

/-- C4 (amended): for a spell with `StackAmount = S >= 1` and an aura whose
8-bit stack count is already `S`, `ModStackAmount(+1)` without the
`DontResetPeriodicTimer` flag, whenever the remainder of the refresh is defined
(always for a spell that is not rolling-duration), does not remove the aura,
leaves the stored count equal to `S`, and refreshes: afterwards the duration
equals the maximum duration, which is `CalcMaxDuration()` for a spell that is
not rolling-duration, and the charge count equals `CalcMaxCharges()`. -/
theorem ModStackAmount_at_cap_refreshes (K : Consts) (env : AuraEnv) (a : Aura)
    (removeMode : AuraRemoveFlags)
    (hS : 1 ≤ a.m_spellInfo.StackAmount)
    (hcount : a.m_stackAmount = a.m_spellInfo.StackAmount)
    (h8 : a.m_stackAmount ≤ 255)
    (hflag : removeMode.DontResetPeriodicTimer = false)
    (hdef : RefreshTimersDefined K env a = true) :
    ∃ r, ModStackAmount K env a 1 removeMode = some r ∧
      r.1 = false ∧ r.2.m_isRemoved = a.m_isRemoved ∧
      r.2.m_stackAmount = a.m_spellInfo.StackAmount ∧
      r.2.m_duration = r.2.m_maxDuration ∧
      (a.m_spellInfo.IsRollingDurationOver = false → r.2.m_maxDuration = CalcMaxDuration env a) ∧
      r.2.m_procCharges = CalcMaxCharges env a := by
  have hS8 : a.m_spellInfo.StackAmount ≤ 255 := hcount ▸ h8
  have hsum : toInt32 ((a.m_stackAmount : Int) + 1) = (a.m_stackAmount : Int) + 1 := by
    apply toInt32_eq_self <;> (try unfold INT32_MIN) <;> (try unfold INT32_MAX) <;> omega
  have hSi : toInt32 (a.m_spellInfo.StackAmount : Int) = (a.m_spellInfo.StackAmount : Int) := by
    apply toInt32_eq_self <;> (try unfold INT32_MIN) <;> (try unfold INT32_MAX) <;> omega
  have hSu : toUInt8 (a.m_spellInfo.StackAmount : Int) = a.m_spellInfo.StackAmount :=
    toUInt8_natCast (by omega)
  have hcond : (1 : Int) > 0 ∧ (a.m_stackAmount : Int) + 1 > (a.m_spellInfo.StackAmount : Int) := by
    rw [hcount]; omega
  have hne : ¬ a.m_spellInfo.StackAmount = 0 := by omega
  unfold ModStackAmount
  simp only [hsum, hSi]
  rw [if_pos hcond, if_neg hne]
  unfold ModStackAmount_update
  have hrefresh : (decide ((a.m_spellInfo.StackAmount : Int) ≥ (a.GetStackAmount : Int)) &&
      (decide (a.m_spellInfo.StackAmount ≠ 0) ||
        !a.m_spellInfo.HasAttribute SpellAttr.SPELL_ATTR1_DONT_REFRESH_DURATION_ON_RECAST) &&
      !removeMode.DontResetPeriodicTimer) = true := by
    unfold GetStackAmount
    rw [hcount, hflag]
    simp [hne]
  simp only [hrefresh, if_true, hSu]
  have hsome : (RefreshTimers K env (SetStackAmount env a a.m_spellInfo.StackAmount)).isSome
      = true := by
    rw [RefreshTimers_isSome, RefreshTimersDefined_SetStackAmount, hdef]
  obtain ⟨a2, ha2⟩ := Option.isSome_iff_exists.mp hsome
  rw [ha2]
  obtain ⟨f1, f2, _, f4, f5⟩ := RefreshTimers_frame ha2
  obtain ⟨m1, _⟩ := RefreshTimers_maxDuration ha2
  obtain ⟨g1, g2, g3, g4, g5⟩ := SetCharges_frame a2 (CalcMaxCharges env a2)
  refine ⟨(false, a2.SetCharges (CalcMaxCharges env a2)), rfl, rfl, g3.trans f2, g2.trans f1, ?_,
    ?_, ?_⟩
  · exact g4.trans (f5.trans g5.symm)
  · intro hroll
    exact g5.trans (m1 hroll)
  · refine g1.trans ?_
    unfold CalcMaxCharges
    rw [f4]
    rfl

/-- C4, witness (the scenario): stack amount 5, a 6th stack leaves the count at
5 and refreshes the duration. -/
theorem ModStackAmount_at_cap_refreshes_witness :
    ∃ r, ModStackAmount exampleConsts (exampleEnv 30000) (exampleAura (exampleSpell 1 5) 5 0) 1
        AuraRemoveFlags.ByDefault = some r ∧
      r.1 = false ∧ r.2.m_isRemoved = (exampleAura (exampleSpell 1 5) 5 0).m_isRemoved ∧
      r.2.m_stackAmount = (exampleAura (exampleSpell 1 5) 5 0).m_spellInfo.StackAmount ∧
      r.2.m_duration = r.2.m_maxDuration ∧
      ((exampleAura (exampleSpell 1 5) 5 0).m_spellInfo.IsRollingDurationOver = false →
        r.2.m_maxDuration = CalcMaxDuration (exampleEnv 30000) (exampleAura (exampleSpell 1 5) 5 0)) ∧
      r.2.m_procCharges = CalcMaxCharges (exampleEnv 30000) (exampleAura (exampleSpell 1 5) 5 0) :=
  ModStackAmount_at_cap_refreshes exampleConsts (exampleEnv 30000)
    (exampleAura (exampleSpell 1 5) 5 0) AuraRemoveFlags.ByDefault
    (by decide) (by decide) (by decide) (by decide) (by decide)

/-- C4, counterexample: for a rolling-duration spell with `StackAmount = 5`
whose recomputed maximum duration is 0, `ModStackAmount(+1)` on an aura with 5
stacks takes the remainder `GetDuration() % 0` in `RefreshTimers` and does not
complete, so no refresh is performed. -/
theorem ModStackAmount_at_cap_counterexample :
    (exampleAura { exampleSpell 1 5 with IsRollingDurationOver := true } 5 0).m_stackAmount = 5 ∧
    minAmplitude exampleConsts
      (exampleAura { exampleSpell 1 5 with IsRollingDurationOver := true } 5 0) 0 = 0 ∧
    (ModStackAmount exampleConsts (exampleEnv 0)
      (exampleAura { exampleSpell 1 5 with IsRollingDurationOver := true } 5 0) 1
      AuraRemoveFlags.ByDefault).isNone = true := by
  decide

/-! ### The proc cooldown gate -/

/-- C7: while the stored proc-cooldown expiry is later than `now`
(`IsProcOnCooldown(now)`), `GetProcEffectMask` returns 0, whatever the proc entry,
the event, the script hooks, the effect checks, the equipment and the chance
roll are. -/
theorem GetProcEffectMask_on_cooldown (K : Consts) (env : ProcEnv) (a : Aura)
    (aurApp : AuraApplication) (eventInfo : ProcEventInfo) (now : Int)
    (hcd : a.IsProcOnCooldown now = true) :
    GetProcEffectMask K env a aurApp eventInfo now = some 0 := by
  unfold GetProcEffectMask
  cases env.procEntry with
  | none => rfl
  | some procEntry =>
    simp only [hcd, if_true]
    split
    · rfl
    · split
      · rfl
      · split <;> rfl

/-- C7, witness: with the cooldown running until 6, an evaluation at time 5 in
which every other check passes and the roll succeeds yields 0; once the
cooldown has elapsed (time 6) the same evaluation yields the mask 7. -/
theorem GetProcEffectMask_on_cooldown_witness :
    ({ exampleChargedAura 3 with m_procCooldown := 6 } : Aura).IsProcOnCooldown 5 = true ∧
    GetProcEffectMask exampleConsts exampleProcEnv { exampleChargedAura 3 with m_procCooldown := 6 }
      exampleApplication exampleEvent 5 = some 0 ∧
    GetProcEffectMask exampleConsts exampleProcEnv { exampleChargedAura 3 with m_procCooldown := 6 }
      exampleApplication exampleEvent 6 = some 7 :=
  ⟨by decide,
    GetProcEffectMask_on_cooldown exampleConsts exampleProcEnv
      { exampleChargedAura 3 with m_procCooldown := 6 } exampleApplication exampleEvent 5
      (by decide),
    by decide⟩

/-! ### Stacking rules -/

/-- C8: for two distinct auras that are both owned by a dynamic object,
`CanStackWith` is false when caster GUID and spell id coincide and true in
every other case, whatever the collaborators would answer to the later
rules. -/
theorem CanStackWith_ground_area (K : Consts) (env : StackEnv) (a existingAura : Aura)
    (hne : a.self ≠ existingAura.self)
    (ha : a.GetType = AuraObjectType.DYNOBJ_AURA_TYPE)
    (he : existingAura.GetType = AuraObjectType.DYNOBJ_AURA_TYPE) :
    (a.GetCasterGUID = existingAura.GetCasterGUID ∧
        a.m_spellInfo.Id = existingAura.m_spellInfo.Id →
      CanStackWith K env a existingAura = false) ∧
    (¬ (a.GetCasterGUID = existingAura.GetCasterGUID ∧
        a.m_spellInfo.Id = existingAura.m_spellInfo.Id) →
      CanStackWith K env a existingAura = true) := by
  unfold CanStackWith
  rw [if_neg hne]
  simp only [ha, he, or_self, if_true, beq_iff_eq]
  constructor
  · intro h; rw [if_pos h]
  · intro h; rw [if_neg h]

/-- C8, witness (the scenario): two ground-area instances of spell 5 cast by
caster 7 do not stack; an instance of the same spell from caster 8 stacks. -/
theorem CanStackWith_ground_area_witness :
    ((exampleDynObjAura 1 5 7).GetCasterGUID = (exampleDynObjAura 2 5 7).GetCasterGUID ∧
        (exampleDynObjAura 1 5 7).m_spellInfo.Id = (exampleDynObjAura 2 5 7).m_spellInfo.Id →
      CanStackWith exampleConsts exampleStackEnv (exampleDynObjAura 1 5 7)
        (exampleDynObjAura 2 5 7) = false) ∧
    (¬ ((exampleDynObjAura 1 5 7).GetCasterGUID = (exampleDynObjAura 2 5 7).GetCasterGUID ∧
        (exampleDynObjAura 1 5 7).m_spellInfo.Id = (exampleDynObjAura 2 5 7).m_spellInfo.Id) →
      CanStackWith exampleConsts exampleStackEnv (exampleDynObjAura 1 5 7)
        (exampleDynObjAura 2 5 7) = true) :=
  CanStackWith_ground_area exampleConsts exampleStackEnv (exampleDynObjAura 1 5 7)
    (exampleDynObjAura 2 5 7) (by decide) (by decide) (by decide)

/-- C10: for two distinct auras, neither owned by a dynamic object and not
rejected by the passive same-caster rule, a trigger link between the two
spells (some effect of one has the other's spell id as trigger spell) makes
`CanStackWith` true, whatever the resource-tracking toggle, the spell-specific
exclusivity checks and the spell-group stack rule are. -/
theorem CanStackWith_trigger_link (K : Consts) (env : StackEnv) (a existingAura : Aura)
    (hne : a.self ≠ existingAura.self)
    (ha : a.GetType ≠ AuraObjectType.DYNOBJ_AURA_TYPE)
    (he : existingAura.GetType ≠ AuraObjectType.DYNOBJ_AURA_TYPE)
    (hpassive : ¬ (a.IsPassive = true ∧ a.GetCasterGUID = existingAura.GetCasterGUID ∧
      (env.IsDifferentRankOf = true ∨
        (a.m_spellInfo.Id = existingAura.m_spellInfo.Id ∧ a.m_castItemGuid = 0))))
    (hlink : ∃ i, i < K.MAX_SPELL_EFFECTS ∧
      ((existingAura.m_spellInfo.Effects i).TriggerSpell = a.GetId ∨
        (a.m_spellInfo.Effects i).TriggerSpell = existingAura.GetId)) :
    CanStackWith K env a existingAura = true := by
  have hl : hasTriggerLink K a existingAura = true := by
    unfold hasTriggerLink
    rw [List.any_eq_true]
    obtain ⟨i, hi, h⟩ := hlink
    refine ⟨i, List.mem_range.mpr hi, ?_⟩
    simpa using h
  unfold CanStackWith
  rw [if_neg hne]
  simp only [ha, he, or_self, if_false]
  rw [if_neg, if_pos hl]
  intro hc
  apply hpassive
  simpa [and_assoc] using hc

/-- C10, witness: the aura of spell 20, which triggers spell 21, stacks with the
aura of spell 21 although both spell-specific exclusivity and an exclusive
spell group would deny it. -/
theorem CanStackWith_trigger_link_witness :
    CanStackWith exampleConsts
      { exampleStackEnv with
        IsAuraExclusiveBySpecificWith := true
        CheckSpellGroupStackRules := SpellGroupStackRule.SPELL_GROUP_STACK_RULE_EXCLUSIVE }
      (exampleAura (exampleTriggeringSpell 20 21) 1 0)
      { exampleAura (exampleSpell 21 0) 1 0 with self := 2 } = true ∧
    CanStackWith exampleConsts
      { exampleStackEnv with
        IsAuraExclusiveBySpecificWith := true
        CheckSpellGroupStackRules := SpellGroupStackRule.SPELL_GROUP_STACK_RULE_EXCLUSIVE }
      (exampleAura (exampleSpell 20 0) 1 0)
      { exampleAura (exampleSpell 21 0) 1 0 with self := 2 } = false :=
  ⟨CanStackWith_trigger_link exampleConsts _ _ _ (by decide) (by decide) (by decide) (by decide)
    ⟨0, by decide, Or.inr (by decide)⟩, by decide⟩

/-! ### Visible slots -/

theorem visibleEntries_from (u : UnitAuras) (f n : Nat) :
    ∀ e ∈ (List.range' f n).filterMap (fun k => (u.m_visibleAuras k).map fun v => (k, v)),
      f ≤ e.1 := by
  intro e he
  rw [List.mem_filterMap] at he
  obtain ⟨k, hk, hke⟩ := he
  rw [List.mem_range'_1] at hk
  cases hv : u.m_visibleAuras k with
  | none => rw [hv] at hke; cases hke
  | some v =>
    rw [hv] at hke
    simp only [Option.map_some', Option.some.injEq] at hke
    rw [← hke]
    exact hk.1

theorem freeSlotLoop_spec (K : Consts) (u : UnitAuras) :
    ∀ (n f : Nat), f + n = 256 → K.MAX_AURAS ≤ 256 →
      let r := AuraApplication.freeSlotLoop K
        ((List.range' f n).filterMap (fun k => (u.m_visibleAuras k).map fun v => (k, v))) f
      (r < K.MAX_AURAS → f ≤ r ∧ u.m_visibleAuras r = none ∧
        ∀ j, f ≤ j → j < r → (u.m_visibleAuras j).isSome = true) ∧
      (¬ r < K.MAX_AURAS → r = K.MAX_AURAS ∧
        ∀ j, f ≤ j → j < K.MAX_AURAS → (u.m_visibleAuras j).isSome = true) := by
  intro n
  induction n with
  | zero =>
    intro f hf hK
    have hf' : f = 256 := by omega
    subst hf'
    simp only [List.range'_zero, List.filterMap_nil, AuraApplication.freeSlotLoop]
    rw [if_neg (by omega)]
    exact ⟨fun h => absurd h (lt_irrefl _), fun _ => ⟨rfl, fun j h1 h2 => by omega⟩⟩
  | succ n ih =>
    intro f hf hK
    have hrange : List.range' f (n + 1) = f :: List.range' (f + 1) n := rfl
    rw [hrange, List.filterMap_cons]
    by_cases hlt : f < K.MAX_AURAS
    · cases hv : u.m_visibleAuras f with
      | some v =>
        simp only [Option.map_some', AuraApplication.freeSlotLoop, if_pos hlt, ne_eq,
          not_true_eq_false, if_false]
        obtain ⟨h1, h2⟩ := ih (f + 1) (by omega) hK
        refine ⟨fun hr => ?_, fun hr => ?_⟩
        · obtain ⟨a1, a2, a3⟩ := h1 hr
          refine ⟨by omega, a2, fun j hj1 hj2 => ?_⟩
          by_cases hjf : j = f
          · rw [hjf, hv]; rfl
          · exact a3 j (by omega) hj2
        · obtain ⟨a1, a2⟩ := h2 hr
          refine ⟨a1, fun j hj1 hj2 => ?_⟩
          by_cases hjf : j = f
          · rw [hjf, hv]; rfl
          · exact a2 j (by omega) hj2
      | none =>
        simp only [Option.map_none']
        have hres : AuraApplication.freeSlotLoop K
            ((List.range' (f + 1) n).filterMap
              (fun k => (u.m_visibleAuras k).map fun v => (k, v))) f = f := by
          have hkeys := visibleEntries_from u (f + 1) n
          cases hl : (List.range' (f + 1) n).filterMap
              (fun k => (u.m_visibleAuras k).map fun v => (k, v)) with
          | nil => simp only [AuraApplication.freeSlotLoop, if_pos hlt]
          | cons e rest =>
            have he : f + 1 ≤ e.1 := hkeys e (by rw [hl]; exact List.mem_cons_self e rest)
            obtain ⟨k, v⟩ := e
            simp only [AuraApplication.freeSlotLoop, if_pos hlt]
            rw [if_pos]
            simp only at he
            omega
        rw [hres]
        exact ⟨fun _ => ⟨le_refl f, hv, fun j h1 h2 => by omega⟩, fun h => absurd hlt h⟩
    · have hres : ∀ l, AuraApplication.freeSlotLoop K l f = K.MAX_AURAS := by
        intro l
        cases l with
        | nil => simp only [AuraApplication.freeSlotLoop, if_neg hlt]
        | cons e rest =>
          obtain ⟨k, v⟩ := e
          simp only [AuraApplication.freeSlotLoop, if_neg hlt]
      rw [hres]
      exact ⟨fun h => absurd h (lt_irrefl _), fun _ => ⟨rfl, fun j h1 h2 => by omega⟩⟩

/-- The slot the constructor finds for an aura without applied application of its
identity is the smallest number below `MAX_AURAS` that is not a key of the
visible-aura map, or `MAX_AURAS` when there is none. -/
theorem freeSlot_spec (K : Consts) (u : UnitAuras) (hK : K.MAX_AURAS ≤ 256) :
    (AuraApplication.freeSlotLoop K (u.visibleFind 0) 0 < K.MAX_AURAS →
      u.m_visibleAuras (AuraApplication.freeSlotLoop K (u.visibleFind 0) 0) = none ∧
      ∀ j, j < AuraApplication.freeSlotLoop K (u.visibleFind 0) 0 →
        (u.m_visibleAuras j).isSome = true) ∧
    (¬ AuraApplication.freeSlotLoop K (u.visibleFind 0) 0 < K.MAX_AURAS →
      AuraApplication.freeSlotLoop K (u.visibleFind 0) 0 = K.MAX_AURAS ∧
      ∀ j, j < K.MAX_AURAS → (u.m_visibleAuras j).isSome = true) := by
  have hfull := freeSlotLoop_spec K u 256 0 rfl hK
  have hentries : u.visibleEntries =
      (List.range' 0 256).filterMap (fun k => (u.m_visibleAuras k).map fun v => (k, v)) := by
    unfold UnitAuras.visibleEntries
    rw [List.range_eq_range']
  have hrange : List.range' 0 256 = 0 :: List.range' 1 255 := rfl
  cases hv : u.m_visibleAuras 0 with
  | some v =>
    have hfind : u.visibleFind 0 =
        (List.range' 0 256).filterMap (fun k => (u.m_visibleAuras k).map fun v => (k, v)) := by
      unfold UnitAuras.visibleFind
      rw [hentries, hrange, List.filterMap_cons, hv]
      simp only [Option.map_some']
      rw [List.dropWhile_cons_of_neg (by simp)]
    rw [hfind]
    simp only at hfull
    exact ⟨fun h => ⟨(hfull.1 h).2.1, fun j hj => (hfull.1 h).2.2 j (Nat.zero_le j) hj⟩,
      fun h => ⟨(hfull.2 h).1, fun j hj => (hfull.2 h).2 j (Nat.zero_le j) hj⟩⟩
  | none =>
    have hfind : u.visibleFind 0 = [] := by
      unfold UnitAuras.visibleFind
      rw [List.dropWhile_eq_nil_iff]
      intro e he
      rw [hentries, hrange, List.filterMap_cons, hv] at he
      simp only [Option.map_none'] at he
      have := visibleEntries_from u 1 255 e he
      simp only [bne_iff_ne, ne_eq]
      omega
    rw [hfind]
    simp only [AuraApplication.freeSlotLoop]
    by_cases h0 : 0 < K.MAX_AURAS
    · rw [if_pos h0]
      exact ⟨fun _ => ⟨hv, fun j hj => absurd hj (Nat.not_lt_zero j)⟩, fun h => absurd h0 h⟩
    · rw [if_neg h0]
      exact ⟨fun h => absurd h (lt_irrefl _), fun _ => ⟨rfl, fun j hj => by omega⟩⟩

theorem InitFlags_fields (K : Consts) (env : AppEnv) (base : Aura) (app : AuraApplication)
    (effMask : Nat) :
    (AuraApplication._InitFlags K env base app effMask)._slot = app._slot ∧
    (AuraApplication._InitFlags K env base app effMask).self = app.self ∧
    (AuraApplication._InitFlags K env base app effMask).baseId = app.baseId ∧
    (AuraApplication._InitFlags K env base app effMask).baseCasterGUID = app.baseCasterGUID ∧
    (AuraApplication._InitFlags K env base app effMask).baseCastItemGUID
      = app.baseCastItemGUID := by
  unfold AuraApplication._InitFlags
  simp only []
  split_ifs <;> exact ⟨rfl, rfl, rfl, rfl, rfl⟩

/-- C6: when an application is constructed for a client-visible aura (with
`MAX_AURAS` fitting the 8-bit slot) and the target has no applied application
of the same identity, the new application gets the smallest number in
`[0, MAX_AURAS)` that is not a key of the visible-aura map and the map gains
exactly that entry; when every such number is a key it keeps `MAX_AURAS` and the
map is unchanged.  When an application of the same identity exists, the new one
takes that application's slot number (a slot number being at most
`MAX_AURAS`). -/
theorem construct_lowest_free_slot (K : Consts) (env : AppEnv) (u : UnitAuras) (self : Nat)
    (base : Aura) (effMask : Nat)
    (hK : K.MAX_AURAS ≤ 255)
    (hsend : base.CanBeSentToClient K = true) :
    (u.GetAuraApplication base.GetId base.GetCasterGUID base.GetCastItemGUID = none →
      ((∃ k, k < K.MAX_AURAS ∧ u.m_visibleAuras k = none) →
        (AuraApplication.construct K env u self base effMask).1._slot < K.MAX_AURAS ∧
        u.m_visibleAuras (AuraApplication.construct K env u self base effMask).1._slot = none ∧
        (∀ j, j < (AuraApplication.construct K env u self base effMask).1._slot →
          (u.m_visibleAuras j).isSome = true) ∧
        (AuraApplication.construct K env u self base effMask).2.m_visibleAuras =
          fun k => if k = (AuraApplication.construct K env u self base effMask).1._slot
            then some self else u.m_visibleAuras k) ∧
      ((∀ k, k < K.MAX_AURAS → (u.m_visibleAuras k).isSome = true) →
        (AuraApplication.construct K env u self base effMask).1._slot = K.MAX_AURAS ∧
        (AuraApplication.construct K env u self base effMask).2.m_visibleAuras
          = u.m_visibleAuras)) ∧
    (∀ foundAura,
      u.GetAuraApplication base.GetId base.GetCasterGUID base.GetCastItemGUID = some foundAura →
      foundAura._slot ≤ K.MAX_AURAS →
      (AuraApplication.construct K env u self base effMask).1._slot = foundAura._slot) := by
  have hspec := freeSlot_spec K u (by omega)
  constructor
  · intro hnone
    have hc : AuraApplication.construct K env u self base effMask =
        (if AuraApplication.freeSlotLoop K (u.visibleFind 0) 0 < K.MAX_AURAS then
          (AuraApplication._InitFlags K env base
            { self := self, target := u.guid, baseId := base.GetId,
              baseCasterGUID := base.GetCasterGUID, baseCastItemGUID := base.GetCastItemGUID,
              _removeMode := ⟨false, 0⟩,
              _slot := AuraApplication.freeSlotLoop K (u.visibleFind 0) 0, _flags := 0,
              _effectsToApply := effMask, _needClientUpdate := true } effMask,
            u.SetVisibleAura (AuraApplication.freeSlotLoop K (u.visibleFind 0) 0) self)
        else
          (AuraApplication._InitFlags K env base
            { self := self, target := u.guid, baseId := base.GetId,
              baseCasterGUID := base.GetCasterGUID, baseCastItemGUID := base.GetCastItemGUID,
              _removeMode := ⟨false, 0⟩, _slot := K.MAX_AURAS, _flags := 0,
              _effectsToApply := effMask, _needClientUpdate := false } effMask, u)) := by
      unfold AuraApplication.construct
      simp only [hsend, if_true, hnone]
      split <;> rfl
    rw [hc]
    by_cases hs : AuraApplication.freeSlotLoop K (u.visibleFind 0) 0 < K.MAX_AURAS
    · rw [if_pos hs]
      obtain ⟨h1, h2⟩ := hspec.1 hs
      dsimp only
      rw [(InitFlags_fields K env base _ effMask).1]
      dsimp only
      refine ⟨fun _ => ⟨hs, h1, h2, rfl⟩, fun hall => ?_⟩
      have := hall _ hs
      rw [h1] at this
      cases this
    · rw [if_neg hs]
      obtain ⟨h1, h2⟩ := hspec.2 hs
      dsimp only
      rw [(InitFlags_fields K env base _ effMask).1]
      dsimp only
      refine ⟨fun hex => ?_, fun _ => ⟨rfl, rfl⟩⟩
      obtain ⟨k, hk, hkn⟩ := hex
      have := h2 k hk
      rw [hkn] at this
      cases this
  · intro foundAura hfound hle
    unfold AuraApplication.construct
    simp only [hsend, if_true, hfound, AuraApplication.GetSlot]
    by_cases hs : foundAura._slot < K.MAX_AURAS
    · rw [if_pos hs]
      exact (InitFlags_fields K env base _ effMask).1
    · rw [if_neg hs]
      rw [(InitFlags_fields K env base _ effMask).1]
      dsimp only
      omega

/-- C6, witness: on a target whose visible-aura map has the keys 0, 1 and 3, a
new application of spell 104 gets slot 2 and the map gains the entry at 2; a
new application of spell 102 takes slot 1 of the applied application of that
spell. -/
theorem construct_lowest_free_slot_witness :
    ((AuraApplication.construct exampleConsts exampleAppEnv exampleUnit 14
        (exampleAura (exampleSpell 104 0) 1 0) 7).1._slot = 2 ∧
      (AuraApplication.construct exampleConsts exampleAppEnv exampleUnit 14
        (exampleAura (exampleSpell 104 0) 1 0) 7).2.m_visibleAuras 2 = some 14) ∧
    (AuraApplication.construct exampleConsts exampleAppEnv exampleUnit 14
        (exampleAura (exampleSpell 102 0) 1 0) 7).1._slot = 1 := by
  have h := construct_lowest_free_slot exampleConsts exampleAppEnv exampleUnit 14
    (exampleAura (exampleSpell 104 0) 1 0) 7 (by decide) (by decide)
  have h2 := construct_lowest_free_slot exampleConsts exampleAppEnv exampleUnit 14
    (exampleAura (exampleSpell 102 0) 1 0) 7 (by decide) (by decide)
  obtain ⟨hlt, hfree, hbelow, hmap⟩ := (h.1 rfl).1 ⟨2, by decide, by decide⟩
  have hslot : (AuraApplication.construct exampleConsts exampleAppEnv exampleUnit 14
      (exampleAura (exampleSpell 104 0) 1 0) 7).1._slot = 2 := by decide
  refine ⟨⟨hslot, ?_⟩, ?_⟩
  · rw [hmap, hslot]; rfl
  · exact h2.2 (exampleApp 12 102 1) rfl (by decide)

theorem sameIdentity_refl (x : AuraApplication) : x.sameIdentity x := ⟨rfl, rfl, rfl⟩

theorem sameIdentity_symm {x y : AuraApplication} (h : x.sameIdentity y) : y.sameIdentity x :=
  ⟨h.1.symm, h.2.1.symm, h.2.2.symm⟩

theorem sameIdentity_trans {x y z : AuraApplication} (h1 : x.sameIdentity y)
    (h2 : y.sameIdentity z) : x.sameIdentity z :=
  ⟨h1.1.trans h2.1, h1.2.1.trans h2.2.1, h1.2.2.trans h2.2.2⟩

theorem GetAuraApplication_some {u : UnitAuras} {id c i : Nat} {f : AuraApplication}
    (h : u.GetAuraApplication id c i = some f) :
    f ∈ u.m_appliedAuras ∧ f.baseId = id ∧ f.baseCasterGUID = c ∧ f.baseCastItemGUID = i := by
  unfold UnitAuras.GetAuraApplication at h
  have hm := List.mem_of_find?_eq_some h
  have hp := List.find?_some h
  simp only [Bool.and_eq_true, beq_iff_eq] at hp
  exact ⟨hm, hp.1.1, hp.1.2, hp.2⟩

theorem GetAuraApplication_none {u : UnitAuras} {id c i : Nat}
    (h : u.GetAuraApplication id c i = none) :
    ∀ x ∈ u.m_appliedAuras, ¬ (x.baseId = id ∧ x.baseCasterGUID = c ∧ x.baseCastItemGUID = i) := by
  unfold UnitAuras.GetAuraApplication at h
  rw [List.find?_eq_none] at h
  intro x hx hid
  have := h x hx
  simp only [Bool.and_eq_true, beq_iff_eq, not_and] at this
  exact this ⟨hid.1, hid.2.1⟩ hid.2.2

theorem construct_sendable (K : Consts) (env : AppEnv) (u : UnitAuras) (self : Nat) (base : Aura)
    (effMask : Nat) (hsend : base.CanBeSentToClient K = true) :
    ∃ s, s = (match u.GetAuraApplication base.GetId base.GetCasterGUID base.GetCastItemGUID with
        | some foundAura => foundAura.GetSlot
        | none => AuraApplication.freeSlotLoop K (u.visibleFind 0) 0) ∧
      (AuraApplication.construct K env u self base effMask).1.baseId = base.GetId ∧
      (AuraApplication.construct K env u self base effMask).1.baseCasterGUID
        = base.GetCasterGUID ∧
      (AuraApplication.construct K env u self base effMask).1.baseCastItemGUID
        = base.GetCastItemGUID ∧
      (AuraApplication.construct K env u self base effMask).1.self = self ∧
      (AuraApplication.construct K env u self base effMask).2.m_appliedAuras
        = u.m_appliedAuras ∧
      (s < K.MAX_AURAS →
        (AuraApplication.construct K env u self base effMask).1._slot = s ∧
        (AuraApplication.construct K env u self base effMask).2.m_visibleAuras =
          fun k => if k = s then some self else u.m_visibleAuras k) ∧
      (¬ s < K.MAX_AURAS →
        (AuraApplication.construct K env u self base effMask).1._slot = K.MAX_AURAS ∧
        (AuraApplication.construct K env u self base effMask).2.m_visibleAuras
          = u.m_visibleAuras) := by
  refine ⟨_, rfl, ?_⟩
  unfold AuraApplication.construct
  simp only [hsend, if_true]
  generalize (match u.GetAuraApplication base.GetId base.GetCasterGUID base.GetCastItemGUID with
        | some foundAura => foundAura.GetSlot
        | none => AuraApplication.freeSlotLoop K (u.visibleFind 0) 0) = s
  by_cases hs : s < K.MAX_AURAS
  · rw [if_pos hs]
    obtain ⟨f1, f2, f3, f4, f5⟩ := InitFlags_fields K env base
      { self := self, target := u.guid, baseId := base.GetId,
        baseCasterGUID := base.GetCasterGUID, baseCastItemGUID := base.GetCastItemGUID,
        _removeMode := ⟨false, 0⟩, _slot := s, _flags := 0,
        _effectsToApply := effMask, _needClientUpdate := true } effMask
    exact ⟨f3, f4, f5, f2, rfl, fun _ => ⟨f1, rfl⟩, fun h => absurd hs h⟩
  · rw [if_neg hs]
    obtain ⟨f1, f2, f3, f4, f5⟩ := InitFlags_fields K env base
      { self := self, target := u.guid, baseId := base.GetId,
        baseCasterGUID := base.GetCasterGUID, baseCastItemGUID := base.GetCastItemGUID,
        _removeMode := ⟨false, 0⟩, _slot := K.MAX_AURAS, _flags := 0,
        _effectsToApply := effMask, _needClientUpdate := false } effMask
    exact ⟨f3, f4, f5, f2, rfl, fun h => absurd h hs, fun _ => ⟨f1, rfl⟩⟩

theorem SlotInvariant_create (K : Consts) (env : AppEnv) (s : TargetState) (base : Aura)
    (effMask : Nat) (hK : K.MAX_AURAS ≤ 255) (hsend : base.CanBeSentToClient K = true)
    (hinv : SlotInvariant K s.unit) :
    SlotInvariant K (s.step K (AppOp.create base env effMask)).unit := by
  obtain ⟨i1, i2, i3, i4⟩ := hinv
  obtain ⟨sl, hsl, c1, c2, c3, _, c5, c6, c7⟩ :=
    construct_sendable K env s.unit s.nextAddress base effMask hsend
  have hfree := freeSlot_spec K s.unit (by omega)
  set r := AuraApplication.construct K env s.unit s.nextAddress base effMask with hr
  have happ : (s.step K (AppOp.create base env effMask)).unit.m_appliedAuras
      = s.unit.m_appliedAuras ++ [r.1] := by
    show r.2.m_appliedAuras ++ [r.1] = _
    rw [c5]
  have hvis : (s.step K (AppOp.create base env effMask)).unit.m_visibleAuras
      = r.2.m_visibleAuras := rfl
  -- facts about the new application, by the two lookups
  have hnew : r.1._slot ≤ K.MAX_AURAS ∧
      (r.1._slot < K.MAX_AURAS → (r.2.m_visibleAuras r.1._slot).isSome = true) ∧
      (∀ y ∈ s.unit.m_appliedAuras, y._slot < K.MAX_AURAS →
        (r.2.m_visibleAuras y._slot).isSome = true) ∧
      (∀ y ∈ s.unit.m_appliedAuras, r.1._slot = y._slot → r.1._slot < K.MAX_AURAS →
        r.1.sameIdentity y) ∧
      (∀ y ∈ s.unit.m_appliedAuras, r.1.sameIdentity y → r.1._slot = y._slot) := by
    by_cases hs : sl < K.MAX_AURAS
    · obtain ⟨d1, d2⟩ := c6 hs
      rw [d1, d2]
      refine ⟨le_of_lt hs, fun _ => by simp, fun y hy hys => ?_, ?_, ?_⟩
      · by_cases hk : y._slot = sl
        · simp [hk]
        · simp only [hk, if_false]; exact i2 y hy hys
      · cases hlook : s.unit.GetAuraApplication base.GetId base.GetCasterGUID
            base.GetCastItemGUID with
        | some f =>
          rw [hlook] at hsl
          replace hsl : sl = f._slot := hsl
          obtain ⟨hf, g1, g2, g3⟩ := GetAuraApplication_some hlook
          intro y hy hslot _
          have hfy : f.sameIdentity y :=
            i3 f hf y hy (by rw [← hslot, hsl]) (by rw [← hsl]; exact hs)
          exact sameIdentity_trans ⟨c1.trans g1.symm, c2.trans g2.symm, c3.trans g3.symm⟩ hfy
        | none =>
          rw [hlook] at hsl
          replace hsl : sl = AuraApplication.freeSlotLoop K (s.unit.visibleFind 0) 0 := hsl
          intro y hy hslot _
          have h1 := (hfree.1 (by rw [← hsl]; exact hs)).1
          have h2 := i2 y hy (by rw [← hslot]; exact hs)
          rw [← hslot, hsl, h1] at h2
          cases h2
      · cases hlook : s.unit.GetAuraApplication base.GetId base.GetCasterGUID
            base.GetCastItemGUID with
        | some f =>
          rw [hlook] at hsl
          replace hsl : sl = f._slot := hsl
          obtain ⟨hf, g1, g2, g3⟩ := GetAuraApplication_some hlook
          intro y hy hid
          have hfy : f.sameIdentity y :=
            sameIdentity_trans ⟨g1.trans c1.symm, g2.trans c2.symm, g3.trans c3.symm⟩ hid
          rw [← i4 f hf y hy hfy, hsl]
        | none =>
          intro y hy hid
          exact absurd ⟨hid.1.symm.trans c1, hid.2.1.symm.trans c2, hid.2.2.symm.trans c3⟩
            (GetAuraApplication_none hlook y hy)
    · obtain ⟨d1, d2⟩ := c7 hs
      rw [d1, d2]
      refine ⟨le_refl _, fun h => absurd h (lt_irrefl _), fun y hy hys => i2 y hy hys,
        fun y _ _ h => absurd h (lt_irrefl _), ?_⟩
      cases hlook : s.unit.GetAuraApplication base.GetId base.GetCasterGUID
          base.GetCastItemGUID with
      | some f =>
        rw [hlook] at hsl
        replace hsl : sl = f._slot := hsl
        obtain ⟨hf, g1, g2, g3⟩ := GetAuraApplication_some hlook
        intro y hy hid
        have hfy : f.sameIdentity y :=
          sameIdentity_trans ⟨g1.trans c1.symm, g2.trans c2.symm, g3.trans c3.symm⟩ hid
        have hfs : f._slot = sl := hsl.symm
        have := i1 f hf
        rw [← i4 f hf y hy hfy]
        omega
      | none =>
        intro y hy hid
        exact absurd ⟨hid.1.symm.trans c1, hid.2.1.symm.trans c2, hid.2.2.symm.trans c3⟩
          (GetAuraApplication_none hlook y hy)
  obtain ⟨n1, n2, n3, n4, n5⟩ := hnew
  unfold SlotInvariant
  rw [happ, hvis]
  simp only [List.mem_append, List.mem_singleton]
  refine ⟨?_, ?_, ?_, ?_⟩
  · rintro x (hx | rfl)
    · exact i1 x hx
    · exact n1
  · rintro x (hx | rfl)
    · exact n3 x hx
    · exact n2
  · rintro x (hx | rfl) y (hy | rfl) hxy hlt
    · exact i3 x hx y hy hxy hlt
    · exact sameIdentity_symm (n4 x hx hxy.symm (by rw [← hxy]; exact hlt))
    · exact n4 y hy hxy hlt
    · exact sameIdentity_refl _
  · rintro x (hx | rfl) y (hy | rfl) hid
    · exact i4 x hx y hy hid
    · exact (n5 x hx (sameIdentity_symm hid)).symm
    · exact n5 y hy hid
    · rfl

theorem SlotInvariant_transfer (K : Consts) (u u' : UnitAuras) (hinv : SlotInvariant K u)
    (hsub : ∀ x ∈ u'.m_appliedAuras, ∃ x0 ∈ u.m_appliedAuras,
      x._slot = x0._slot ∧ x.sameIdentity x0)
    (hvis : ∀ x ∈ u'.m_appliedAuras, x._slot < K.MAX_AURAS →
      (u'.m_visibleAuras x._slot).isSome = true) :
    SlotInvariant K u' := by
  obtain ⟨i1, _, i3, i4⟩ := hinv
  refine ⟨fun x hx => ?_, hvis, fun x hx y hy hxy hlt => ?_, fun x hx y hy hid => ?_⟩
  · obtain ⟨x0, hx0, hs, _⟩ := hsub x hx
    rw [hs]; exact i1 x0 hx0
  · obtain ⟨x0, hx0, hsx, hix⟩ := hsub x hx
    obtain ⟨y0, hy0, hsy, hiy⟩ := hsub y hy
    have := i3 x0 hx0 y0 hy0 (by rw [← hsx, ← hsy]; exact hxy) (by rw [← hsx]; exact hlt)
    exact sameIdentity_trans hix (sameIdentity_trans this (sameIdentity_symm hiy))
  · obtain ⟨x0, hx0, hsx, hix⟩ := hsub x hx
    obtain ⟨y0, hy0, hsy, hiy⟩ := hsub y hy
    have := i4 x0 hx0 y0 hy0
      (sameIdentity_trans (sameIdentity_symm hix) (sameIdentity_trans hid hiy))
    rw [hsx, hsy]; exact this

theorem SlotInvariant_remove (K : Consts) (s : TargetState) (address : Nat)
    (hinv : SlotInvariant K s.unit) :
    SlotInvariant K (s.step K (AppOp.remove address)).unit := by
  simp only [TargetState.step]
  split
  · exact hinv
  · next app hfind =>
    have happ : app ∈ s.unit.m_appliedAuras := List.mem_of_find?_eq_some hfind
    obtain ⟨i1, i2, i3, i4⟩ := hinv
    simp only []
    set u1 : UnitAuras :=
      { s.unit with m_appliedAuras := s.unit.m_appliedAuras.filter fun x => x.self != address }
      with hu1
    have hsub1 : ∀ x ∈ u1.m_appliedAuras, x ∈ s.unit.m_appliedAuras := fun x hx =>
      (List.mem_filter.mp hx).1
    have hinv1 : SlotInvariant K u1 :=
      SlotInvariant_transfer K s.unit u1 ⟨i1, i2, i3, i4⟩
        (fun x hx => ⟨x, hsub1 x hx, rfl, sameIdentity_refl x⟩)
        (fun x hx hlt => i2 x (hsub1 x hx) hlt)
    unfold AuraApplication._Remove
    simp only [AuraApplication.GetSlot]
    by_cases hmax : app._slot ≥ K.MAX_AURAS
    · rw [if_pos hmax]; exact hinv1
    · rw [if_neg hmax]
      have hlt : app._slot < K.MAX_AURAS := not_le.mp hmax
      cases hlook : u1.GetAuraApplication app.baseId app.baseCasterGUID app.baseCastItemGUID with
      | some f =>
        obtain ⟨hf, g1, g2, g3⟩ := GetAuraApplication_some hlook
        have hslot : app._slot = f._slot :=
          i4 app happ f (hsub1 f hf) ⟨g1.symm, g2.symm, g3.symm⟩
        simp only [if_pos hslot]
        by_cases hv : u1.GetVisibleAura app._slot = some app.self
        · simp only [if_pos hv]
          apply SlotInvariant_transfer K s.unit _ ⟨i1, i2, i3, i4⟩
          · intro x hx
            simp only [UnitAuras.markNeedClientUpdate, UnitAuras.SetVisibleAura,
              List.mem_map] at hx
            obtain ⟨x0, hx0, rfl⟩ := hx
            refine ⟨x0, hsub1 x0 hx0, ?_, ?_⟩
            · split <;> rfl
            · split <;> exact sameIdentity_refl _
          · intro x hx hxlt
            simp only [UnitAuras.markNeedClientUpdate, UnitAuras.SetVisibleAura,
              List.mem_map] at hx
            obtain ⟨x0, hx0, rfl⟩ := hx
            have hs0 : (if x0.self = f.self then { x0 with _needClientUpdate := true }
                else x0)._slot = x0._slot := by split <;> rfl
            rw [hs0] at hxlt ⊢
            show (if x0._slot = app._slot then some f.self
              else s.unit.m_visibleAuras x0._slot).isSome = true
            by_cases hk : x0._slot = app._slot
            · rw [if_pos hk]; rfl
            · rw [if_neg hk]; exact i2 x0 (hsub1 x0 hx0) hxlt
        · simp only [if_neg hv]
          exact hinv1
      | none =>
        simp only []
        apply SlotInvariant_transfer K s.unit _ ⟨i1, i2, i3, i4⟩
        · intro x hx
          exact ⟨x, hsub1 x hx, rfl, sameIdentity_refl x⟩
        · intro x hx hxlt
          have hne : x._slot ≠ app._slot := by
            intro heq
            have hid := i3 x (hsub1 x hx) app happ heq hxlt
            exact GetAuraApplication_none hlook x hx hid
          show (if x._slot = app._slot then none else s.unit.m_visibleAuras x._slot).isSome = true
          rw [if_neg hne]
          exact i2 x (hsub1 x hx) hxlt

theorem SlotInvariant_run (K : Consts) (hK : K.MAX_AURAS ≤ 255) :
    ∀ (ops : List AppOp) (s : TargetState),
      (∀ base env effMask, AppOp.create base env effMask ∈ ops →
        base.CanBeSentToClient K = true) →
      SlotInvariant K s.unit → SlotInvariant K (s.run K ops).unit := by
  intro ops
  induction ops with
  | nil => intro s _ h; exact h
  | cons op rest ih =>
    intro s hops hinv
    unfold TargetState.run
    rw [List.foldl_cons]
    apply ih
    · intro base env effMask hmem
      exact hops base env effMask (List.mem_cons_of_mem op hmem)
    · cases op with
      | create base env effMask =>
        exact SlotInvariant_create K env s base effMask hK
          (hops base env effMask (List.mem_cons_self _ rest)) hinv
      | remove address => exact SlotInvariant_remove K s address hinv

theorem construct_hidden (K : Consts) (env : AppEnv) (u : UnitAuras) (self : Nat) (base : Aura)
    (effMask : Nat) (hsend : base.CanBeSentToClient K = false) :
    (AuraApplication.construct K env u self base effMask).1._slot = K.MAX_AURAS ∧
    (AuraApplication.construct K env u self base effMask).2 = u := by
  unfold AuraApplication.construct
  simp only [hsend, Bool.false_eq_true, if_false]
  exact ⟨(InitFlags_fields K env base _ effMask).1, trivial⟩

theorem SlotSound_create (K : Consts) (env : AppEnv) (s : TargetState) (base : Aura)
    (effMask : Nat) (hK : K.MAX_AURAS ≤ 255) (hinv : SlotSound K s.unit) :
    SlotSound K (s.step K (AppOp.create base env effMask)).unit := by
  obtain ⟨i2, i3⟩ := hinv
  cases hsend : base.CanBeSentToClient K
  · obtain ⟨h1, h2⟩ := construct_hidden K env s.unit s.nextAddress base effMask hsend
    set r := AuraApplication.construct K env s.unit s.nextAddress base effMask with hr
    have happ : (s.step K (AppOp.create base env effMask)).unit.m_appliedAuras
        = s.unit.m_appliedAuras ++ [r.1] := by
      show r.2.m_appliedAuras ++ [r.1] = _
      rw [h2]
    have hvis : (s.step K (AppOp.create base env effMask)).unit.m_visibleAuras
        = s.unit.m_visibleAuras := by
      show r.2.m_visibleAuras = _
      rw [h2]
    unfold SlotSound
    rw [happ, hvis]
    simp only [List.mem_append, List.mem_singleton]
    refine ⟨?_, ?_⟩
    · rintro x (hx | rfl) hlt
      · exact i2 x hx hlt
      · rw [h1] at hlt
        exact absurd hlt (lt_irrefl _)
    · rintro x (hx | rfl) y (hy | rfl) hxy hlt
      · exact i3 x hx y hy hxy hlt
      · rw [hxy, h1] at hlt
        exact absurd hlt (lt_irrefl _)
      · rw [h1] at hlt
        exact absurd hlt (lt_irrefl _)
      · exact sameIdentity_refl _
  · obtain ⟨sl, hsl, c1, c2, c3, _, c5, c6, c7⟩ :=
      construct_sendable K env s.unit s.nextAddress base effMask hsend
    have hfree := freeSlot_spec K s.unit (by omega)
    set r := AuraApplication.construct K env s.unit s.nextAddress base effMask with hr
    have happ : (s.step K (AppOp.create base env effMask)).unit.m_appliedAuras
        = s.unit.m_appliedAuras ++ [r.1] := by
      show r.2.m_appliedAuras ++ [r.1] = _
      rw [c5]
    have hvis : (s.step K (AppOp.create base env effMask)).unit.m_visibleAuras
        = r.2.m_visibleAuras := rfl
    have hnew : (r.1._slot < K.MAX_AURAS → (r.2.m_visibleAuras r.1._slot).isSome = true) ∧
        (∀ y ∈ s.unit.m_appliedAuras, y._slot < K.MAX_AURAS →
          (r.2.m_visibleAuras y._slot).isSome = true) ∧
        (∀ y ∈ s.unit.m_appliedAuras, r.1._slot = y._slot → r.1._slot < K.MAX_AURAS →
          r.1.sameIdentity y) := by
      by_cases hs : sl < K.MAX_AURAS
      · obtain ⟨d1, d2⟩ := c6 hs
        rw [d1, d2]
        refine ⟨fun _ => by simp, fun y hy hys => ?_, ?_⟩
        · by_cases hk : y._slot = sl
          · simp [hk]
          · simp only [hk, if_false]
            exact i2 y hy hys
        · cases hlook : s.unit.GetAuraApplication base.GetId base.GetCasterGUID
              base.GetCastItemGUID with
          | some f =>
            rw [hlook] at hsl
            replace hsl : sl = f._slot := hsl
            obtain ⟨hf, g1, g2, g3⟩ := GetAuraApplication_some hlook
            intro y hy hslot _
            have hfy : f.sameIdentity y :=
              i3 f hf y hy (by rw [← hslot, hsl]) (by rw [← hsl]; exact hs)
            exact sameIdentity_trans ⟨c1.trans g1.symm, c2.trans g2.symm, c3.trans g3.symm⟩ hfy
          | none =>
            rw [hlook] at hsl
            replace hsl : sl = AuraApplication.freeSlotLoop K (s.unit.visibleFind 0) 0 := hsl
            intro y hy hslot _
            have h1 := (hfree.1 (by rw [← hsl]; exact hs)).1
            have h2 := i2 y hy (by rw [← hslot]; exact hs)
            rw [← hslot, hsl, h1] at h2
            cases h2
      · obtain ⟨d1, d2⟩ := c7 hs
        rw [d1, d2]
        exact ⟨fun h => absurd h (lt_irrefl _), fun y hy hys => i2 y hy hys,
          fun y _ _ h => absurd h (lt_irrefl _)⟩
    obtain ⟨n2, n3, n4⟩ := hnew
    unfold SlotSound
    rw [happ, hvis]
    simp only [List.mem_append, List.mem_singleton]
    refine ⟨?_, ?_⟩
    · rintro x (hx | rfl)
      · exact n3 x hx
      · exact n2
    · rintro x (hx | rfl) y (hy | rfl) hxy hlt
      · exact i3 x hx y hy hxy hlt
      · exact sameIdentity_symm (n4 x hx hxy.symm (by rw [← hxy]; exact hlt))
      · exact n4 y hy hxy hlt
      · exact sameIdentity_refl _

theorem SlotSound_transfer (K : Consts) (u u' : UnitAuras) (hinv : SlotSound K u)
    (hsub : ∀ x ∈ u'.m_appliedAuras, ∃ x0 ∈ u.m_appliedAuras,
      x._slot = x0._slot ∧ x.sameIdentity x0)
    (hvis : ∀ x ∈ u'.m_appliedAuras, x._slot < K.MAX_AURAS →
      (u'.m_visibleAuras x._slot).isSome = true) :
    SlotSound K u' := by
  obtain ⟨_, i3⟩ := hinv
  refine ⟨hvis, fun x hx y hy hxy hlt => ?_⟩
  obtain ⟨x0, hx0, hsx, hix⟩ := hsub x hx
  obtain ⟨y0, hy0, hsy, hiy⟩ := hsub y hy
  have := i3 x0 hx0 y0 hy0 (by rw [← hsx, ← hsy]; exact hxy) (by rw [← hsx]; exact hlt)
  exact sameIdentity_trans hix (sameIdentity_trans this (sameIdentity_symm hiy))

theorem SlotSound_remove (K : Consts) (s : TargetState) (address : Nat)
    (hinv : SlotSound K s.unit)
    (hno : s.freesHeldSlot K (AppOp.remove address) = false) :
    SlotSound K (s.step K (AppOp.remove address)).unit := by
  simp only [TargetState.step]
  simp only [TargetState.freesHeldSlot] at hno
  split
  · exact hinv
  · next app hfind =>
    rw [hfind] at hno
    simp only [] at hno
    have happ : app ∈ s.unit.m_appliedAuras := List.mem_of_find?_eq_some hfind
    obtain ⟨i2, i3⟩ := hinv
    simp only []
    set u1 : UnitAuras :=
      { s.unit with m_appliedAuras := s.unit.m_appliedAuras.filter fun x => x.self != address }
      with hu1
    have hsub1 : ∀ x ∈ u1.m_appliedAuras, x ∈ s.unit.m_appliedAuras := fun x hx =>
      (List.mem_filter.mp hx).1
    have hinv1 : SlotSound K u1 :=
      SlotSound_transfer K s.unit u1 ⟨i2, i3⟩
        (fun x hx => ⟨x, hsub1 x hx, rfl, sameIdentity_refl x⟩)
        (fun x hx hlt => i2 x (hsub1 x hx) hlt)
    have hfreed : (∀ x ∈ u1.m_appliedAuras, x._slot ≠ app._slot) →
        SlotSound K (u1.RemoveVisibleAura app._slot) := by
      intro hne
      apply SlotSound_transfer K s.unit _ ⟨i2, i3⟩
      · intro x hx
        exact ⟨x, hsub1 x hx, rfl, sameIdentity_refl x⟩
      · intro x hx hxlt
        show (if x._slot = app._slot then none else s.unit.m_visibleAuras x._slot).isSome = true
        rw [if_neg (hne x hx)]
        exact i2 x (hsub1 x hx) hxlt
    unfold AuraApplication._Remove
    simp only [AuraApplication.GetSlot]
    by_cases hmax : app._slot ≥ K.MAX_AURAS
    · rw [if_pos hmax]
      exact hinv1
    · rw [if_neg hmax]
      have hlt : app._slot < K.MAX_AURAS := not_le.mp hmax
      cases hlook : u1.GetAuraApplication app.baseId app.baseCasterGUID app.baseCastItemGUID with
      | some f =>
        by_cases hslot : app._slot = f._slot
        · simp only [if_pos hslot]
          by_cases hv : u1.GetVisibleAura app._slot = some app.self
          · simp only [if_pos hv]
            apply SlotSound_transfer K s.unit _ ⟨i2, i3⟩
            · intro x hx
              simp only [UnitAuras.markNeedClientUpdate, UnitAuras.SetVisibleAura,
                List.mem_map] at hx
              obtain ⟨x0, hx0, rfl⟩ := hx
              refine ⟨x0, hsub1 x0 hx0, ?_, ?_⟩
              · split <;> rfl
              · split <;> exact sameIdentity_refl _
            · intro x hx hxlt
              simp only [UnitAuras.markNeedClientUpdate, UnitAuras.SetVisibleAura,
                List.mem_map] at hx
              obtain ⟨x0, hx0, rfl⟩ := hx
              have hs0 : (if x0.self = f.self then { x0 with _needClientUpdate := true }
                  else x0)._slot = x0._slot := by split <;> rfl
              rw [hs0] at hxlt ⊢
              show (if x0._slot = app._slot then some f.self
                else s.unit.m_visibleAuras x0._slot).isSome = true
              by_cases hk : x0._slot = app._slot
              · rw [if_pos hk]; rfl
              · rw [if_neg hk]; exact i2 x0 (hsub1 x0 hx0) hxlt
          · simp only [if_neg hv]
            exact hinv1
        · simp only [if_neg hslot]
          apply hfreed
          intro x hx heq
          have hid := i3 x (hsub1 x hx) app happ heq (by rw [heq]; exact hlt)
          have hheld : AuraApplication.freesHeldSlot K u1 app = true := by
            unfold AuraApplication.freesHeldSlot
            rw [hlook]
            simp only [AuraApplication.GetSlot, Bool.and_eq_true, decide_eq_true_eq, bne_iff_ne,
              List.any_eq_true, beq_iff_eq]
            exact ⟨⟨hlt, fun h => hslot h.symm⟩, x, hx, ⟨⟨⟨hid.1, hid.2.1⟩, hid.2.2⟩, heq⟩⟩
          rw [hheld] at hno
          cases hno
      | none =>
        simp only []
        apply hfreed
        intro x hx heq
        have hid := i3 x (hsub1 x hx) app happ heq (by rw [heq]; exact hlt)
        exact GetAuraApplication_none hlook x hx hid

theorem SlotSound_run (K : Consts) (hK : K.MAX_AURAS ≤ 255) :
    ∀ (ops : List AppOp) (s : TargetState), s.neverFreesHeldSlot K ops = true →
      SlotSound K s.unit → SlotSound K (s.run K ops).unit := by
  intro ops
  induction ops with
  | nil => intro s _ h; exact h
  | cons op rest ih =>
    intro s hops hinv
    simp only [TargetState.neverFreesHeldSlot, Bool.and_eq_true, Bool.not_eq_true'] at hops
    unfold TargetState.run
    rw [List.foldl_cons]
    apply ih _ hops.2
    cases op with
    | create base env effMask => exact SlotSound_create K env s base effMask hK hinv
    | remove address => exact SlotSound_remove K s address hinv hops.1

/-- On a target with a consistent slot assignment, a sequence that constructs
applications of client-visible auras only never frees a slot that an applied
application still holds. -/
theorem neverFreesHeldSlot_of_sendable (K : Consts) (hK : K.MAX_AURAS ≤ 255) :
    ∀ (ops : List AppOp) (s : TargetState),
      (∀ base env effMask, AppOp.create base env effMask ∈ ops →
        base.CanBeSentToClient K = true) →
      SlotInvariant K s.unit → s.neverFreesHeldSlot K ops = true := by
  intro ops
  induction ops with
  | nil => intro s _ _; rfl
  | cons op rest ih =>
    intro s hops hinv
    simp only [TargetState.neverFreesHeldSlot, Bool.and_eq_true, Bool.not_eq_true']
    have hrest : ∀ base env effMask, AppOp.create base env effMask ∈ rest →
        base.CanBeSentToClient K = true := fun base env effMask hmem =>
      hops base env effMask (List.mem_cons_of_mem op hmem)
    cases op with
    | create base env effMask =>
      exact ⟨rfl, ih _ hrest (SlotInvariant_create K env s base effMask hK
        (hops base env effMask (List.mem_cons_self _ rest)) hinv)⟩
    | remove address =>
      refine ⟨?_, ih _ hrest (SlotInvariant_remove K s address hinv)⟩
      simp only [TargetState.freesHeldSlot]
      cases hfind : s.unit.m_appliedAuras.find? fun app => app.self == address with
      | none => rfl
      | some app =>
        simp only []
        have happ : app ∈ s.unit.m_appliedAuras := List.mem_of_find?_eq_some hfind
        unfold AuraApplication.freesHeldSlot
        cases hlook : UnitAuras.GetAuraApplication
            { s.unit with
              m_appliedAuras := s.unit.m_appliedAuras.filter fun x => x.self != address }
            app.baseId app.baseCasterGUID app.baseCastItemGUID with
        | none => simp
        | some f =>
          obtain ⟨hf, g1, g2, g3⟩ := GetAuraApplication_some hlook
          have hslot : f._slot = app._slot :=
            hinv.2.2.2 f (List.mem_filter.mp hf).1 app happ ⟨g1, g2, g3⟩
          simp [AuraApplication.GetSlot, hslot]

/-- C5 (amended): on a target that starts without applications, after any
sequence of constructions of applications (of auras that are sent to the client
or not) and of `_Remove` calls in which no `_Remove` frees a slot that a bound
application of the same identity still holds, any two applications that are
bound to the target and hold the same visible slot (`slot < MAX_AURAS`) belong
to auras of the same identity (spell id, caster GUID, cast-item GUID);
applications of different identity hold different visible slots. -/
theorem visible_slots_shared_only_by_identity (K : Consts) (guid : Nat) (ops : List AppOp)
    (hK : K.MAX_AURAS ≤ 255)
    (hops : (TargetState.empty guid).neverFreesHeldSlot K ops = true) :
    ∀ x ∈ ((TargetState.empty guid).run K ops).unit.m_appliedAuras,
      ∀ y ∈ ((TargetState.empty guid).run K ops).unit.m_appliedAuras,
        x._slot < K.MAX_AURAS → x._slot = y._slot → x.sameIdentity y := by
  have hempty : SlotSound K (TargetState.empty guid).unit :=
    ⟨fun x hx => absurd hx (List.not_mem_nil x), fun x hx => absurd hx (List.not_mem_nil x)⟩
  have hinv := SlotSound_run K hK ops (TargetState.empty guid) hops hempty
  intro x hx y hy hlt hxy
  exact hinv.2 x hx y hy hxy hlt

/-- C5, witness: spell 101, the item spell with its visible effect, the item
spell without it (not sent to the client, no slot) and spell 102 are applied;
the hidden application and the one of spell 101 are removed, and the item spell
is applied once more.  No removal frees a held slot; the two applications of
the item spell share slot 1, spell 102 holds slot 2, and bound applications
sharing a visible slot have the same identity. -/
theorem visible_slots_shared_only_by_identity_witness :
    ((TargetState.empty 7).neverFreesHeldSlot exampleConsts
        [exampleCreate 101, exampleItemCreate 21 3, exampleItemCreate 22 2, exampleCreate 102,
          AppOp.remove 3, AppOp.remove 1, exampleItemCreate 23 3] = true) ∧
    (((TargetState.empty 7).run exampleConsts
        [exampleCreate 101, exampleItemCreate 21 3, exampleItemCreate 22 2, exampleCreate 102,
          AppOp.remove 3, AppOp.remove 1, exampleItemCreate 23 3]
      ).unit.m_appliedAuras.map (fun x => (x.self, x.baseId, x._slot))
      = [(2, 1, 1), (4, 102, 2), (5, 1, 1)]) ∧
    (∀ x ∈ ((TargetState.empty 7).run exampleConsts
        [exampleCreate 101, exampleItemCreate 21 3, exampleItemCreate 22 2, exampleCreate 102,
          AppOp.remove 3, AppOp.remove 1, exampleItemCreate 23 3]
      ).unit.m_appliedAuras,
      ∀ y ∈ ((TargetState.empty 7).run exampleConsts
          [exampleCreate 101, exampleItemCreate 21 3, exampleItemCreate 22 2, exampleCreate 102,
            AppOp.remove 3, AppOp.remove 1, exampleItemCreate 23 3]
        ).unit.m_appliedAuras,
        x._slot < exampleConsts.MAX_AURAS → x._slot = y._slot → x.sameIdentity y) :=
  ⟨by decide, by decide,
    visible_slots_shared_only_by_identity exampleConsts 7 _ (by decide) (by decide)⟩

/-- C5, counterexample: two applications of the same aura identity (spell 101,
caster 7, no cast item) constructed on one target are distinct objects
(addresses 1 and 2), both bound, and both hold the visible slot 0.  The same
happens with two auras of the passive item spell 1 (caster 7, cast item 5),
which stack with each other. -/
theorem visible_slots_unique_counterexample :
    ((TargetState.empty 7).run exampleConsts [exampleCreate 101, exampleCreate 101]
      ).unit.m_appliedAuras.map (fun x => (x.self, x._slot)) = [(1, 0), (2, 0)] ∧
    (0 : Nat) < exampleConsts.MAX_AURAS ∧
    CanStackWith exampleConsts exampleRankEnv (exampleItemAura 21 3) (exampleItemAura 23 3)
      = true ∧
    CanStackWith exampleConsts exampleRankEnv (exampleItemAura 23 3) (exampleItemAura 21 3)
      = true ∧
    ((TargetState.empty 7).run exampleConsts [exampleItemCreate 21 3, exampleItemCreate 23 3]
      ).unit.m_appliedAuras.map (fun x => (x.self, x._slot)) = [(1, 0), (2, 0)] := by
  decide

/-! ### Target resolution on the fixed interval -/

theorem Remove_ByDefault_interval (a : Aura) :
    ∃ b, a.Remove AuraRemoveFlags.ByDefault = some b ∧ b.m_isRemoved = true ∧
      b.m_updateTargetMapInterval = a.m_updateTargetMapInterval := by
  unfold Remove Unit_RemoveOwnedAura _Remove IsRemoved
  cases hr : a.m_isRemoved
  · cases a.GetType <;> exact ⟨_, rfl, rfl, rfl⟩
  · exact ⟨a, rfl, hr, rfl⟩

theorem Update_spec (K : Consts) (w : AuraWorld) (diff : Nat) :
    ∃ w1, Update K w diff = some w1 ∧
      w1.aura.m_updateTargetMapInterval = w.aura.m_updateTargetMapInterval ∧
      (w.aura.m_isRemoved = true → w1.aura.m_isRemoved = true) ∧
      (w1.aura.m_isRemoved = false → w1.aura.m_applications = w.aura.m_applications) := by
  unfold Update
  simp only []
  split
  · split
    · split
      · exact ⟨_, rfl, rfl, id, fun _ => rfl⟩
      · split
        · exact ⟨_, rfl, rfl, id, fun _ => rfl⟩
        · next caster _ =>
          split
          · split
            · split
              · exact ⟨_, rfl, rfl, id, fun _ => rfl⟩
              · obtain ⟨b, hb, hbr, hbi⟩ := Remove_ByDefault_interval
                  { w.aura with
                    m_duration := (if toInt32 (w.aura.m_duration - (diff : Int)) < 0 then 0
                      else toInt32 (w.aura.m_duration - (diff : Int)))
                    m_timeCla := toInt32 (w.aura.m_timeCla + 1000 - (diff : Int)) }
                rw [hb]
                refine ⟨_, rfl, hbi, fun _ => hbr, fun h => ?_⟩
                rw [show ({ aura := b, caster := some caster } : AuraWorld).aura.m_isRemoved
                  = b.m_isRemoved from rfl, hbr] at h
                cases h
            · split
              · exact ⟨_, rfl, rfl, id, fun _ => rfl⟩
              · obtain ⟨b, hb, hbr, hbi⟩ := Remove_ByDefault_interval
                  { w.aura with
                    m_duration := (if toInt32 (w.aura.m_duration - (diff : Int)) < 0 then 0
                      else toInt32 (w.aura.m_duration - (diff : Int)))
                    m_timeCla := toInt32 (w.aura.m_timeCla + 1000 - (diff : Int)) }
                rw [hb]
                refine ⟨_, rfl, hbi, fun _ => hbr, fun h => ?_⟩
                rw [show ({ aura := b, caster := some caster } : AuraWorld).aura.m_isRemoved
                  = b.m_isRemoved from rfl, hbr] at h
                cases h
          · exact ⟨_, rfl, rfl, id, fun _ => rfl⟩
    · exact ⟨_, rfl, rfl, id, fun _ => rfl⟩
  · exact ⟨w, rfl, rfl, id, fun _ => rfl⟩

theorem UpdateOwner_effects_frame (K : Consts) (env : UpdateEnv) (a : Aura) (d : Nat) :
    (UpdateOwner_effects K env a d).m_isRemoved = a.m_isRemoved ∧
    (UpdateOwner_effects K env a d).m_applications = a.m_applications ∧
    (UpdateOwner_effects K env a d).m_updateTargetMapInterval = a.m_updateTargetMapInterval :=
  ⟨rfl, rfl, rfl⟩

theorem UpdateOwner_of_Update (K : Consts) (env : UpdateEnv) {w wU : AuraWorld} {d : Nat}
    (hU : Update K w d = some wU) :
    ∃ w1, UpdateOwner K env w d = some w1 ∧
      w1.aura.m_isRemoved = (UpdateOwner_interval K env wU.aura d).m_isRemoved ∧
      w1.aura.m_applications = (UpdateOwner_interval K env wU.aura d).m_applications ∧
      w1.aura.m_updateTargetMapInterval
        = (UpdateOwner_interval K env wU.aura d).m_updateTargetMapInterval := by
  have h := UpdateOwner_effects_frame K env (UpdateOwner_interval K env wU.aura d) d
  refine ⟨{ aura := UpdateOwner_effects K env (UpdateOwner_interval K env wU.aura d) d,
            caster := wU.caster }, ?_, h.1, h.2.1, h.2.2⟩
  unfold UpdateOwner
  rw [hU, Option.map_some']

/-- The chain of `Aura::CanStackWith` from the different-caster check on, which is what the
function returns once none of the earlier rules has decided. -/
theorem CanStackWith_tail (K : Consts) (env : StackEnv) (a existingAura : Aura)
    (hne : a.self ≠ existingAura.self)
    (ha : a.GetType ≠ AuraObjectType.DYNOBJ_AURA_TYPE)
    (he : existingAura.GetType ≠ AuraObjectType.DYNOBJ_AURA_TYPE)
    (hpassive : ¬ (a.IsPassive = true ∧ a.GetCasterGUID = existingAura.GetCasterGUID ∧
      (env.IsDifferentRankOf = true ∨
        (a.m_spellInfo.Id = existingAura.m_spellInfo.Id ∧ a.m_castItemGuid = 0))))
    (hlink : hasTriggerLink K a existingAura = false)
    (htrack : ¬ (a.m_spellInfo.HasAura AuraType.SPELL_AURA_TRACK_RESOURCES = true ∧
      existingAura.m_spellInfo.HasAura AuraType.SPELL_AURA_TRACK_RESOURCES = true))
    (hspecific : env.IsAuraExclusiveBySpecificWith = false)
    (hpercaster : ¬ (a.GetCasterGUID = existingAura.GetCasterGUID ∧
      env.IsAuraExclusiveBySpecificPerCasterWith = true))
    (hgroup : env.CheckSpellGroupStackRules ≠
        SpellGroupStackRule.SPELL_GROUP_STACK_RULE_EXCLUSIVE ∧
      env.CheckSpellGroupStackRules ≠
        SpellGroupStackRule.SPELL_GROUP_STACK_RULE_EXCLUSIVE_HIGHEST)
    (hgroupcaster : ¬ (env.CheckSpellGroupStackRules =
        SpellGroupStackRule.SPELL_GROUP_STACK_RULE_EXCLUSIVE_FROM_SAME_CASTER ∧
      a.GetCasterGUID = existingAura.GetCasterGUID))
    (hfamily : a.m_spellInfo.SpellFamilyName = existingAura.m_spellInfo.SpellFamilyName) :
    CanStackWith K env a existingAura =
      if (!(a.GetCasterGUID == existingAura.GetCasterGUID) &&
          existingAura.m_spellInfo.IsChanneled) = true then true
      else if (!(a.GetCasterGUID == existingAura.GetCasterGUID) &&
          a.m_spellInfo.HasAttribute SpellAttr.SPELL_ATTR3_STACK_FOR_DIFF_CASTERS) = true then
        true
      else if (!(a.GetCasterGUID == existingAura.GetCasterGUID) &&
          hasStackablePeriodic K a existingAura) = true then true
      else if (a.HasEffectType K AuraType.SPELL_AURA_CONTROL_VEHICLE &&
          existingAura.HasEffectType K AuraType.SPELL_AURA_CONTROL_VEHICLE) = true then
        match env.ownerVehicleSeats with
        | none => true
        | some seats => if seats = 0 then false else true
      else if env.IsRankOf = true then
        if (a.m_spellInfo.IsMultiSlotAura && !a.IsArea K) = true then true
        else if (a.GetCastItemGUID != 0 && existingAura.GetCastItemGUID != 0 &&
            (a.GetCastItemGUID != existingAura.GetCastItemGUID &&
              a.m_spellInfo.HasAttribute SpellAttr.SPELL_ATTR0_CU_ENCHANT_PROC)) = true then
          true
        else false
      else true := by
  unfold CanStackWith
  rw [if_neg hne]
  simp only [ha, he, or_self, if_false]
  rw [if_neg, hlink, if_neg (by simp), if_neg, if_neg, if_neg, if_neg, if_neg]
  · simpa using hfamily
  · intro hc; exact hgroupcaster ⟨hc.1, by simpa using hc.2⟩
  · intro hc; rcases hc with hc | hc
    · exact hgroup.1 hc
    · exact hgroup.2 hc
  · intro hc
    simp only [Bool.or_eq_true, Bool.and_eq_true, beq_iff_eq] at hc
    rcases hc with hc | hc
    · rw [hspecific] at hc; exact Bool.noConfusion hc
    · exact hpercaster hc
  · intro hc
    simp only [Bool.and_eq_true] at hc
    exact htrack hc
  · intro hc
    apply hpassive
    simpa [and_assoc] using hc

/-- C11, counterexample: the auras of the same spell 30 cast by the casters 7
and 8 are two distinct unit auras of different casters which none of the rules
1-9 decides (no trigger link, no resource tracking, no exclusivity, same family,
not channeled, no stack-for-different-casters attribute, no periodic effect
type, no vehicle control); the spells belong to the same rank chain and
`CanStackWith` is false. -/
theorem CanStackWith_rank_chain_counterexample :
    (exampleAuraOf 1 (exampleSpell 30 0) 7).self ≠ (exampleAuraOf 2 (exampleSpell 30 0) 8).self ∧
    (exampleAuraOf 1 (exampleSpell 30 0) 7).GetCasterGUID ≠
      (exampleAuraOf 2 (exampleSpell 30 0) 8).GetCasterGUID ∧
    (exampleAuraOf 1 (exampleSpell 30 0) 7).GetType ≠ AuraObjectType.DYNOBJ_AURA_TYPE ∧
    (exampleAuraOf 2 (exampleSpell 30 0) 8).GetType ≠ AuraObjectType.DYNOBJ_AURA_TYPE ∧
    hasTriggerLink exampleConsts (exampleAuraOf 1 (exampleSpell 30 0) 7)
      (exampleAuraOf 2 (exampleSpell 30 0) 8) = false ∧
    (exampleSpell 30 0).HasAura AuraType.SPELL_AURA_TRACK_RESOURCES = false ∧
    exampleRankEnv.IsAuraExclusiveBySpecificWith = false ∧
    exampleRankEnv.CheckSpellGroupStackRules =
      SpellGroupStackRule.SPELL_GROUP_STACK_RULE_DEFAULT ∧
    (exampleSpell 30 0).IsChanneled = false ∧
    (exampleSpell 30 0).HasAttribute SpellAttr.SPELL_ATTR3_STACK_FOR_DIFF_CASTERS = false ∧
    (∀ i, i < exampleConsts.MAX_SPELL_EFFECTS →
      isPeriodicStackType ((exampleSpell 30 0).Effects i).ApplyAuraName = false) ∧
    (exampleAuraOf 1 (exampleSpell 30 0) 7).HasEffectType exampleConsts
      AuraType.SPELL_AURA_CONTROL_VEHICLE = false ∧
    exampleRankEnv.IsRankOf = true ∧
    CanStackWith exampleConsts exampleRankEnv (exampleAuraOf 1 (exampleSpell 30 0) 7)
      (exampleAuraOf 2 (exampleSpell 30 0) 8) = false := by
  refine ⟨by decide, by decide, by decide, by decide, by decide, rfl, rfl, rfl, rfl, rfl,
    ?_, by decide, rfl, by decide⟩
  intro i _
  rfl

/-- C11 (amended): for two distinct unit auras whose case is not decided by the
rules 1-9 (for different casters: existing spell not channeled, no
stack-for-different-casters attribute, no stackable periodic effect),
`CanStackWith` is true iff the spells are not of the same rank chain, or this
spell is multi-slot and this aura is not an area aura, or both auras have cast
items, the cast items differ and this spell is a per-item enchant proc; the
casters are not compared, so rule 10 denies for different casters as well. -/
theorem CanStackWith_rank_chain (K : Consts) (env : StackEnv) (a existingAura : Aura)
    (hne : a.self ≠ existingAura.self)
    (ha : a.GetType ≠ AuraObjectType.DYNOBJ_AURA_TYPE)
    (he : existingAura.GetType ≠ AuraObjectType.DYNOBJ_AURA_TYPE)
    (hpassive : ¬ (a.IsPassive = true ∧ a.GetCasterGUID = existingAura.GetCasterGUID ∧
      (env.IsDifferentRankOf = true ∨
        (a.m_spellInfo.Id = existingAura.m_spellInfo.Id ∧ a.m_castItemGuid = 0))))
    (hlink : hasTriggerLink K a existingAura = false)
    (htrack : ¬ (a.m_spellInfo.HasAura AuraType.SPELL_AURA_TRACK_RESOURCES = true ∧
      existingAura.m_spellInfo.HasAura AuraType.SPELL_AURA_TRACK_RESOURCES = true))
    (hspecific : env.IsAuraExclusiveBySpecificWith = false)
    (hpercaster : ¬ (a.GetCasterGUID = existingAura.GetCasterGUID ∧
      env.IsAuraExclusiveBySpecificPerCasterWith = true))
    (hgroup : env.CheckSpellGroupStackRules ≠
        SpellGroupStackRule.SPELL_GROUP_STACK_RULE_EXCLUSIVE ∧
      env.CheckSpellGroupStackRules ≠
        SpellGroupStackRule.SPELL_GROUP_STACK_RULE_EXCLUSIVE_HIGHEST)
    (hgroupcaster : ¬ (env.CheckSpellGroupStackRules =
        SpellGroupStackRule.SPELL_GROUP_STACK_RULE_EXCLUSIVE_FROM_SAME_CASTER ∧
      a.GetCasterGUID = existingAura.GetCasterGUID))
    (hfamily : a.m_spellInfo.SpellFamilyName = existingAura.m_spellInfo.SpellFamilyName)
    (hdiff : a.GetCasterGUID ≠ existingAura.GetCasterGUID →
      existingAura.m_spellInfo.IsChanneled = false ∧
      a.m_spellInfo.HasAttribute SpellAttr.SPELL_ATTR3_STACK_FOR_DIFF_CASTERS = false ∧
      hasStackablePeriodic K a existingAura = false)
    (hvehicle : ¬ (a.HasEffectType K AuraType.SPELL_AURA_CONTROL_VEHICLE = true ∧
      existingAura.HasEffectType K AuraType.SPELL_AURA_CONTROL_VEHICLE = true)) :
    CanStackWith K env a existingAura = true ↔
      (env.IsRankOf = false ∨
        (a.m_spellInfo.IsMultiSlotAura = true ∧ a.IsArea K = false) ∨
        (a.GetCastItemGUID ≠ 0 ∧ existingAura.GetCastItemGUID ≠ 0 ∧
          a.GetCastItemGUID ≠ existingAura.GetCastItemGUID ∧
          a.m_spellInfo.HasAttribute SpellAttr.SPELL_ATTR0_CU_ENCHANT_PROC = true)) := by
  rw [CanStackWith_tail K env a existingAura hne ha he hpassive hlink htrack hspecific
    hpercaster hgroup hgroupcaster hfamily]
  have h8 : ∀ b : Bool, (b = false ∨ b = true) → ((!(a.GetCasterGUID ==
      existingAura.GetCasterGUID) && b) = true → a.GetCasterGUID ≠ existingAura.GetCasterGUID ∧
      b = true) := by
    intro b _ h
    simp only [Bool.and_eq_true, Bool.not_eq_true', beq_eq_false_iff_ne, ne_eq] at h
    exact h
  rw [if_neg, if_neg, if_neg, if_neg]
  · cases hr : env.IsRankOf
    · simp
    · simp only [if_true, Bool.and_eq_true, Bool.not_eq_true', bne_iff_ne, ne_eq]
      split_ifs with h1 h2
      · simp only [true_iff]; exact Or.inr (Or.inl h1)
      · simp only [true_iff]
        exact Or.inr (Or.inr ⟨h2.1.1, h2.1.2, h2.2.1, h2.2.2⟩)
      · simp only [Bool.false_eq_true, false_iff, not_or, not_false_eq_true, true_and]
        refine ⟨h1, ?_⟩
        rintro ⟨x1, x2, x3, x4⟩
        exact h2 ⟨⟨x1, x2⟩, x3, x4⟩
  · intro hc
    simp only [Bool.and_eq_true] at hc
    exact hvehicle hc
  · intro hc
    obtain ⟨hd, hb⟩ := h8 _ (by cases hasStackablePeriodic K a existingAura <;> simp) hc
    rw [(hdiff hd).2.2] at hb
    exact Bool.noConfusion hb
  · intro hc
    obtain ⟨hd, hb⟩ := h8 _ (by
      cases a.m_spellInfo.HasAttribute SpellAttr.SPELL_ATTR3_STACK_FOR_DIFF_CASTERS <;> simp) hc
    rw [(hdiff hd).2.1] at hb
    exact Bool.noConfusion hb
  · intro hc
    obtain ⟨hd, hb⟩ := h8 _ (by cases existingAura.m_spellInfo.IsChanneled <;> simp) hc
    rw [(hdiff hd).1] at hb
    exact Bool.noConfusion hb

/-- C11 (amended), witness: the auras of the same spell 30 of the casters 7 and
8 stack exactly if one of the three conditions holds, and none does. -/
theorem CanStackWith_rank_chain_witness :
    (CanStackWith exampleConsts exampleRankEnv (exampleAuraOf 1 (exampleSpell 30 0) 7)
        (exampleAuraOf 2 (exampleSpell 30 0) 8) = true ↔
      (exampleRankEnv.IsRankOf = false ∨
        ((exampleAuraOf 1 (exampleSpell 30 0) 7).m_spellInfo.IsMultiSlotAura = true ∧
          (exampleAuraOf 1 (exampleSpell 30 0) 7).IsArea exampleConsts = false) ∨
        ((exampleAuraOf 1 (exampleSpell 30 0) 7).GetCastItemGUID ≠ 0 ∧
          (exampleAuraOf 2 (exampleSpell 30 0) 8).GetCastItemGUID ≠ 0 ∧
          (exampleAuraOf 1 (exampleSpell 30 0) 7).GetCastItemGUID ≠
            (exampleAuraOf 2 (exampleSpell 30 0) 8).GetCastItemGUID ∧
          (exampleAuraOf 1 (exampleSpell 30 0) 7).m_spellInfo.HasAttribute
            SpellAttr.SPELL_ATTR0_CU_ENCHANT_PROC = true))) ∧
    CanStackWith exampleConsts exampleStackEnv (exampleAuraOf 1 (exampleSpell 30 0) 7)
      (exampleAuraOf 2 (exampleSpell 31 0) 8) = true :=
  ⟨CanStackWith_rank_chain exampleConsts exampleRankEnv (exampleAuraOf 1 (exampleSpell 30 0) 7)
    (exampleAuraOf 2 (exampleSpell 30 0) 8) (by decide) (by decide) (by decide) (by decide)
    (by decide) (by decide) rfl (by decide) (by decide) (by decide) rfl
    (fun _ => ⟨rfl, rfl, by decide⟩) (by decide), by decide⟩

/-- The periodic loop of `Aura::CanStackWith` finds a stackable effect iff some
effect index below `MAX_SPELL_EFFECTS` has a listed periodic type on this spell
and targets no area on either spell. -/
theorem hasStackablePeriodic_iff (K : Consts) (a existingAura : Aura) :
    hasStackablePeriodic K a existingAura = true ↔
      ∃ i, i < K.MAX_SPELL_EFFECTS ∧
        isPeriodicStackType (a.m_spellInfo.Effects i).ApplyAuraName = true ∧
        (a.m_spellInfo.Effects i).IsTargetingArea = false ∧
        (existingAura.m_spellInfo.Effects i).IsTargetingArea = false := by
  unfold hasStackablePeriodic
  rw [List.any_eq_true]
  constructor
  · rintro ⟨i, hi, h⟩
    refine ⟨i, List.mem_range.mp hi, ?_⟩
    simpa using h
  · rintro ⟨i, hi, h⟩
    refine ⟨i, List.mem_range.mpr hi, ?_⟩
    simpa using h

/-- C12, counterexample: the aura of spell 40, whose first effect is periodic
damage, and the aura of spell 41 of the same rank chain, which has no periodic
effect, cast by the casters 7 and 8, reach rule 8 and would be denied by rule
10; no effect index carries the same periodic type on both spells, and
`CanStackWith` is true. -/
theorem CanStackWith_periodic_counterexample :
    (exampleAuraOf 1 (exampleSpellWithAura 40 AuraType.SPELL_AURA_PERIODIC_DAMAGE) 7).self ≠
      (exampleAuraOf 2 (exampleSpell 41 0) 8).self ∧
    (exampleAuraOf 1 (exampleSpellWithAura 40 AuraType.SPELL_AURA_PERIODIC_DAMAGE) 7).GetCasterGUID
      ≠ (exampleAuraOf 2 (exampleSpell 41 0) 8).GetCasterGUID ∧
    hasTriggerLink exampleConsts
      (exampleAuraOf 1 (exampleSpellWithAura 40 AuraType.SPELL_AURA_PERIODIC_DAMAGE) 7)
      (exampleAuraOf 2 (exampleSpell 41 0) 8) = false ∧
    (exampleSpell 41 0).IsChanneled = false ∧
    (exampleSpellWithAura 40 AuraType.SPELL_AURA_PERIODIC_DAMAGE).HasAttribute
      SpellAttr.SPELL_ATTR3_STACK_FOR_DIFF_CASTERS = false ∧
    exampleRankEnv.IsRankOf = true ∧
    (exampleSpellWithAura 40 AuraType.SPELL_AURA_PERIODIC_DAMAGE).IsMultiSlotAura = false ∧
    (exampleAuraOf 1 (exampleSpellWithAura 40 AuraType.SPELL_AURA_PERIODIC_DAMAGE)
      7).GetCastItemGUID = 0 ∧
    (¬ ∃ i, i < exampleConsts.MAX_SPELL_EFFECTS ∧
      isPeriodicStackType
        ((exampleSpellWithAura 40 AuraType.SPELL_AURA_PERIODIC_DAMAGE).Effects i).ApplyAuraName
        = true ∧
      ((exampleSpell 41 0).Effects i).ApplyAuraName =
        ((exampleSpellWithAura 40 AuraType.SPELL_AURA_PERIODIC_DAMAGE).Effects i).ApplyAuraName) ∧
    CanStackWith exampleConsts exampleRankEnv
      (exampleAuraOf 1 (exampleSpellWithAura 40 AuraType.SPELL_AURA_PERIODIC_DAMAGE) 7)
      (exampleAuraOf 2 (exampleSpell 41 0) 8) = true := by
  refine ⟨by decide, by decide, by decide, rfl, rfl, rfl, rfl, rfl, ?_, by decide⟩
  rintro ⟨i, -, hp, hsame⟩
  have h41 : ((exampleSpell 41 0).Effects i).ApplyAuraName = AuraType.OTHER 4 := rfl
  rw [← hsame, h41] at hp
  exact Bool.noConfusion hp

/-- C12 (amended): for two distinct unit auras of different casters that reach
rule 8, where the existing spell is not channeled, this spell lacks the
stack-for-different-casters attribute and the later rules would deny stacking
(not both vehicle-control, same rank chain, none of the exceptions of rule 10),
`CanStackWith` is true iff at some effect index this aura's spell carries one of
the listed periodic types and neither spell's effect of that index targets an
area; the effect type of the existing spell is not compared. -/
theorem CanStackWith_periodic (K : Consts) (env : StackEnv) (a existingAura : Aura)
    (hne : a.self ≠ existingAura.self)
    (ha : a.GetType ≠ AuraObjectType.DYNOBJ_AURA_TYPE)
    (he : existingAura.GetType ≠ AuraObjectType.DYNOBJ_AURA_TYPE)
    (hcaster : a.GetCasterGUID ≠ existingAura.GetCasterGUID)
    (hlink : hasTriggerLink K a existingAura = false)
    (htrack : ¬ (a.m_spellInfo.HasAura AuraType.SPELL_AURA_TRACK_RESOURCES = true ∧
      existingAura.m_spellInfo.HasAura AuraType.SPELL_AURA_TRACK_RESOURCES = true))
    (hspecific : env.IsAuraExclusiveBySpecificWith = false)
    (hgroup : env.CheckSpellGroupStackRules ≠
        SpellGroupStackRule.SPELL_GROUP_STACK_RULE_EXCLUSIVE ∧
      env.CheckSpellGroupStackRules ≠
        SpellGroupStackRule.SPELL_GROUP_STACK_RULE_EXCLUSIVE_HIGHEST)
    (hfamily : a.m_spellInfo.SpellFamilyName = existingAura.m_spellInfo.SpellFamilyName)
    (hchan : existingAura.m_spellInfo.IsChanneled = false)
    (hattr : a.m_spellInfo.HasAttribute SpellAttr.SPELL_ATTR3_STACK_FOR_DIFF_CASTERS = false)
    (hvehicle : ¬ (a.HasEffectType K AuraType.SPELL_AURA_CONTROL_VEHICLE = true ∧
      existingAura.HasEffectType K AuraType.SPELL_AURA_CONTROL_VEHICLE = true))
    (hrank : env.IsRankOf = true)
    (hmulti : ¬ (a.m_spellInfo.IsMultiSlotAura = true ∧ a.IsArea K = false))
    (hench : ¬ (a.GetCastItemGUID ≠ 0 ∧ existingAura.GetCastItemGUID ≠ 0 ∧
      a.GetCastItemGUID ≠ existingAura.GetCastItemGUID ∧
      a.m_spellInfo.HasAttribute SpellAttr.SPELL_ATTR0_CU_ENCHANT_PROC = true)) :
    CanStackWith K env a existingAura = true ↔
      ∃ i, i < K.MAX_SPELL_EFFECTS ∧
        isPeriodicStackType (a.m_spellInfo.Effects i).ApplyAuraName = true ∧
        (a.m_spellInfo.Effects i).IsTargetingArea = false ∧
        (existingAura.m_spellInfo.Effects i).IsTargetingArea = false := by
  rw [← hasStackablePeriodic_iff,
    CanStackWith_tail K env a existingAura hne ha he (fun h => hcaster h.2.1) hlink htrack
      hspecific (fun h => hcaster h.1) hgroup (fun h => hcaster h.2) hfamily]
  have hsame : (a.GetCasterGUID == existingAura.GetCasterGUID) = false :=
    beq_eq_false_iff_ne.mpr hcaster
  rw [hsame, hchan, hattr, hrank]
  simp only [Bool.not_false, Bool.and_false, Bool.true_and, Bool.false_eq_true, if_false,
    if_true]
  cases hp : hasStackablePeriodic K a existingAura
  · simp only [Bool.false_eq_true, if_false, iff_false]
    rw [if_neg, if_neg, if_neg]
    · simp
    · intro hc
      simp only [Bool.and_eq_true, bne_iff_ne, ne_eq] at hc
      exact hench ⟨hc.1.1, hc.1.2, hc.2.1, hc.2.2⟩
    · intro hc
      simp only [Bool.and_eq_true, Bool.not_eq_true'] at hc
      exact hmulti hc
    · intro hc
      simp only [Bool.and_eq_true] at hc
      exact hvehicle hc
  · simp

/-- C12 (amended), witness: the periodic-damage aura of spell 40 stacks with the
aura of spell 41 of another caster, as its first effect is periodic and targets
no area. -/
theorem CanStackWith_periodic_witness :
    CanStackWith exampleConsts exampleRankEnv
        (exampleAuraOf 1 (exampleSpellWithAura 40 AuraType.SPELL_AURA_PERIODIC_DAMAGE) 7)
        (exampleAuraOf 2 (exampleSpell 41 0) 8) = true ↔
      ∃ i, i < exampleConsts.MAX_SPELL_EFFECTS ∧
        isPeriodicStackType
          ((exampleAuraOf 1 (exampleSpellWithAura 40 AuraType.SPELL_AURA_PERIODIC_DAMAGE)
            7).m_spellInfo.Effects i).ApplyAuraName = true ∧
        ((exampleAuraOf 1 (exampleSpellWithAura 40 AuraType.SPELL_AURA_PERIODIC_DAMAGE)
          7).m_spellInfo.Effects i).IsTargetingArea = false ∧
        ((exampleAuraOf 2 (exampleSpell 41 0) 8).m_spellInfo.Effects i).IsTargetingArea = false :=
  CanStackWith_periodic exampleConsts exampleRankEnv
    (exampleAuraOf 1 (exampleSpellWithAura 40 AuraType.SPELL_AURA_PERIODIC_DAMAGE) 7)
    (exampleAuraOf 2 (exampleSpell 41 0) 8) (by decide) (by decide) (by decide) (by decide)
    (by decide) (by decide) rfl (by decide) (by decide) rfl rfl (by decide) rfl (by decide)
    (by decide)

/-- C13, counterexample: two distinct vehicle-control auras of the caster 7
(spells 50 and 51, not decided by the rules 1-8) on an owner that has no
vehicle kit, hence no vehicle with an available seat: `CanStackWith` is
true. -/
theorem CanStackWith_vehicle_counterexample :
    (exampleVehicleAura 1 50 7).self ≠ (exampleVehicleAura 2 51 7).self ∧
    (exampleVehicleAura 1 50 7).HasEffectType exampleConsts
      AuraType.SPELL_AURA_CONTROL_VEHICLE = true ∧
    (exampleVehicleAura 2 51 7).HasEffectType exampleConsts
      AuraType.SPELL_AURA_CONTROL_VEHICLE = true ∧
    (exampleVehicleAura 1 50 7).IsPassive = false ∧
    hasTriggerLink exampleConsts (exampleVehicleAura 1 50 7) (exampleVehicleAura 2 51 7) =
      false ∧
    exampleStackEnv.ownerVehicleSeats = none ∧
    CanStackWith exampleConsts exampleStackEnv (exampleVehicleAura 1 50 7)
      (exampleVehicleAura 2 51 7) = true := by
  decide

/-- C13 (amended): for two distinct unit auras that both have a vehicle-control
effect and whose case is not decided by the rules 1-8, `CanStackWith` is true
when the owner of this aura has no vehicle kit, and otherwise true iff the
vehicle kit has an available seat; the rank chain is not consulted. -/
theorem CanStackWith_vehicle (K : Consts) (env : StackEnv) (a existingAura : Aura)
    (hne : a.self ≠ existingAura.self)
    (ha : a.GetType ≠ AuraObjectType.DYNOBJ_AURA_TYPE)
    (he : existingAura.GetType ≠ AuraObjectType.DYNOBJ_AURA_TYPE)
    (hpassive : ¬ (a.IsPassive = true ∧ a.GetCasterGUID = existingAura.GetCasterGUID ∧
      (env.IsDifferentRankOf = true ∨
        (a.m_spellInfo.Id = existingAura.m_spellInfo.Id ∧ a.m_castItemGuid = 0))))
    (hlink : hasTriggerLink K a existingAura = false)
    (htrack : ¬ (a.m_spellInfo.HasAura AuraType.SPELL_AURA_TRACK_RESOURCES = true ∧
      existingAura.m_spellInfo.HasAura AuraType.SPELL_AURA_TRACK_RESOURCES = true))
    (hspecific : env.IsAuraExclusiveBySpecificWith = false)
    (hpercaster : ¬ (a.GetCasterGUID = existingAura.GetCasterGUID ∧
      env.IsAuraExclusiveBySpecificPerCasterWith = true))
    (hgroup : env.CheckSpellGroupStackRules ≠
        SpellGroupStackRule.SPELL_GROUP_STACK_RULE_EXCLUSIVE ∧
      env.CheckSpellGroupStackRules ≠
        SpellGroupStackRule.SPELL_GROUP_STACK_RULE_EXCLUSIVE_HIGHEST)
    (hgroupcaster : ¬ (env.CheckSpellGroupStackRules =
        SpellGroupStackRule.SPELL_GROUP_STACK_RULE_EXCLUSIVE_FROM_SAME_CASTER ∧
      a.GetCasterGUID = existingAura.GetCasterGUID))
    (hfamily : a.m_spellInfo.SpellFamilyName = existingAura.m_spellInfo.SpellFamilyName)
    (hdiff : a.GetCasterGUID ≠ existingAura.GetCasterGUID →
      existingAura.m_spellInfo.IsChanneled = false ∧
      a.m_spellInfo.HasAttribute SpellAttr.SPELL_ATTR3_STACK_FOR_DIFF_CASTERS = false ∧
      hasStackablePeriodic K a existingAura = false)
    (hva : a.HasEffectType K AuraType.SPELL_AURA_CONTROL_VEHICLE = true)
    (hve : existingAura.HasEffectType K AuraType.SPELL_AURA_CONTROL_VEHICLE = true) :
    (env.ownerVehicleSeats = none → CanStackWith K env a existingAura = true) ∧
    (∀ seats, env.ownerVehicleSeats = some seats →
      (CanStackWith K env a existingAura = true ↔ 0 < seats)) := by
  rw [CanStackWith_tail K env a existingAura hne ha he hpassive hlink htrack hspecific
    hpercaster hgroup hgroupcaster hfamily]
  have h8 : ∀ b : Bool, ((!(a.GetCasterGUID == existingAura.GetCasterGUID) && b) = true →
      a.GetCasterGUID ≠ existingAura.GetCasterGUID ∧ b = true) := by
    intro b h
    simp only [Bool.and_eq_true, Bool.not_eq_true', beq_eq_false_iff_ne, ne_eq] at h
    exact h
  rw [if_neg, if_neg, if_neg, hva, hve]
  · simp only [Bool.and_self, if_true]
    constructor
    · intro hs; rw [hs]
    · intro seats hs
      rw [hs]
      by_cases h0 : seats = 0
      · simp [h0]
      · simp only [h0, if_false, true_iff]
        omega
  · intro hc
    obtain ⟨hd, hb⟩ := h8 _ hc
    rw [(hdiff hd).2.2] at hb
    exact Bool.noConfusion hb
  · intro hc
    obtain ⟨hd, hb⟩ := h8 _ hc
    rw [(hdiff hd).2.1] at hb
    exact Bool.noConfusion hb
  · intro hc
    obtain ⟨hd, hb⟩ := h8 _ hc
    rw [(hdiff hd).1] at hb
    exact Bool.noConfusion hb

/-- C13 (amended), witness: two vehicle-control auras of one rank chain stack on
an owner without vehicle kit and on a vehicle with two free seats, and do not
stack on a full vehicle. -/
theorem CanStackWith_vehicle_witness :
    ((exampleRankEnv.ownerVehicleSeats = none →
        CanStackWith exampleConsts exampleRankEnv (exampleVehicleAura 1 50 7)
          (exampleVehicleAura 2 51 7) = true) ∧
      (∀ seats, exampleRankEnv.ownerVehicleSeats = some seats →
        (CanStackWith exampleConsts exampleRankEnv (exampleVehicleAura 1 50 7)
          (exampleVehicleAura 2 51 7) = true ↔ 0 < seats))) ∧
    CanStackWith exampleConsts { exampleRankEnv with ownerVehicleSeats := some 2 }
      (exampleVehicleAura 1 50 7) (exampleVehicleAura 2 51 7) = true ∧
    CanStackWith exampleConsts { exampleRankEnv with ownerVehicleSeats := some 0 }
      (exampleVehicleAura 1 50 7) (exampleVehicleAura 2 51 7) = false :=
  ⟨CanStackWith_vehicle exampleConsts exampleRankEnv (exampleVehicleAura 1 50 7)
    (exampleVehicleAura 2 51 7) (by decide) (by decide) (by decide) (by decide) (by decide)
    (by decide) rfl (by decide) (by decide) (by decide) rfl
    (fun h => absurd rfl h) (by decide) (by decide), by decide, by decide⟩

/-! ### The tick of one aura: duration and resource drain -/

/-- What `Remove()` with the default reason leaves as it is. -/
theorem Remove_ByDefault_frame (a : Aura) :
    ∃ b, a.Remove AuraRemoveFlags.ByDefault = some b ∧ b.m_isRemoved = true ∧
      b.m_duration = a.m_duration ∧ b.m_timeCla = a.m_timeCla ∧
      b.m_spellInfo = a.m_spellInfo := by
  unfold Remove Unit_RemoveOwnedAura _Remove IsRemoved
  cases hr : a.m_isRemoved
  · cases a.GetType <;> exact ⟨_, rfl, rfl, rfl, rfl, rfl⟩
  · exact ⟨a, rfl, hr, rfl, rfl, rfl⟩

/-- The duration `Aura::Update` stores. -/
theorem Update_duration_eq (K : Consts) (w : AuraWorld) (diff : Nat) :
    ∃ w1, Update K w diff = some w1 ∧
      w1.aura.m_duration =
        if w.aura.m_duration > 0 then
          (if toInt32 (w.aura.m_duration - (diff : Int)) < 0 then 0
            else toInt32 (w.aura.m_duration - (diff : Int)))
        else w.aura.m_duration := by
  unfold Update
  simp only []
  split
  · split
    · split
      · exact ⟨_, rfl, rfl⟩
      · split
        · exact ⟨_, rfl, rfl⟩
        · next caster _ =>
          split
          · split
            · split
              · exact ⟨_, rfl, rfl⟩
              · obtain ⟨b, hb, -, hbd, -, -⟩ := Remove_ByDefault_frame
                  { w.aura with
                    m_duration := (if toInt32 (w.aura.m_duration - (diff : Int)) < 0 then 0
                      else toInt32 (w.aura.m_duration - (diff : Int)))
                    m_timeCla := toInt32 (w.aura.m_timeCla + 1000 - (diff : Int)) }
                rw [hb]
                exact ⟨_, rfl, hbd⟩
            · split
              · exact ⟨_, rfl, rfl⟩
              · obtain ⟨b, hb, -, hbd, -, -⟩ := Remove_ByDefault_frame
                  { w.aura with
                    m_duration := (if toInt32 (w.aura.m_duration - (diff : Int)) < 0 then 0
                      else toInt32 (w.aura.m_duration - (diff : Int)))
                    m_timeCla := toInt32 (w.aura.m_timeCla + 1000 - (diff : Int)) }
                rw [hb]
                exact ⟨_, rfl, hbd⟩
          · exact ⟨_, rfl, rfl⟩
    · exact ⟨_, rfl, rfl⟩
  · exact ⟨_, rfl, rfl⟩

/-- C17, counterexample: an aura with 10000 ms left is updated with the elapsed
time 4294967295; the 32-bit subtraction wraps and the duration becomes 10001,
which is neither `max(0, 10000 - 4294967295) = 0` nor at most the old
duration. -/
theorem Update_duration_counterexample :
    (0 : Int) < (exampleWorld (exampleSpell 1 0) 10000 0 none).aura.m_duration ∧
    (4294967295 : Nat) < 4294967296 ∧
    (Update exampleConsts (exampleWorld (exampleSpell 1 0) 10000 0 none) 4294967295).map
      (fun w => w.aura.m_duration) = some 10001 ∧
    max (0 : Int) ((exampleWorld (exampleSpell 1 0) 10000 0 none).aura.m_duration -
      ((4294967295 : Nat) : Int)) = 0 := by
  decide

/-- C17 (amended): `Update(diff)` completes for every aura and every elapsed
time `diff < 2^32`.  For a duration `d > 0`: if `diff <= d + 2^31`, the new
duration is `max(0, d - diff)`, hence at most `d` and not negative; if
`diff > d + 2^31`, the 32-bit subtraction wraps and the new duration is
`d - diff + 2^32`, which is larger than `d`.  An aura whose duration is `<= 0` is
left unchanged. -/
theorem Update_duration (K : Consts) (w : AuraWorld) (diff : Nat)
    (hd : w.aura.m_duration ≤ INT32_MAX) (hdiff : diff < 4294967296) :
    ∃ w1, Update K w diff = some w1 ∧
      (0 < w.aura.m_duration → (diff : Int) ≤ w.aura.m_duration + 2147483648 →
        w1.aura.m_duration = max 0 (w.aura.m_duration - diff) ∧
        w1.aura.m_duration ≤ w.aura.m_duration ∧ 0 ≤ w1.aura.m_duration) ∧
      (0 < w.aura.m_duration → w.aura.m_duration + 2147483648 < (diff : Int) →
        w1.aura.m_duration = w.aura.m_duration - diff + 4294967296 ∧
        w.aura.m_duration < w1.aura.m_duration) ∧
      (w.aura.m_duration ≤ 0 → w1 = w) := by
  obtain ⟨w1, h1, h2⟩ := Update_duration_eq K w diff
  refine ⟨w1, h1, ?_, ?_, ?_⟩
  · intro hpos hle
    rw [if_pos hpos] at h2
    unfold INT32_MAX at hd
    unfold toInt32 at h2
    split_ifs at h2 <;> omega
  · intro hpos hlt
    rw [if_pos hpos] at h2
    unfold INT32_MAX at hd
    unfold toInt32 at h2
    split_ifs at h2 <;> omega
  · intro hle
    unfold Update at h1
    simp only [] at h1
    rw [if_neg (by omega)] at h1
    exact (Option.some.inj h1).symm

/-- C17 (amended), witness: 10000 ms left and 2500 ms elapsed give 7500 ms. -/
theorem Update_duration_witness :
    (exampleWorld (exampleSpell 1 0) 10000 0 none).aura.m_duration ≤ INT32_MAX ∧
    ∃ w1, Update exampleConsts (exampleWorld (exampleSpell 1 0) 10000 0 none) 2500 = some w1 ∧
      w1.aura.m_duration = 7500 := by
  refine ⟨by decide, ?_⟩
  obtain ⟨w1, h1, h2, -, -⟩ := Update_duration exampleConsts
    (exampleWorld (exampleSpell 1 0) 10000 0 none) 2500 (by decide) (by decide)
  exact ⟨w1, h1, (h2 (by decide) (by decide)).1⟩

/-- The branch of `Aura::Update` in which the drain fires: the duration is
positive, the timer is not zero and not greater than `int32(diff)`, the caster
is present and the cost is not zero.  The cost is paid if the caster can
afford it, otherwise the aura is removed and the caster is left as it is. -/
theorem Update_drain_branch (K : Consts) (w : AuraWorld) (diff : Nat) (caster : CasterState)
    (hd : 0 < w.aura.m_duration)
    (ht0 : w.aura.m_timeCla ≠ 0)
    (ht : w.aura.m_timeCla ≤ toInt32 diff)
    (hcaster : w.caster = some caster)
    (hcost : toInt32 w.aura.m_spellInfo.ManaPerSecond ≠ 0) :
    ∃ w1, Update K w diff = some w1 ∧
      (w.aura.m_spellInfo.PowerType = K.POWER_HEALTH →
        (toInt32 caster.GetHealth > toInt32 w.aura.m_spellInfo.ManaPerSecond →
          w1.caster = some (caster.ModifyHealth (-toInt32 w.aura.m_spellInfo.ManaPerSecond)) ∧
          w1.aura.m_isRemoved = w.aura.m_isRemoved) ∧
        (¬ toInt32 caster.GetHealth > toInt32 w.aura.m_spellInfo.ManaPerSecond →
          w1.caster = some caster ∧ w1.aura.m_isRemoved = true)) ∧
      (w.aura.m_spellInfo.PowerType ≠ K.POWER_HEALTH →
        (toInt32 (caster.GetPower w.aura.m_spellInfo.PowerType) ≥
            toInt32 w.aura.m_spellInfo.ManaPerSecond →
          w1.caster = some (caster.ModifyPower w.aura.m_spellInfo.PowerType
            (-toInt32 w.aura.m_spellInfo.ManaPerSecond)) ∧
          w1.aura.m_isRemoved = w.aura.m_isRemoved) ∧
        (¬ toInt32 (caster.GetPower w.aura.m_spellInfo.PowerType) ≥
            toInt32 w.aura.m_spellInfo.ManaPerSecond →
          w1.caster = some caster ∧ w1.aura.m_isRemoved = true)) := by
  unfold Update
  simp only []
  rw [if_pos hd, if_pos ht0, if_neg (not_lt.mpr ht), hcaster]
  simp only []
  rw [if_pos hcost]
  split
  · next hp =>
    split
    · next hh =>
      exact ⟨_, rfl, fun _ => ⟨fun _ => ⟨rfl, rfl⟩, fun hn => absurd hh hn⟩,
        fun hn => absurd hp hn⟩
    · next hh =>
      obtain ⟨b, hb, hbr, -, -, -⟩ := Remove_ByDefault_frame
        { w.aura with
          m_duration := (if toInt32 (w.aura.m_duration - (diff : Int)) < 0 then 0
            else toInt32 (w.aura.m_duration - (diff : Int)))
          m_timeCla := toInt32 (w.aura.m_timeCla + 1000 - (diff : Int)) }
      rw [hb]
      exact ⟨_, rfl, fun _ => ⟨fun hy => absurd hy hh, fun _ => ⟨rfl, hbr⟩⟩,
        fun hn => absurd hp hn⟩
  · next hp =>
    split
    · next hh =>
      exact ⟨_, rfl, fun hy => absurd hy hp,
        fun _ => ⟨fun _ => ⟨rfl, rfl⟩, fun hn => absurd hh hn⟩⟩
    · next hh =>
      obtain ⟨b, hb, hbr, -, -, -⟩ := Remove_ByDefault_frame
        { w.aura with
          m_duration := (if toInt32 (w.aura.m_duration - (diff : Int)) < 0 then 0
            else toInt32 (w.aura.m_duration - (diff : Int)))
          m_timeCla := toInt32 (w.aura.m_timeCla + 1000 - (diff : Int)) }
      rw [hb]
      exact ⟨_, rfl, fun hy => absurd hy hp,
        fun _ => ⟨fun hy => absurd hy hh, fun _ => ⟨rfl, hbr⟩⟩⟩

/-- C18, counterexample: a permanent aura (duration -1) of a spell that costs 10
mana per second, whose drain timer of 1000 ms elapses in a tick of 1000 ms and
whose caster is present with 100 mana: `Update` neither pays the cost nor
removes the aura, and the timer stays at 1000. -/
theorem Update_drain_permanent_counterexample :
    (exampleDrainSpell 10 0).ManaPerSecond ≠ 0 ∧
    (exampleWorld (exampleDrainSpell 10 0) (-1) 1000 (some (exampleCaster 100 100))).caster.isSome
      = true ∧
    (0 : Int) < (exampleWorld (exampleDrainSpell 10 0) (-1) 1000
      (some (exampleCaster 100 100))).aura.m_timeCla ∧
    (exampleWorld (exampleDrainSpell 10 0) (-1) 1000
      (some (exampleCaster 100 100))).aura.m_timeCla ≤ ((1000 : Nat) : Int) ∧
    (Update exampleConsts
      (exampleWorld (exampleDrainSpell 10 0) (-1) 1000 (some (exampleCaster 100 100))) 1000).map
        (fun w => (w.aura.m_isRemoved, w.caster.map (fun c => (c.health, c.power 0)),
          w.aura.m_timeCla)) = some (false, some (100, 100), 1000) := by
  decide

/-- C18 (amended): for an aura whose spell has a non-zero per-second cost and
whose caster is present, in a tick of `diff < 2^31` ms in which the drain timer
elapses (`0 < m_timeCla <= diff`), `Update` performs the drain if the duration
is positive: it pays the cost from the caster's health or power, or removes the
aura and leaves the caster as it is.  For an aura whose duration is `<= 0`
(permanent) `Update` changes nothing: no drain takes place. -/
theorem Update_drain_needs_duration (K : Consts) (w : AuraWorld) (diff : Nat)
    (caster : CasterState)
    (hcaster : w.caster = some caster)
    (hcost : w.aura.m_spellInfo.ManaPerSecond ≠ 0)
    (hcost32 : w.aura.m_spellInfo.ManaPerSecond < 4294967296)
    (ht0 : 0 < w.aura.m_timeCla) (ht : w.aura.m_timeCla ≤ diff) (hdiff : diff < 2147483648) :
    ∃ w1, Update K w diff = some w1 ∧
      (0 < w.aura.m_duration →
        (w1.caster = some
            (if w.aura.m_spellInfo.PowerType = K.POWER_HEALTH then
              caster.ModifyHealth (-toInt32 w.aura.m_spellInfo.ManaPerSecond)
            else caster.ModifyPower w.aura.m_spellInfo.PowerType
              (-toInt32 w.aura.m_spellInfo.ManaPerSecond)) ∧
          w1.aura.m_isRemoved = w.aura.m_isRemoved) ∨
        (w1.caster = some caster ∧ w1.aura.m_isRemoved = true)) ∧
      (w.aura.m_duration ≤ 0 → w1 = w) := by
  by_cases hd : 0 < w.aura.m_duration
  · have h1 : w.aura.m_timeCla ≠ 0 := by omega
    have h2 : w.aura.m_timeCla ≤ toInt32 diff := by unfold toInt32; omega
    have h3 : toInt32 w.aura.m_spellInfo.ManaPerSecond ≠ 0 := by unfold toInt32; omega
    obtain ⟨w1, hw, hH, hP⟩ := Update_drain_branch K w diff caster hd h1 h2 hcaster h3
    refine ⟨w1, hw, fun _ => ?_, fun hle => absurd hd (by omega)⟩
    by_cases hp : w.aura.m_spellInfo.PowerType = K.POWER_HEALTH
    · rw [if_pos hp]
      by_cases hh : toInt32 caster.GetHealth > toInt32 w.aura.m_spellInfo.ManaPerSecond
      · exact Or.inl ((hH hp).1 hh)
      · exact Or.inr ((hH hp).2 hh)
    · rw [if_neg hp]
      by_cases hh : toInt32 (caster.GetPower w.aura.m_spellInfo.PowerType) ≥
          toInt32 w.aura.m_spellInfo.ManaPerSecond
      · exact Or.inl ((hP hp).1 hh)
      · exact Or.inr ((hP hp).2 hh)
  · refine ⟨w, ?_, fun h => absurd h hd, fun _ => rfl⟩
    unfold Update
    simp only []
    rw [if_neg hd]

/-- C18 (amended), witness: with 10000 ms left the same tick takes 10 of the 100
mana of the caster and keeps the aura. -/
theorem Update_drain_needs_duration_witness :
    (∃ w1, Update exampleConsts
        (exampleWorld (exampleDrainSpell 10 0) 10000 1000 (some (exampleCaster 100 100))) 1000
        = some w1 ∧
      ((0 : Int) < 10000 →
        (w1.caster = some
            (if (exampleDrainSpell 10 0).PowerType = exampleConsts.POWER_HEALTH then
              (exampleCaster 100 100).ModifyHealth (-toInt32 (10 : Nat))
            else (exampleCaster 100 100).ModifyPower 0 (-toInt32 (10 : Nat))) ∧
          w1.aura.m_isRemoved = false) ∨
        (w1.caster = some (exampleCaster 100 100) ∧ w1.aura.m_isRemoved = true)) ∧
      ((10000 : Int) ≤ 0 → w1 =
        exampleWorld (exampleDrainSpell 10 0) 10000 1000 (some (exampleCaster 100 100)))) ∧
    (Update exampleConsts
      (exampleWorld (exampleDrainSpell 10 0) 10000 1000 (some (exampleCaster 100 100))) 1000).map
        (fun w => (w.aura.m_isRemoved, w.caster.map (fun c => (c.health, c.power 0)),
          w.aura.m_timeCla)) = some (false, some (100, 90), 1000) :=
  ⟨Update_drain_needs_duration exampleConsts
    (exampleWorld (exampleDrainSpell 10 0) 10000 1000 (some (exampleCaster 100 100))) 1000
    (exampleCaster 100 100) rfl (by decide) (by decide) (by decide) (by decide) (by decide),
    by decide⟩

/-- C19: when the drain fires in `Update` (positive duration, timer not zero and
not greater than `int32(diff)`, caster present) with a per-second cost `c > 0`:
for a power pool the caster's power is decreased by exactly `c` and the aura is
not removed if `power >= c`, and otherwise the aura is removed and the power is
unchanged; for health the cost is paid only if `health > c` (and is paid
whenever `health > c` fits 31 bits), the health then stays `>= 1`, and otherwise
the aura is removed with the health unchanged.  Nothing else of the caster
changes and a power that was not negative does not become negative. -/
theorem Update_drain_no_negative_balance (K : Consts) (w : AuraWorld) (diff : Nat)
    (caster : CasterState)
    (hd : 0 < w.aura.m_duration)
    (ht0 : w.aura.m_timeCla ≠ 0)
    (ht : w.aura.m_timeCla ≤ toInt32 diff)
    (hcaster : w.caster = some caster)
    (hc0 : 0 < w.aura.m_spellInfo.ManaPerSecond)
    (hc1 : (w.aura.m_spellInfo.ManaPerSecond : Int) ≤ INT32_MAX)
    (hhealth : caster.health < 4294967296)
    (hpower : INT32_MIN ≤ caster.power w.aura.m_spellInfo.PowerType ∧
      caster.power w.aura.m_spellInfo.PowerType ≤ INT32_MAX) :
    ∃ w1 c1, Update K w diff = some w1 ∧ w1.caster = some c1 ∧
      (w.aura.m_spellInfo.PowerType ≠ K.POWER_HEALTH →
        c1.health = caster.health ∧
        (∀ p, p ≠ w.aura.m_spellInfo.PowerType → c1.power p = caster.power p) ∧
        (caster.power w.aura.m_spellInfo.PowerType ≥ w.aura.m_spellInfo.ManaPerSecond →
          c1.power w.aura.m_spellInfo.PowerType =
            caster.power w.aura.m_spellInfo.PowerType - w.aura.m_spellInfo.ManaPerSecond ∧
          w1.aura.m_isRemoved = w.aura.m_isRemoved) ∧
        (caster.power w.aura.m_spellInfo.PowerType < w.aura.m_spellInfo.ManaPerSecond →
          c1.power w.aura.m_spellInfo.PowerType = caster.power w.aura.m_spellInfo.PowerType ∧
          w1.aura.m_isRemoved = true)) ∧
      (w.aura.m_spellInfo.PowerType = K.POWER_HEALTH →
        (∀ p, c1.power p = caster.power p) ∧
        (((c1.health : Int) = (caster.health : Int) - w.aura.m_spellInfo.ManaPerSecond ∧
            caster.health > w.aura.m_spellInfo.ManaPerSecond ∧ 1 ≤ c1.health ∧
            w1.aura.m_isRemoved = w.aura.m_isRemoved) ∨
          (c1.health = caster.health ∧ w1.aura.m_isRemoved = true)) ∧
        ((caster.health : Int) ≤ INT32_MAX →
          caster.health > w.aura.m_spellInfo.ManaPerSecond →
          (c1.health : Int) = (caster.health : Int) - w.aura.m_spellInfo.ManaPerSecond ∧
          w1.aura.m_isRemoved = w.aura.m_isRemoved)) ∧
      (∀ p, 0 ≤ caster.power p → 0 ≤ c1.power p) := by
  have hcost : toInt32 w.aura.m_spellInfo.ManaPerSecond = w.aura.m_spellInfo.ManaPerSecond := by
    apply toInt32_eq_self _ hc1
    unfold INT32_MIN
    omega
  have hpw : toInt32 (caster.GetPower w.aura.m_spellInfo.PowerType) =
      caster.power w.aura.m_spellInfo.PowerType := toInt32_eq_self hpower.1 hpower.2
  obtain ⟨w1, hw, hH, hP⟩ := Update_drain_branch K w diff caster hd ht0 ht hcaster
    (by rw [hcost]; omega)
  rw [hcost] at hH hP
  rw [hpw] at hP
  by_cases hp : w.aura.m_spellInfo.PowerType = K.POWER_HEALTH
  · obtain ⟨hpay, hrem⟩ := hH hp
    by_cases hh : toInt32 caster.GetHealth > (w.aura.m_spellInfo.ManaPerSecond : Int)
    · obtain ⟨e1, e2⟩ := hpay hh
      have hgt : caster.health > w.aura.m_spellInfo.ManaPerSecond ∧
          (caster.health : Int) ≤ INT32_MAX := by
        unfold CasterState.GetHealth toInt32 at hh
        unfold INT32_MAX
        omega
      have hnew : ((caster.ModifyHealth (-(w.aura.m_spellInfo.ManaPerSecond : Int))).health : Int)
          = (caster.health : Int) - w.aura.m_spellInfo.ManaPerSecond := by
        unfold CasterState.ModifyHealth
        show ((((caster.health : Int) + -(w.aura.m_spellInfo.ManaPerSecond : Int)).toNat : Nat)
          : Int) = _
        omega
      refine ⟨w1, _, hw, e1, fun hn => absurd hp hn, fun _ => ⟨fun _ => rfl, ?_, ?_⟩,
        fun _ h0 => h0⟩
      · exact Or.inl ⟨hnew, hgt.1, by omega, e2⟩
      · intro _ _
        exact ⟨hnew, e2⟩
    · obtain ⟨e1, e2⟩ := hrem hh
      refine ⟨w1, _, hw, e1, fun hn => absurd hp hn, fun _ => ⟨fun _ => rfl, ?_, ?_⟩,
        fun _ h0 => h0⟩
      · exact Or.inr ⟨rfl, e2⟩
      · intro hle hgt
        exfalso
        apply hh
        unfold CasterState.GetHealth toInt32
        unfold INT32_MAX at hle
        omega
  · obtain ⟨hpay, hrem⟩ := hP hp
    by_cases hh : caster.power w.aura.m_spellInfo.PowerType ≥
        (w.aura.m_spellInfo.ManaPerSecond : Int)
    · obtain ⟨e1, e2⟩ := hpay hh
      have hnew : ∀ p, (caster.ModifyPower w.aura.m_spellInfo.PowerType
          (-(w.aura.m_spellInfo.ManaPerSecond : Int))).power p =
          if p = w.aura.m_spellInfo.PowerType then
            caster.power p + -(w.aura.m_spellInfo.ManaPerSecond : Int)
          else caster.power p := fun _ => rfl
      refine ⟨w1, _, hw, e1, fun _ => ⟨rfl, ?_, ?_, ?_⟩, fun hy => absurd hy hp, ?_⟩
      · intro p hne
        rw [hnew, if_neg hne]
      · intro _
        rw [hnew, if_pos rfl]
        exact ⟨by omega, e2⟩
      · intro hlt
        omega
      · intro p h0
        rw [hnew]
        split
        · next he => subst he; omega
        · exact h0
    · obtain ⟨e1, e2⟩ := hrem hh
      refine ⟨w1, _, hw, e1, fun _ => ⟨rfl, fun _ _ => rfl, ?_, ?_⟩, fun hy => absurd hy hp,
        fun _ h0 => h0⟩
      · intro hge
        exact absurd hge hh
      · intro _
        exact ⟨rfl, e2⟩

/-- C19, witness: a caster with 5 mana cannot pay 10 mana, the aura is
removed and the 5 mana stay; a caster with 100 health pays 10 health. -/
theorem Update_drain_no_negative_balance_witness :
    (∃ w1 c1, Update exampleConsts
        (exampleWorld (exampleDrainSpell 10 0) 10000 1000 (some (exampleCaster 100 5))) 1000
        = some w1 ∧ w1.caster = some c1 ∧ c1.power 0 = 5 ∧ w1.aura.m_isRemoved = true) ∧
    (Update exampleConsts
      (exampleWorld (exampleDrainSpell 10 exampleConsts.POWER_HEALTH) 10000 1000
        (some (exampleCaster 100 5))) 1000).map
        (fun w => (w.aura.m_isRemoved, w.caster.map (fun c => (c.health, c.power 0))))
      = some (false, some (90, 5)) ∧
    (Update exampleConsts
      (exampleWorld (exampleDrainSpell 10 exampleConsts.POWER_HEALTH) 10000 1000
        (some (exampleCaster 10 5))) 1000).map
        (fun w => (w.aura.m_isRemoved, w.caster.map (fun c => (c.health, c.power 0))))
      = some (true, some (10, 5)) := by
  refine ⟨?_, by decide, by decide⟩
  obtain ⟨w1, c1, hw, hc, hP, -, -⟩ := Update_drain_no_negative_balance exampleConsts
    (exampleWorld (exampleDrainSpell 10 0) 10000 1000 (some (exampleCaster 100 5))) 1000
    (exampleCaster 100 5) (by decide) (by decide) (by decide) rfl (by decide) (by decide)
    (by decide) (by decide)
  obtain ⟨-, -, -, h⟩ := hP (by decide)
  exact ⟨w1, c1, hw, hc, h (by decide)⟩

/-- C20, counterexample: without caster, a permanent aura (duration -1) whose
drain timer is at 1000 ms keeps the timer at 1000 in a tick of 100 ms, although
the timer is greater than the elapsed time; and for an aura with 10000 ms left
and the timer at 1000 ms, a tick of 2147483648 ms changes the timer to
-2147482648, although the timer is not greater than the elapsed time. -/
theorem Update_without_caster_counterexample :
    (exampleWorld (exampleDrainSpell 10 0) (-1) 1000 none).caster = none ∧
    ((100 : Nat) : Int) < (exampleWorld (exampleDrainSpell 10 0) (-1) 1000 none).aura.m_timeCla ∧
    (Update exampleConsts (exampleWorld (exampleDrainSpell 10 0) (-1) 1000 none) 100).map
      (fun w => w.aura.m_timeCla) = some 1000 ∧
    ¬ ((2147483648 : Nat) : Int) <
      (exampleWorld (exampleDrainSpell 10 0) 10000 1000 none).aura.m_timeCla ∧
    (Update exampleConsts (exampleWorld (exampleDrainSpell 10 0) 10000 1000 none)
      2147483648).map (fun w => w.aura.m_timeCla) = some (-2147482648) :=
  ⟨rfl, by decide, by decide, by decide, by decide⟩

/-- C20 (amended): when the caster is absent, `Update(diff)` completes, removes
nothing and leaves every member of the aura but the duration and the drain
timer as it is, for every `diff`.  An aura whose duration is `<= 0` is left
unchanged altogether.  For a positive duration and `diff < 2^31` the duration
becomes `max(0, d - diff)` and the drain timer is decreased by `diff` if it is
greater than `diff` and otherwise left as it is. -/
theorem Update_without_caster (K : Consts) (w : AuraWorld) (diff : Nat)
    (hcaster : w.caster = none) :
    ∃ w1, Update K w diff = some w1 ∧ w1.caster = none ∧
      w1.aura.m_isRemoved = w.aura.m_isRemoved ∧
      w1.aura.m_applications = w.aura.m_applications ∧
      { w1.aura with m_duration := w.aura.m_duration, m_timeCla := w.aura.m_timeCla } = w.aura ∧
      (w.aura.m_duration ≤ 0 → w1 = w) ∧
      (0 < w.aura.m_duration → w.aura.m_duration ≤ INT32_MAX →
        INT32_MIN ≤ w.aura.m_timeCla → w.aura.m_timeCla ≤ INT32_MAX → diff < 2147483648 →
        w1.aura.m_duration = max 0 (w.aura.m_duration - diff) ∧
        w1.aura.m_timeCla =
          if w.aura.m_timeCla > diff then w.aura.m_timeCla - diff else w.aura.m_timeCla) := by
  have hclamp : 0 < w.aura.m_duration → w.aura.m_duration ≤ INT32_MAX → diff < 2147483648 →
      (if toInt32 (w.aura.m_duration - (diff : Int)) < 0 then 0
        else toInt32 (w.aura.m_duration - (diff : Int))) =
      max 0 (w.aura.m_duration - diff) := by
    intro h1 h2 h3
    unfold INT32_MAX at h2
    unfold toInt32
    split_ifs <;> omega
  have hcmp : diff < 2147483648 → toInt32 (diff : Int) = diff := by
    intro h
    unfold toInt32
    omega
  unfold Update
  simp only []
  by_cases hd : w.aura.m_duration > 0
  · rw [if_pos hd]
    by_cases ht0 : w.aura.m_timeCla ≠ 0
    · rw [if_pos ht0]
      by_cases hgt : w.aura.m_timeCla > toInt32 (diff : Int)
      · rw [if_pos hgt]
        refine ⟨_, rfl, hcaster, rfl, rfl, rfl, fun hle => absurd hd (by omega), ?_⟩
        intro _ h2 h3 h4 h5
        refine ⟨hclamp hd h2 h5, ?_⟩
        rw [hcmp h5] at hgt
        rw [if_pos hgt]
        show toInt32 (w.aura.m_timeCla - (diff : Int)) = _
        unfold INT32_MIN at h3
        unfold INT32_MAX at h4
        unfold toInt32
        omega
      · rw [if_neg hgt, hcaster]
        refine ⟨_, rfl, rfl, rfl, rfl, rfl, fun hle => absurd hd (by omega), ?_⟩
        intro _ h2 h3 h4 h5
        refine ⟨hclamp hd h2 h5, ?_⟩
        rw [hcmp h5] at hgt
        rw [if_neg hgt]
    · rw [if_neg ht0]
      refine ⟨_, rfl, hcaster, rfl, rfl, rfl, fun hle => absurd hd (by omega), ?_⟩
      intro _ h2 h3 h4 h5
      refine ⟨hclamp hd h2 h5, ?_⟩
      have ht : w.aura.m_timeCla = 0 := not_not.mp ht0
      have hle : ¬ w.aura.m_timeCla > (diff : Int) := by omega
      rw [if_neg hle]
  · rw [if_neg hd]
    exact ⟨w, rfl, hcaster, rfl, rfl, rfl, fun _ => rfl, fun h => absurd h hd⟩

/-- C20 (amended), witness: without caster, an aura with 10000 ms left and the
timer at 1000 ms has 9900 ms left and the timer at 900 ms after 100 ms. -/
theorem Update_without_caster_witness :
    (∃ w1, Update exampleConsts (exampleWorld (exampleDrainSpell 10 0) 10000 1000 none) 100
        = some w1 ∧ w1.caster = none ∧ w1.aura.m_isRemoved = false ∧
      w1.aura.m_duration = 9900 ∧ w1.aura.m_timeCla = 900) := by
  obtain ⟨w1, hw, hc, hr, -, -, -, h⟩ := Update_without_caster exampleConsts
    (exampleWorld (exampleDrainSpell 10 0) 10000 1000 none) 100 rfl
  obtain ⟨h1, h2⟩ := h (by decide) (by decide) (by decide) (by decide) (by decide)
  exact ⟨w1, hw, hc, hr, h1, h2⟩

/-! ### The order inside `SetStackAmount` -/

theorem find_orMask (targets : TargetMap) (unit bits u : Nat) :
    TargetMap.find (TargetMap.orMask targets unit bits) u =
      (TargetMap.find targets u).map fun m => if u = unit then (m ||| bits) % 2 ^ 8 else m := by
  unfold TargetMap.find TargetMap.orMask
  induction targets with
  | nil => rfl
  | cons e rest ih =>
    obtain ⟨k, m⟩ := e
    rw [List.map_cons]
    by_cases hk : k = unit
    · rw [if_pos hk]
      by_cases hu : u = k
      · subst hu
        simp [List.lookup_cons, hk]
      · have hb : (u == k) = false := beq_eq_false_iff_ne.mpr hu
        simp only [List.lookup_cons, hb]
        exact ih
    · rw [if_neg hk]
      by_cases hu : u = k
      · subst hu
        simp [List.lookup_cons, hk]
      · have hb : (u == k) = false := beq_eq_false_iff_ne.mpr hu
        simp only [List.lookup_cons, hb]
        exact ih

theorem find_insert (targets : TargetMap) (unit bits u : Nat)
    (h : TargetMap.find targets unit = none) :
    TargetMap.find (TargetMap.insert targets unit bits) u =
      if u = unit then some (bits % 2 ^ 8) else TargetMap.find targets u := by
  unfold TargetMap.find TargetMap.insert at *
  rw [List.lookup_append]
  by_cases hu : u = unit
  · subst hu
    simp [h, List.lookup_cons]
  · have hb : (u == unit) = false := beq_eq_false_iff_ne.mpr hu
    simp [hu, List.lookup_cons, hb]

/-- The entry of a unit after the merge of `unit` for the effect `effIndex`. -/
theorem find_mergeUnit (targets : TargetMap) (unit effIndex u : Nat) :
    TargetMap.find (mergeUnit targets unit effIndex) u =
      if u = unit then some ((TargetMap.maskOf targets unit ||| 1 <<< effIndex) % 2 ^ 8)
      else TargetMap.find targets u := by
  unfold mergeUnit TargetMap.maskOf
  cases h : TargetMap.find targets unit with
  | none =>
    simp only [Option.getD_none, Nat.zero_or]
    exact find_insert targets unit _ u h
  | some m =>
    simp only [Option.getD_some]
    rw [find_orMask]
    by_cases hu : u = unit
    · subst hu
      simp [h]
    · simp [hu]

theorem mergeUnit_represents (targets : TargetMap) (P : Nat → Nat → Prop) (unit effIndex : Nat)
    (hT : TargetMap.Represents targets P) (hP : ∀ i u, P i u → i < 8) (hi : effIndex < 8) :
    TargetMap.Represents (mergeUnit targets unit effIndex)
      (fun i u => P i u ∨ (i = effIndex ∧ u = unit)) := by
  constructor
  · intro u
    rw [find_mergeUnit]
    by_cases hu : u = unit
    · rw [if_pos hu]
      exact ⟨fun _ => ⟨effIndex, Or.inr ⟨rfl, hu⟩⟩, fun _ => rfl⟩
    · rw [if_neg hu, hT.1 u]
      constructor
      · rintro ⟨i, h⟩
        exact ⟨i, Or.inl h⟩
      · rintro ⟨i, h | h⟩
        · exact ⟨i, h⟩
        · exact absurd h.2 hu
  · intro u i
    unfold TargetMap.maskOf
    rw [find_mergeUnit]
    by_cases hu : u = unit
    · rw [if_pos hu, Option.getD_some, Nat.testBit_mod_two_pow, Nat.testBit_or,
        Nat.one_shiftLeft, Nat.testBit_two_pow]
      have h2 := hT.2 unit i
      subst hu
      simp only [Bool.and_eq_true, Bool.or_eq_true, decide_eq_true_eq]
      constructor
      · rintro ⟨_, h | h⟩
        · exact Or.inl (h2.mp h)
        · exact Or.inr ⟨h.symm, trivial⟩
      · rintro (h | h)
        · exact ⟨hP i u h, Or.inl (h2.mpr h)⟩
        · exact ⟨by omega, Or.inr h.1.symm⟩
    · rw [if_neg hu]
      have h2 := hT.2 u i
      unfold TargetMap.maskOf at h2
      rw [h2]
      constructor
      · exact Or.inl
      · rintro (h | h)
        · exact h
        · exact absurd h.2 hu

theorem Represents_congr {targets : TargetMap} {P Q : Nat → Nat → Prop}
    (hT : TargetMap.Represents targets P) (h : ∀ i u, P i u ↔ Q i u) :
    TargetMap.Represents targets Q := by
  constructor
  · intro u
    rw [hT.1 u]
    exact exists_congr fun i => h i u
  · intro u i
    rw [hT.2 u i]
    exact h i u

theorem mergeUnits_represents (units : List Nat) (effIndex : Nat) (hi : effIndex < 8)
    (targets : TargetMap) (P : Nat → Nat → Prop)
    (hT : TargetMap.Represents targets P) (hP : ∀ i u, P i u → i < 8) :
    TargetMap.Represents (mergeUnits targets units effIndex)
      (fun i u => P i u ∨ (i = effIndex ∧ u ∈ units)) := by
  unfold mergeUnits
  induction units generalizing targets P with
  | nil =>
    refine Represents_congr hT fun i u => ?_
    simp
  | cons unit rest ih =>
    rw [List.foldl_cons]
    have h1 := mergeUnit_represents targets P unit effIndex hT hP hi
    have h2 := ih (mergeUnit targets unit effIndex) _ h1 (by
      rintro i u (h | h)
      · exact hP i u h
      · omega)
    refine Represents_congr h2 fun i u => ?_
    simp only [List.mem_cons]
    tauto

/-- The map filled by `FillTargetMap` when the loop has run over the effect
indices below `n`. -/
theorem FillTargetMap_represents (a : Aura) (units : Nat → List Nat) (n : Nat) (hn : n ≤ 8) :
    TargetMap.Represents
      ((List.range n).foldl
        (fun targets effIndex =>
          if !a.HasEffect effIndex then targets
          else mergeUnits targets (units effIndex) effIndex)
        [])
      (fun i u => i < n ∧ a.HasEffect i = true ∧ u ∈ units i) := by
  induction n with
  | zero =>
    constructor
    · intro u
      simp [TargetMap.find]
    · intro u i
      simp [TargetMap.maskOf, TargetMap.find]
  | succ n ih =>
    rw [List.range_succ, List.foldl_append, List.foldl_cons, List.foldl_nil]
    have h1 := ih (by omega)
    by_cases he : a.HasEffect n = true
    · rw [if_neg (by simp [he])]
      have h2 := mergeUnits_represents (units n) n (by omega) _ _ h1 (by
        intro i u h
        omega)
      refine Represents_congr h2 fun i u => ?_
      constructor
      · rintro (h | h)
        · exact ⟨by omega, h.2⟩
        · obtain ⟨rfl, hu⟩ := h
          exact ⟨by omega, he, hu⟩
      · rintro ⟨hlt, h⟩
        by_cases hin : i = n
        · subst hin
          exact Or.inr ⟨rfl, h.2⟩
        · exact Or.inl ⟨by omega, h⟩
    · rw [if_pos (by simp [he])]
      refine Represents_congr h1 fun i u => ?_
      constructor
      · rintro ⟨hlt, h⟩
        exact ⟨by omega, h⟩
      · rintro ⟨hlt, h⟩
        by_cases hin : i = n
        · subst hin
          exact absurd h.1 he
        · exact ⟨by omega, h⟩

/-- C15: starting from an empty map, with `MAX_SPELL_EFFECTS <= 8` (the masks
are stored in 8 bits), a unit is a key of the map filled by `FillTargetMap` iff
it is a candidate of an effect index below `MAX_SPELL_EFFECTS` that the aura
has, and bit `i` of its mask is set iff `i < MAX_SPELL_EFFECTS`, the aura has
the effect `i` and the unit is among the candidates of `i`; candidate lists with
the same members give the same entries. -/
theorem FillTargetMap_merge (K : Consts) (a : Aura) (units : Nat → List Nat)
    (hK : K.MAX_SPELL_EFFECTS ≤ 8) :
    (∀ u, (∃ m, TargetMap.find (a.FillTargetMap K units) u = some m) ↔
      ∃ i, i < K.MAX_SPELL_EFFECTS ∧ a.HasEffect i = true ∧ u ∈ units i) ∧
    (∀ u m, TargetMap.find (a.FillTargetMap K units) u = some m →
      ∀ i, (m.testBit i = true ↔
        i < K.MAX_SPELL_EFFECTS ∧ a.HasEffect i = true ∧ u ∈ units i)) ∧
    (∀ units1 : Nat → List Nat, (∀ i u, u ∈ units1 i ↔ u ∈ units i) →
      ∀ u, TargetMap.find (a.FillTargetMap K units1) u =
        TargetMap.find (a.FillTargetMap K units) u) := by
  have hR : ∀ us : Nat → List Nat, TargetMap.Represents (a.FillTargetMap K us)
      (fun i u => i < K.MAX_SPELL_EFFECTS ∧ a.HasEffect i = true ∧ u ∈ us i) :=
    fun us => FillTargetMap_represents a us K.MAX_SPELL_EFFECTS hK
  have hbits : ∀ (us : Nat → List Nat) (u m : Nat),
      TargetMap.find (a.FillTargetMap K us) u = some m →
      ∀ i, (m.testBit i = true ↔
        i < K.MAX_SPELL_EFFECTS ∧ a.HasEffect i = true ∧ u ∈ us i) := by
    intro us u m hm i
    have h := (hR us).2 u i
    unfold TargetMap.maskOf at h
    rw [hm, Option.getD_some] at h
    exact h
  refine ⟨fun u => ?_, hbits units, ?_⟩
  · rw [← (hR units).1 u, Option.isSome_iff_exists]
  · intro units1 hmem u
    have k1 := (hR units1).1 u
    have k := (hR units).1 u
    cases h1 : TargetMap.find (a.FillTargetMap K units1) u with
    | none =>
      cases h : TargetMap.find (a.FillTargetMap K units) u with
      | none => rfl
      | some m =>
        exfalso
        rw [h1] at k1
        rw [h] at k
        obtain ⟨i, hi, he, hu⟩ := k.mp rfl
        have := k1.mpr ⟨i, hi, he, (hmem i u).mpr hu⟩
        exact Bool.noConfusion this
    | some m1 =>
      cases h : TargetMap.find (a.FillTargetMap K units) u with
      | none =>
        exfalso
        rw [h1] at k1
        rw [h] at k
        obtain ⟨i, hi, he, hu⟩ := k1.mp rfl
        have := k.mpr ⟨i, hi, he, (hmem i u).mp hu⟩
        exact Bool.noConfusion this
      | some m =>
        congr 1
        apply Nat.eq_of_testBit_eq
        intro i
        have b1 := hbits units1 u m1 h1 i
        have b := hbits units u m h i
        rw [Bool.eq_iff_iff, b1, b, hmem i u]

/-- C15, witness: for the aura with the effects 0 and 2 and the candidates
`[10, 11, 10]`, `[12]` and `[11]`, the map has the unit 10 with the mask 1 and
the unit 11 with the mask 5; the unit 12, a candidate of the missing effect 1
only, is no key. -/
theorem FillTargetMap_merge_witness :
    exampleConsts.MAX_SPELL_EFFECTS ≤ 8 ∧
    exampleEffectAura.FillTargetMap exampleConsts exampleUnits = [(10, 1), (11, 5)] ∧
    ((∃ m, TargetMap.find (exampleEffectAura.FillTargetMap exampleConsts exampleUnits) 12
        = some m) ↔
      ∃ i, i < exampleConsts.MAX_SPELL_EFFECTS ∧ exampleEffectAura.HasEffect i = true ∧
        12 ∈ exampleUnits i) :=
  ⟨by decide, by decide,
    (FillTargetMap_merge exampleConsts exampleEffectAura exampleUnits (by decide)).1 12⟩

/-! ### The order of the target operations of `UpdateTargetMap` -/

/-- The register loop only appends creations. -/
theorem registerLoop_ops (K : Consts) (env : TargetEnv) (a : Aura) (targets : TargetMap)
    (s : TargetRun) :
    ∃ creates, (registerLoop K env a targets s).2.ops = s.ops ++ creates ∧
      ∀ o, o ∈ creates → ∃ unit effMask, o = TargetOp._CreateAuraApplication unit effMask := by
  induction targets generalizing s with
  | nil => exact ⟨[], by simp [registerLoop], fun o ho => absurd ho (List.not_mem_nil o)⟩
  | cons e rest ih =>
    obtain ⟨unit, effMask⟩ := e
    unfold registerLoop
    split
    · split
      · exact ih s
      · exact ⟨[], by simp [TargetRun.abort], fun o ho => absurd ho (List.not_mem_nil o)⟩
    · simp only []
      split
      · exact ih s
      · split
        · exact ⟨[], by simp [TargetRun.abort], fun o ho => absurd ho (List.not_mem_nil o)⟩
        · obtain ⟨creates, h1, h2⟩ := ih (s.call
            (env._CreateAuraApplication s.m_applications unit
              (clearImmuneEffects K env unit effMask))
            (TargetOp._CreateAuraApplication unit (clearImmuneEffects K env unit effMask)))
          refine ⟨TargetOp._CreateAuraApplication unit (clearImmuneEffects K env unit effMask)
            :: creates, ?_, ?_⟩
          · rw [h1]
            simp [TargetRun.call]
          · intro o ho
            rcases List.mem_cons.mp ho with ho | ho
            · exact ⟨_, _, ho⟩
            · exact h2 o ho

/-- The unapply loop only appends unapplies and does not end the call. -/
theorem unapplyLoop_ops (env : TargetEnv) (targetsToRemove : List Nat) (s : TargetRun) :
    ∃ unapplies, (unapplyLoop env targetsToRemove s).ops = s.ops ++ unapplies ∧
      ∀ o, o ∈ unapplies → ∃ unit aurApp, o = TargetOp._UnapplyAura unit aurApp := by
  induction targetsToRemove generalizing s with
  | nil => exact ⟨[], by simp [unapplyLoop], fun o ho => absurd ho (List.not_mem_nil o)⟩
  | cons unit rest ih =>
    unfold unapplyLoop
    split
    · next aurApp _ =>
      obtain ⟨unapplies, h1, h2⟩ := ih (s.call (env._UnapplyAura s.m_applications unit aurApp)
        (TargetOp._UnapplyAura unit aurApp.self))
      refine ⟨TargetOp._UnapplyAura unit aurApp.self :: unapplies, ?_, ?_⟩
      · rw [h1]
        simp [TargetRun.call]
      · intro o ho
        rcases List.mem_cons.mp ho with ho | ho
        · exact ⟨_, _, ho⟩
        · exact h2 o ho
    · exact ih s

/-- The apply loop only appends activations. -/
theorem applyLoop_ops (env : TargetEnv) (targets : TargetMap) (s : TargetRun) :
    ∃ applies, (applyLoop env targets s).ops = s.ops ++ applies ∧
      ∀ o, o ∈ applies → ∃ unit aurApp effMask, o = TargetOp._ApplyAura unit aurApp effMask := by
  induction targets generalizing s with
  | nil => exact ⟨[], by simp [applyLoop], fun o ho => absurd ho (List.not_mem_nil o)⟩
  | cons e rest ih =>
    obtain ⟨unit, effMask⟩ := e
    unfold applyLoop
    split
    · next aurApp _ =>
      split
      · obtain ⟨applies, h1, h2⟩ := ih (s.call
          (env._ApplyAura s.m_applications unit aurApp effMask)
          (TargetOp._ApplyAura unit aurApp.self effMask))
        refine ⟨TargetOp._ApplyAura unit aurApp.self effMask :: applies, ?_, ?_⟩
        · rw [h1]
          simp [TargetRun.call]
        · intro o ho
          rcases List.mem_cons.mp ho with ho | ho
          · exact ⟨_, _, _, ho⟩
          · exact h2 o ho
      · exact ⟨[], by simp [TargetRun.abort], fun o ho => absurd ho (List.not_mem_nil o)⟩
    · exact ih s

/-- C14, counterexample: the aura is bound to the unit 1, which is no candidate
any more, and the unit 2 is a new candidate that passes every check.
`UpdateTargetMap(caster, true)` first creates the application for the unit 2 and
only then unapplies the application (address 100) of the unit 1: the unapply
comes after a creation. -/
theorem UpdateTargetMap_order_counterexample :
    exampleBoundAura.m_applications.map (fun app => (app.self, app.target)) = [(100, 1)] ∧
    exampleBoundAura.FillTargetMap exampleConsts exampleTargetEnv.units = [(2, 1)] ∧
    (exampleBoundAura.UpdateTargetMap_calls exampleConsts exampleTargetEnv true).ops =
      [TargetOp._CreateAuraApplication 2 1, TargetOp._UnapplyAura 1 100,
        TargetOp._ApplyAura 2 202 1] ∧
    (exampleBoundAura.UpdateTargetMap_calls exampleConsts exampleTargetEnv true).aborted =
      false := by
  decide

/-- C14 (amended): the target operations of one `UpdateTargetMap` call, whether
the call completes or is ended by `ABORT()` or an assertion, are a sequence of
creations (`_CreateAuraApplication` for the new targets), followed by a
sequence of unapplies (`_UnapplyAura` for the bound targets that are no longer
valid), followed by a sequence of activations (`_ApplyAura`): every creation
comes before every unapply, every activation after all creations and
unapplies, and with `apply = false` there is no activation. -/
theorem UpdateTargetMap_order (K : Consts) (env : TargetEnv) (a : Aura) (apply : Bool) :
    ∃ creates unapplies applies,
      (a.UpdateTargetMap_calls K env apply).ops = creates ++ unapplies ++ applies ∧
      (∀ o, o ∈ creates → ∃ unit effMask, o = TargetOp._CreateAuraApplication unit effMask) ∧
      (∀ o, o ∈ unapplies → ∃ unit aurApp, o = TargetOp._UnapplyAura unit aurApp) ∧
      (∀ o, o ∈ applies →
        ∃ unit aurApp effMask, o = TargetOp._ApplyAura unit aurApp effMask) ∧
      (apply = false → applies = []) := by
  have hnil : ∀ (P : TargetOp → Prop) (o : TargetOp), o ∈ ([] : List TargetOp) → P o :=
    fun _ o ho => absurd ho (List.not_mem_nil o)
  unfold UpdateTargetMap_calls
  simp only []
  split
  · exact ⟨[], [], [], rfl, hnil _, hnil _, hnil _, fun _ => rfl⟩
  · obtain ⟨creates, hc1, hc2⟩ := registerLoop_ops K env a
      (markLoop K env a.m_applications (a.FillTargetMap K env.units)).2
      { m_applications := a.m_applications, ops := [], aborted := false }
    rw [List.nil_append] at hc1
    split
    · exact ⟨creates, [], [], by rw [hc1]; simp, hc2, hnil _, hnil _, fun _ => rfl⟩
    · obtain ⟨unapplies, hu1, hu2⟩ := unapplyLoop_ops env
        (markLoop K env a.m_applications (a.FillTargetMap K env.units)).1
        (registerLoop K env a (markLoop K env a.m_applications (a.FillTargetMap K env.units)).2
          { m_applications := a.m_applications, ops := [], aborted := false }).2
      split
      · exact ⟨creates, unapplies, [], by rw [hu1, hc1]; simp, hc2, hu2, hnil _, fun _ => rfl⟩
      · next hap =>
        obtain ⟨applies, ha1, ha2⟩ := applyLoop_ops env
          (registerLoop K env a
            (markLoop K env a.m_applications (a.FillTargetMap K env.units)).2
            { m_applications := a.m_applications, ops := [], aborted := false }).1
          (unapplyLoop env (markLoop K env a.m_applications (a.FillTargetMap K env.units)).1
            (registerLoop K env a
              (markLoop K env a.m_applications (a.FillTargetMap K env.units)).2
              { m_applications := a.m_applications, ops := [], aborted := false }).2)
        refine ⟨creates, unapplies, applies, by rw [ha1, hu1, hc1], hc2, hu2, ha2, ?_⟩
        intro hf
        rw [hf] at hap
        exact absurd rfl hap

/-- C14 (amended), witness: with `apply = false` the same call creates the
application for the unit 2, unapplies the one of the unit 1 and activates
nothing. -/
theorem UpdateTargetMap_order_witness :
    (∃ creates unapplies applies,
      (exampleBoundAura.UpdateTargetMap_calls exampleConsts exampleTargetEnv false).ops =
        creates ++ unapplies ++ applies ∧
      (∀ o, o ∈ creates → ∃ unit effMask, o = TargetOp._CreateAuraApplication unit effMask) ∧
      (∀ o, o ∈ unapplies → ∃ unit aurApp, o = TargetOp._UnapplyAura unit aurApp) ∧
      (∀ o, o ∈ applies →
        ∃ unit aurApp effMask, o = TargetOp._ApplyAura unit aurApp effMask) ∧
      (false = false → applies = [])) ∧
    (exampleBoundAura.UpdateTargetMap_calls exampleConsts exampleTargetEnv false).ops =
      [TargetOp._CreateAuraApplication 2 1, TargetOp._UnapplyAura 1 100] :=
  ⟨UpdateTargetMap_order exampleConsts exampleTargetEnv exampleBoundAura false, by decide⟩

/-! ### Removal is final -/

/-- On an aura whose removed flag is set `Remove` returns at once. -/
theorem Remove_of_removed (a : Aura) (removeMode : AuraRemoveFlags)
    (h : a.m_isRemoved = true) : a.Remove removeMode = some a := by
  unfold Remove IsRemoved
  rw [if_pos h]

/-- Whenever `Remove` completes, the removed flag is set afterwards. -/
theorem Remove_sets_removed {a b : Aura} {removeMode : AuraRemoveFlags}
    (h : a.Remove removeMode = some b) : b.m_isRemoved = true := by
  unfold Remove IsRemoved Unit_RemoveOwnedAura _Remove at h
  cases hr : a.m_isRemoved
  · rw [hr] at h
    simp only [Bool.false_eq_true, if_false] at h
    cases hm : removeMode.DontResetPeriodicTimer
    · rw [hm] at h
      simp only [Bool.false_eq_true, if_false] at h
      cases hT : a.GetType <;> rw [hT] at h <;> cases h <;> rfl
    · rw [hm] at h
      cases hT : a.GetType <;> rw [hT] at h <;> simp at h
  · rw [hr] at h
    simp only [if_true] at h
    cases h
    exact hr

theorem procHandlerLoop_removed (env : ProcEnv) (mask : Nat) (aurApp : AuraApplication)
    (hframe : ∀ i b, b.m_isRemoved = true → (env.HandleProc i b).m_isRemoved = true) :
    ∀ (l : List Nat) (a b : Aura), a.m_isRemoved = true →
      procHandlerLoop env mask aurApp l a = some b → b.m_isRemoved = true := by
  intro l
  induction l with
  | nil =>
    intro a b ha h
    unfold procHandlerLoop at h
    cases h
    exact ha
  | cons i rest ih =>
    intro a b ha h
    unfold procHandlerLoop at h
    split at h
    · exact ih a b ha h
    · split at h
      · split at h
        · cases h
        · exact ih _ b (hframe i a ha) h
      · exact ih a b ha h

theorem UpdateTargetMap_of_removed (K : Consts) (env : UpdateEnv) (a : Aura) (apply : Bool)
    (h : a.m_isRemoved = true) : UpdateTargetMap K env a apply = a := by
  unfold UpdateTargetMap IsRemoved
  rw [if_pos h]

theorem UpdateOwner_interval_removed (K : Consts) (env : UpdateEnv) (a : Aura) (d : Nat)
    (h : a.m_isRemoved = true) : (UpdateOwner_interval K env a d).m_isRemoved = true := by
  unfold UpdateOwner_interval
  split
  · rw [UpdateTargetMap_of_removed K env a true h]
    exact h
  · exact h

/-- No operation on an aura resets the removed flag. -/
theorem AuraOp_run_removed (K : Consts) (penv : ProcEnv) (uenv : UpdateEnv)
    (hframe : ∀ i b, b.m_isRemoved = true → (penv.HandleProc i b).m_isRemoved = true)
    (hafter : ∀ b, b.m_isRemoved = true → (penv.afterProcHooks b).m_isRemoved = true)
    (op : AuraOp) (a b : Aura) (ha : a.m_isRemoved = true)
    (h : op.run K penv uenv a = some b) : b.m_isRemoved = true := by
  have hmod : ∀ (x : Aura) (num : Int) (removeMode : AuraRemoveFlags) (r : Bool × Aura),
      x.m_isRemoved = true → ModStackAmount K penv.toAuraEnv x num removeMode = some r →
      r.2.m_isRemoved = true := by
    intro x num removeMode r hx hr
    unfold ModStackAmount at hr
    simp only [] at hr
    split at hr
    · split at hr
      · rw [((ModStackAmount_update_spec K penv.toAuraEnv x 1 removeMode).2 r hr).2.2]
        exact hx
      · rw [((ModStackAmount_update_spec K penv.toAuraEnv x _ removeMode).2 r hr).2.2]
        exact hx
    · split at hr
      · rw [Remove_of_removed x _ hx] at hr
        cases hr
        exact hx
      · rw [((ModStackAmount_update_spec K penv.toAuraEnv x _ removeMode).2 r hr).2.2]
        exact hx
  cases op with
  | SetCharges charges =>
    cases h
    rw [(SetCharges_frame a charges).2.2.1]
    exact ha
  | SetDuration duration withMods =>
    cases h
    exact ha
  | RefreshDuration withMods =>
    cases h
    rw [(RefreshDuration_frame K penv.toAuraEnv a withMods).2.1]
    exact ha
  | RefreshTimers =>
    rw [(RefreshTimers_frame h).2.1]
    exact ha
  | SetStackAmount stackAmount =>
    cases h
    exact ha
  | ModStackAmount num removeMode =>
    dsimp only [AuraOp.run] at h
    cases hr : ModStackAmount K penv.toAuraEnv a num removeMode with
    | none => rw [hr] at h; cases h
    | some r =>
      rw [hr] at h
      cases h
      exact hmod a num removeMode r ha hr
  | ModCharges num removeMode =>
    dsimp only [AuraOp.run] at h
    unfold ModCharges at h
    simp only [] at h
    split at h
    · split at h
      · cases h
        rw [(SetCharges_frame a _).2.2.1]
        exact ha
      · split at h
        · rw [Remove_of_removed a _ ha] at h
          cases h
          exact ha
        · cases h
          rw [(SetCharges_frame a _).2.2.1]
          exact ha
    · cases h
      exact ha
  | Remove removeMode => exact Remove_sets_removed h
  | _Remove removeMode =>
    dsimp only [AuraOp.run] at h
    unfold Aura._Remove at h
    rw [if_pos ha] at h
    cases h
  | AddProcCooldown cooldownEnd =>
    cases h
    exact ha
  | PrepareProcToTrigger eventInfo now =>
    dsimp only [AuraOp.run] at h
    unfold PrepareProcToTrigger at h
    simp only [] at h
    split at h
    · cases h
      exact ha
    · split at h
      · cases h
      · cases h
        unfold AddProcCooldown
        split <;> exact ha
  | TriggerProcOnEvent procEffectMask aurApp =>
    dsimp only [AuraOp.run] at h
    unfold TriggerProcOnEvent at h
    simp only [] at h
    have hhandled : ∀ a1, (if (!CallScriptProcHandlers penv.procPrevented) = true then
        Option.map penv.afterProcHooks
          (procHandlerLoop penv procEffectMask aurApp (List.range K.MAX_SPELL_EFFECTS) a)
        else some a) = some a1 → a1.m_isRemoved = true := by
      intro a1 h1
      split at h1
      · cases hl : procHandlerLoop penv procEffectMask aurApp
            (List.range K.MAX_SPELL_EFFECTS) a with
        | none => rw [hl] at h1; cases h1
        | some c =>
          rw [hl] at h1
          cases h1
          exact hafter c (procHandlerLoop_removed penv procEffectMask aurApp hframe _ a c ha hl)
      · cases h1
        exact ha
    rw [Option.bind_eq_some] at h
    obtain ⟨a1, h1, h2⟩ := h
    have ha1 := hhandled a1 h1
    split at h2
    · cases h2
    · split at h2
      · cases hr : ModStackAmount K penv.toAuraEnv a1 (-1) AuraRemoveFlags.ByDefault with
        | none => rw [hr] at h2; cases h2
        | some r =>
          rw [hr] at h2
          cases h2
          exact hmod a1 _ _ r ha1 hr
      · split at h2
        · split at h2
          · exact Remove_sets_removed h2
          · cases h2
            exact ha1
        · cases h2
          exact ha1
  | Update caster diff =>
    dsimp only [AuraOp.run] at h
    obtain ⟨w1, hw, -, hmono, -⟩ := Update_spec K { aura := a, caster := caster } diff
    rw [hw] at h
    cases h
    exact hmono ha
  | UpdateTargetMap apply =>
    cases h
    rw [UpdateTargetMap_of_removed K uenv a apply ha]
    exact ha
  | UpdateOwner caster diff =>
    dsimp only [AuraOp.run] at h
    obtain ⟨wU, hU, -, hmono, -⟩ := Update_spec K { aura := a, caster := caster } diff
    obtain ⟨w1, hw, hr, -, -⟩ := UpdateOwner_of_Update K uenv hU
    rw [hw] at h
    cases h
    rw [hr]
    exact UpdateOwner_interval_removed K uenv wU.aura diff (hmono ha)

/-- C21: on an aura whose removed flag is set, `Remove(mode)` of a `UnitAura` or
`DynObjAura` returns the aura unchanged; hence `Remove(m1)` followed by
`Remove(m2)` leaves the state of `Remove(m1)` alone; and after any sequence of
operations on a removed aura the removed flag is still set (the proc handlers
and hooks of the scripts being unable to reset it). -/
theorem Remove_idempotent (K : Consts) (penv : ProcEnv) (uenv : UpdateEnv) (a : Aura)
    (hframe : ∀ i b, b.m_isRemoved = true → (penv.HandleProc i b).m_isRemoved = true)
    (hafter : ∀ b, b.m_isRemoved = true → (penv.afterProcHooks b).m_isRemoved = true) :
    (∀ mode, a.m_isRemoved = true → a.Remove mode = some a) ∧
    (∀ m1 m2 b, a.Remove m1 = some b → b.Remove m2 = some b) ∧
    (∀ ops b, a.m_isRemoved = true → AuraOp.runAll K penv uenv ops a = some b →
      b.m_isRemoved = true) := by
  refine ⟨fun mode h => Remove_of_removed a mode h,
    fun m1 m2 b h => Remove_of_removed b m2 (Remove_sets_removed h), ?_⟩
  intro ops
  induction ops generalizing a with
  | nil =>
    intro b ha h
    cases h
    exact ha
  | cons op rest ih =>
    intro b ha h
    unfold AuraOp.runAll at h
    rw [Option.bind_eq_some] at h
    obtain ⟨c, hc, hrest⟩ := h
    exact ih c b (AuraOp_run_removed K penv uenv hframe hafter op a c ha hc) hrest

/-- C21, witness: the aura bound to one target is removed by the first `Remove`;
a second `Remove`, even with a mode that `_Remove` refuses, changes nothing:
the target stays queued once and the flag stays set. -/
theorem Remove_idempotent_witness :
    ((∀ mode, exampleAreaWorld.aura.m_isRemoved = true →
        exampleAreaWorld.aura.Remove mode = some exampleAreaWorld.aura) ∧
      (∀ m1 m2 b, exampleAreaWorld.aura.Remove m1 = some b → b.Remove m2 = some b) ∧
      (∀ ops b, exampleAreaWorld.aura.m_isRemoved = true →
        AuraOp.runAll exampleConsts exampleProcEnv exampleUpdateEnv ops exampleAreaWorld.aura
          = some b → b.m_isRemoved = true)) ∧
    ((exampleAreaWorld.aura.Remove AuraRemoveFlags.ByDefault).bind fun b =>
      (b.Remove ⟨true, 4⟩).map fun c =>
        (c.m_isRemoved, c.m_applications.length, c.m_removedApplications.length))
      = some (true, 0, 1) ∧
    ((exampleAreaWorld.aura.Remove AuraRemoveFlags.ByDefault).bind fun b =>
      AuraOp.runAll exampleConsts exampleProcEnv exampleUpdateEnv
        [AuraOp.SetCharges 2, AuraOp.RefreshDuration true, AuraOp.Update none 100,
          AuraOp.UpdateTargetMap true, AuraOp.Remove AuraRemoveFlags.ByDefault] b).map
      (fun c => c.m_isRemoved) = some true :=
  ⟨Remove_idempotent exampleConsts exampleProcEnv exampleUpdateEnv exampleAreaWorld.aura
    (fun _ _ h => h) (fun _ h => h), by decide, by decide⟩

/-! ### The unapply loop of `_Remove` -/

/-- An application of the map that the call does not leave in the map is among
those it unapplied, when the addresses of the map are distinct and the call adds
no entry. -/
theorem mem_unappliedBy {before after : List AuraApplication} {app : AuraApplication}
    (hsub : List.Sublist after before) (haddr : (before.map fun x => x.self).Nodup)
    (hb : app ∈ before) (ha : app ∉ after) : app ∈ unappliedBy before after := by
  unfold unappliedBy
  rw [List.mem_filter]
  refine ⟨hb, ?_⟩
  rw [Bool.not_eq_true', List.any_eq_false]
  intro y hy hself
  apply ha
  have hyb : y ∈ before := hsub.subset hy
  have heq : y = app :=
    List.inj_on_of_nodup_map haddr hyb hb (by simpa using hself)
  rw [← heq]
  exact hy

/-- The loop of `_Remove` ends with an empty map when every unapply erases the
entry of its target and adds none, and `fuel` covers the size of the map. -/
theorem Remove_loop_spec
    (unapply : List AuraApplication → AuraApplication → List AuraApplication)
    (herase : ∀ aurApp rest, List.Sublist (unapply (aurApp :: rest) aurApp) rest) :
    ∀ (fuel : Nat) (a : Aura), a.m_applications.length ≤ fuel →
      (a.m_applications.map fun x => x.self).Nodup →
      ∃ b, _Remove_loop unapply fuel a = some b ∧ b.m_applications = [] ∧
        b.m_isRemoved = a.m_isRemoved ∧ b.m_dropEvent = a.m_dropEvent ∧
        (∀ app, app ∈ a.m_applications → app ∈ b.m_removedApplications) ∧
        (∀ app, app ∈ a.m_removedApplications → app ∈ b.m_removedApplications) := by
  intro fuel
  induction fuel with
  | zero =>
    intro a hlen _
    have hnil : a.m_applications = [] := List.length_eq_zero.mp (Nat.le_zero.mp hlen)
    refine ⟨a, ?_, hnil, rfl, rfl, ?_, fun _ h => h⟩
    · unfold _Remove_loop
      rw [hnil]
    · intro app happ
      rw [hnil] at happ
      exact absurd happ (List.not_mem_nil app)
  | succ n ih =>
    intro a hlen haddr
    cases happs : a.m_applications with
    | nil =>
      refine ⟨a, ?_, happs, rfl, rfl, ?_, fun _ h => h⟩
      · unfold _Remove_loop
        rw [happs]
      · intro app happ
        exact absurd happ (List.not_mem_nil app)
    | cons aurApp rest =>
      rw [happs] at hlen haddr
      have hsub := herase aurApp rest
      have hsub2 : List.Sublist (unapply (aurApp :: rest) aurApp) (aurApp :: rest) :=
        hsub.trans (List.sublist_cons_self aurApp rest)
      have hlen2 : (unapply (aurApp :: rest) aurApp).length ≤ n := by
        have := hsub.length_le
        simp only [List.length_cons] at hlen
        omega
      have haddr2 : ((unapply (aurApp :: rest) aurApp).map fun x => x.self).Nodup :=
        List.Nodup.sublist (hsub2.map _) haddr
      obtain ⟨b, hb, hnil, hrem, hdrop, hq1, hq2⟩ := ih
        { a with
          m_applications := unapply (aurApp :: rest) aurApp
          m_removedApplications := a.m_removedApplications ++
            unappliedBy (aurApp :: rest) (unapply (aurApp :: rest) aurApp) }
        hlen2 haddr2
      refine ⟨b, ?_, hnil, hrem, hdrop, ?_, ?_⟩
      · unfold _Remove_loop
        rw [happs]
        exact hb
      · intro app happ
        by_cases hin : app ∈ unapply (aurApp :: rest) aurApp
        · exact hq1 app hin
        · exact hq2 app (List.mem_append_right _ (mem_unappliedBy hsub2 haddr happ hin))
      · intro app happ
        exact hq2 app (List.mem_append_left _ happ)

theorem Remove_dropEvent_spec (a : Aura) :
    (a._Remove_dropEvent).2 = a.m_dropEvent ∧ (a._Remove_dropEvent).1.m_dropEvent = false ∧
    (a._Remove_dropEvent).1.m_isRemoved = a.m_isRemoved ∧
    (a._Remove_dropEvent).1.m_applications = a.m_applications ∧
    (a._Remove_dropEvent).1.m_removedApplications = a.m_removedApplications := by
  unfold _Remove_dropEvent
  cases h : a.m_dropEvent
  · exact ⟨rfl, h, rfl, rfl, rfl⟩
  · exact ⟨rfl, rfl, rfl, rfl, rfl⟩

/-- C22, counterexample: the aura bound to three units is not removed and every
unapply erases the entry of its target and adds none, but with a removal mode
that has the `DontResetPeriodicTimer` flag the second assertion of `_Remove`
fails: the call does not complete, whatever the number of iterations. -/
theorem Remove_loop_counterexample :
    exampleCascadeAura.m_isRemoved = false ∧
    (∀ aurApp rest, List.Sublist (exampleCascade (aurApp :: rest) aurApp) rest) ∧
    (∀ fuel, _Remove_cascading exampleCascade fuel exampleCascadeAura ⟨true, 1⟩ = none) := by
  refine ⟨rfl, ?_, fun fuel => rfl⟩
  intro _ rest
  cases rest with
  | nil => exact List.Sublist.slnil
  | cons x xs => exact List.sublist_cons_self x xs

/-- C22 (amended): for an aura that is not removed, a removal mode without the
`DontResetPeriodicTimer` flag and applications at distinct addresses, assuming
that each unapply leaves a part of the map without the entry of its target
(possibly without further entries, never with a new one), `_Remove` completes
within as many iterations as the map has entries; afterwards the removed flag
is set, the map is empty, every application that was bound or already queued is
in the deferred-deletion queue, and the drop event is cleared and, if one was
pending, aborted. -/
theorem Remove_loop_terminates
    (unapply : List AuraApplication → AuraApplication → List AuraApplication)
    (a : Aura) (removeMode : AuraRemoveFlags) (fuel : Nat)
    (herase : ∀ aurApp rest, List.Sublist (unapply (aurApp :: rest) aurApp) rest)
    (hnot : a.m_isRemoved = false) (hmode : removeMode.DontResetPeriodicTimer = false)
    (haddr : (a.m_applications.map fun x => x.self).Nodup)
    (hfuel : a.m_applications.length ≤ fuel) :
    ∃ b aborted, _Remove_cascading unapply fuel a removeMode = some (b, aborted) ∧
      b.m_isRemoved = true ∧ b.m_applications = [] ∧
      (∀ app, app ∈ a.m_applications → app ∈ b.m_removedApplications) ∧
      (∀ app, app ∈ a.m_removedApplications → app ∈ b.m_removedApplications) ∧
      b.m_dropEvent = false ∧ aborted = a.m_dropEvent := by
  obtain ⟨b, hb, hnil, hrem, hdrop, hq1, hq2⟩ := Remove_loop_spec unapply herase fuel
    { a with m_isRemoved := true } hfuel haddr
  obtain ⟨d1, d2, d3, d4, d5⟩ := Remove_dropEvent_spec b
  refine ⟨(b._Remove_dropEvent).1, (b._Remove_dropEvent).2, ?_, ?_, ?_, ?_, ?_, d2, ?_⟩
  · unfold _Remove_cascading
    rw [hnot, hmode]
    simp only [Bool.false_eq_true, if_false]
    rw [hb]
    rfl
  · rw [d3]
    exact hrem
  · rw [d4]
    exact hnil
  · intro app happ
    rw [d5]
    exact hq1 app happ
  · intro app happ
    rw [d5]
    exact hq2 app happ
  · rw [d1]
    exact hdrop

/-- C22 (amended), witness: the aura bound to three units, whose first unapply erases the
entry of the second unit by a cascade, is removed in two iterations; the three
applications are queued and the pending drop event is aborted. -/
theorem Remove_loop_terminates_witness :
    (∃ b aborted, _Remove_cascading exampleCascade 3 exampleCascadeAura
        AuraRemoveFlags.ByDefault = some (b, aborted) ∧
      b.m_isRemoved = true ∧ b.m_applications = [] ∧
      (∀ app, app ∈ exampleCascadeAura.m_applications → app ∈ b.m_removedApplications) ∧
      (∀ app, app ∈ exampleCascadeAura.m_removedApplications →
        app ∈ b.m_removedApplications) ∧
      b.m_dropEvent = false ∧ aborted = exampleCascadeAura.m_dropEvent) ∧
    (_Remove_cascading exampleCascade 2 exampleCascadeAura AuraRemoveFlags.ByDefault).map
      (fun r => (r.1.m_removedApplications.map (fun x => x.self), r.1.m_dropEvent, r.2))
      = some ([101, 102, 103], false, true) :=
  ⟨Remove_loop_terminates exampleCascade exampleCascadeAura AuraRemoveFlags.ByDefault 3
    (fun _ rest => by
      cases rest with
      | nil => exact List.Sublist.slnil
      | cons x xs => exact List.sublist_cons_self x xs)
    rfl rfl (by decide) (by decide), by decide⟩

/-! ### Refresh or create -/

/-- The mask built for the owner is a part of the available mask. -/
theorem BuildEffectMaskForOwner_subset {K : Consts} {env : CreateEnv} {available effMask : Nat}
    (h : BuildEffectMaskForOwner K env available = some effMask) :
    effMask &&& available = effMask := by
  unfold BuildEffectMaskForOwner at h
  split at h <;> first
    | (cases h; rw [Nat.land_assoc, Nat.and_self])
    | cases h

/-- C23: whenever `TryRefreshStackOrCreate` completes, the effect mask it uses is
the mask built for the owner, a part of the requested mask.  If that mask is 0
the call returns nothing with `refresh = false`, without a lookup or a
creation.  Otherwise it calls the stack-or-refresh routine of the owner once
with that mask: if the routine finds an aura, `Create` is not called, and the
found aura is returned with `refresh = true`, or nothing with
`refresh = false` if the aura is removed; if the routine finds none, `Create` is
called once with the mask, its result is returned and `refresh` is false.  The
call completes for a unit or player owner when a caster or caster GUID is given
and the requested mask is at most `MAX_EFFECT_MASK`. -/
theorem TryRefreshStackOrCreate_never_duplicates (K : Consts) (env : CreateEnv)
    (tryEffMask : Nat) :
    (env.casterGiven = true → tryEffMask ≤ env.MAX_EFFECT_MASK →
      (env.GetTypeId = TypeID.TYPEID_UNIT ∨ env.GetTypeId = TypeID.TYPEID_PLAYER) →
      (TryRefreshStackOrCreate K env tryEffMask).isSome = true) ∧
    ∀ r, TryRefreshStackOrCreate K env tryEffMask = some r →
      ∃ effMask, BuildEffectMaskForOwner K env tryEffMask = some effMask ∧
        effMask &&& tryEffMask = effMask ∧
        (effMask = 0 → r.result = none ∧ r.refresh = false ∧ r.calls = []) ∧
        (effMask ≠ 0 → ∀ foundAura,
          env._TryStackingOrRefreshingExistingAura effMask = some foundAura →
          r.calls = [CreateCall._TryStackingOrRefreshingExistingAura effMask] ∧
          (foundAura.IsRemoved = false → r.result = some foundAura ∧ r.refresh = true) ∧
          (foundAura.IsRemoved = true → r.result = none ∧ r.refresh = false)) ∧
        (effMask ≠ 0 → env._TryStackingOrRefreshingExistingAura effMask = none →
          r.calls = [CreateCall._TryStackingOrRefreshingExistingAura effMask,
            CreateCall.Create effMask] ∧
          r.result = env.Create effMask ∧ r.refresh = false) := by
  constructor
  · intro hc hm ht
    unfold TryRefreshStackOrCreate
    rw [hc, if_neg (by simp), if_neg (by omega)]
    have hb : ∃ effMask, BuildEffectMaskForOwner K env tryEffMask = some effMask := by
      unfold BuildEffectMaskForOwner
      rcases ht with ht | ht <;> rw [ht] <;> exact ⟨_, rfl⟩
    obtain ⟨effMask, hb⟩ := hb
    rw [hb]
    simp only []
    by_cases h0 : effMask = 0
    · rw [if_pos h0]
      rfl
    · rw [if_neg h0, if_pos ht]
      cases env._TryStackingOrRefreshingExistingAura effMask with
      | none => rfl
      | some foundAura =>
        simp only []
        split <;> rfl
  · intro r h
    unfold TryRefreshStackOrCreate at h
    split at h
    · cases h
    · split at h
      · cases h
      · cases hb : BuildEffectMaskForOwner K env tryEffMask with
        | none => rw [hb] at h; cases h
        | some effMask =>
          rw [hb] at h
          simp only [] at h
          refine ⟨effMask, rfl, BuildEffectMaskForOwner_subset hb, ?_⟩
          by_cases h0 : effMask = 0
          · rw [if_pos h0] at h
            cases h
            exact ⟨fun _ => ⟨rfl, rfl, rfl⟩, fun hne => absurd h0 hne, fun hne => absurd h0 hne⟩
          · rw [if_neg h0] at h
            split at h
            · cases hf : env._TryStackingOrRefreshingExistingAura effMask with
              | none =>
                rw [hf] at h
                cases h
                exact ⟨fun hz => absurd hz h0, fun _ foundAura hfa => Option.noConfusion hfa,
                  fun _ _ => ⟨rfl, rfl, rfl⟩⟩
              | some foundAura =>
                rw [hf] at h
                simp only [] at h
                refine ⟨fun hz => absurd hz h0, ?_, fun _ hn => Option.noConfusion hn⟩
                intro _ fa hfa
                cases hfa
                cases hr : foundAura.IsRemoved
                · rw [hr] at h
                  cases h
                  exact ⟨rfl, fun _ => ⟨rfl, rfl⟩, fun hc => Bool.noConfusion hc⟩
                · rw [hr] at h
                  cases h
                  exact ⟨rfl, fun hc => Bool.noConfusion hc, fun _ => ⟨rfl, rfl⟩⟩
            · cases h

/-- C23, witness: with the requested mask 5 the mask built is 1.  When the owner
has the aura at the address 4, it is returned with `refresh = true` and
`Create` is not called; when it has none, `Create` is called with the mask 1;
with the requested mask 4 nothing is looked up or created. -/
theorem TryRefreshStackOrCreate_never_duplicates_witness :
    (TryRefreshStackOrCreate exampleConsts
        (exampleCreateEnv (some (exampleAuraOf 4 (exampleSpell 1 0) 7))) 5).isSome = true ∧
    (TryRefreshStackOrCreate exampleConsts
        (exampleCreateEnv (some (exampleAuraOf 4 (exampleSpell 1 0) 7))) 5).map
      (fun r => (r.result.map (fun a => a.self), r.refresh, r.calls))
      = some (some 4, true, [CreateCall._TryStackingOrRefreshingExistingAura 1]) ∧
    (TryRefreshStackOrCreate exampleConsts (exampleCreateEnv none) 5).map
      (fun r => (r.result.map (fun a => a.self), r.refresh, r.calls))
      = some (some 9, false, [CreateCall._TryStackingOrRefreshingExistingAura 1,
        CreateCall.Create 1]) ∧
    (TryRefreshStackOrCreate exampleConsts (exampleCreateEnv none) 4).map
      (fun r => (r.result.map (fun a => a.self), r.refresh, r.calls))
      = some (none, false, []) :=
  ⟨(TryRefreshStackOrCreate_never_duplicates exampleConsts
      (exampleCreateEnv (some (exampleAuraOf 4 (exampleSpell 1 0) 7))) 5).1
      rfl (by decide) (Or.inl rfl),
    by decide, by decide, by decide⟩

/-! ### Release or hand-over of the visible slot -/

/-- C24, failing input: three auras of the passive item spell 1 (caster 7, cast
item 5), which stack with each other, are applied to the target in turn; the
first and the third are sent to the client and hold the visible slot 0, the
second lacks the visible effect and holds no slot.  When the first application
is unapplied, the lookup of `_Remove` finds the second, whose slot number
differs, and the entry of slot 0 is removed from the visible-aura map although
the third application is still applied and holds slot 0.  An application of
spell 101 constructed next takes slot 0 as a free slot and shares it with the
third application. -/
theorem Remove_frees_held_slot :
    (∀ a ∈ [exampleItemAura 21 3, exampleItemAura 22 2, exampleItemAura 23 3],
      ∀ b ∈ [exampleItemAura 21 3, exampleItemAura 22 2, exampleItemAura 23 3],
        CanStackWith exampleConsts exampleRankEnv a b = true) ∧
    [exampleItemAura 21 3, exampleItemAura 22 2, exampleItemAura 23 3].map
      (fun a => a.CanBeSentToClient exampleConsts) = [true, false, true] ∧
    exampleItemTarget.unit.m_appliedAuras.map
      (fun x => (x.self, x._slot, x.baseId, x.baseCasterGUID, x.baseCastItemGUID))
      = [(1, 0, 1, 7, 5), (2, 255, 1, 7, 5), (3, 0, 1, 7, 5)] ∧
    (0 : Nat) < exampleConsts.MAX_AURAS ∧
    exampleItemTarget.unit.m_visibleAuras 0 = some 3 ∧
    exampleItemTarget.freesHeldSlot exampleConsts (AppOp.remove 1) = true ∧
    ((exampleItemTarget.step exampleConsts (AppOp.remove 1)).unit.m_appliedAuras.map
      fun x => (x.self, x._slot)) = [(2, 255), (3, 0)] ∧
    (exampleItemTarget.step exampleConsts (AppOp.remove 1)).unit.m_visibleAuras 0 = none ∧
    ((exampleItemTarget.run exampleConsts [AppOp.remove 1, exampleCreate 101]
      ).unit.m_appliedAuras.map fun x => (x.self, x.baseId, x._slot))
      = [(2, 1, 255), (3, 1, 0), (4, 101, 0)] := by
  decide

/-! ### The flags of a new application -/

/-- The flags that `_InitFlags` sets on an application without flags, when
`AFLAG_CASTER` is the single bit `c`. -/
theorem InitFlags_flags (K : Consts) (env : AppEnv) (base : Aura) (app : AuraApplication)
    (effMask c : Nat) (hC : K.AFLAG_CASTER = 2 ^ c) (h0 : app._flags = 0) :
    (AuraApplication._InitFlags K env base app effMask)._flags =
      ((if base.GetCasterGUID = app.target then K.AFLAG_CASTER else 0) |||
        (if (decide (base.GetCasterGUID = app.target) || !env.casterPresent ||
            !env.IsFriendlyTo) = true then
          (if ((List.range K.MAX_SPELL_EFFECTS).any fun i =>
              ((1 <<< i) &&& effMask != 0) && !base.m_spellInfo.IsPositiveEffect i) = true
            then K.AFLAG_NEGATIVE else K.AFLAG_POSITIVE)
        else
          (if ((List.range K.MAX_SPELL_EFFECTS).any fun i =>
              ((1 <<< i) &&& effMask != 0) && base.m_spellInfo.IsPositiveEffect i) = true
            then K.AFLAG_POSITIVE else K.AFLAG_NEGATIVE))) |||
      (if (base.m_spellInfo.HasAttribute SpellAttr.SPELL_ATTR8_AURA_SEND_AMOUNT ||
          base.HasEffectType K AuraType.SPELL_AURA_OVERRIDE_ACTIONBAR_SPELLS) = true
        then K.AFLAG_ANY_EFFECT_AMOUNT_SENT else 0) := by
  have hself : (((0 : Nat) ||| (if base.GetCasterGUID = app.target then K.AFLAG_CASTER else 0))
      &&& K.AFLAG_CASTER != 0) = decide (base.GetCasterGUID = app.target) := by
    by_cases h : base.GetCasterGUID = app.target
    · rw [if_pos h, hC, Nat.zero_or, Nat.and_self]
      simp [h]
    · rw [if_neg h]
      simp [h]
  unfold AuraApplication._InitFlags AuraApplication.IsSelfcast
  simp only []
  rw [h0, hself]
  split_ifs <;> simp

/-- The loops of `_InitFlags` find an effect iff some effect index below
`MAX_SPELL_EFFECTS` is in the mask and is beneficial or not as asked. -/
theorem InitFlags_found (K : Consts) (base : Aura) (effMask : Nat) (positive : Bool) :
    ((List.range K.MAX_SPELL_EFFECTS).any fun i =>
      ((1 <<< i) &&& effMask != 0) &&
        (if positive then base.m_spellInfo.IsPositiveEffect i
          else !base.m_spellInfo.IsPositiveEffect i)) = true ↔
    ∃ i, i < K.MAX_SPELL_EFFECTS ∧ (1 <<< i) &&& effMask ≠ 0 ∧
      base.m_spellInfo.IsPositiveEffect i = positive := by
  rw [List.any_eq_true]
  constructor
  · rintro ⟨i, hi, h⟩
    refine ⟨i, List.mem_range.mp hi, ?_⟩
    cases positive <;> simpa using h
  · rintro ⟨i, hi, h⟩
    refine ⟨i, List.mem_range.mpr hi, ?_⟩
    cases positive <;> simpa using h

/-- C25: `_InitFlags` on a new application (no flag set yet), the flags
`AFLAG_CASTER`, `AFLAG_POSITIVE`, `AFLAG_NEGATIVE` and
`AFLAG_ANY_EFFECT_AMOUNT_SENT` being the distinct single bits `c`, `p`, `n` and
`s`.  The self-cast flag is set iff the caster GUID of the aura is the GUID of
the target; exactly one of the positive and the negative flag is set; when the
aura is self-cast, or the caster is absent, or the caster is not friendly to
the target, the negative flag is set iff some effect index of the mask is not
beneficial; when the caster is another unit, present and friendly, the positive
flag is set iff some effect index of the mask is beneficial. -/
theorem InitFlags_classification (K : Consts) (env : AppEnv) (base : Aura)
    (app : AuraApplication) (effMask c p n s : Nat)
    (hC : K.AFLAG_CASTER = 2 ^ c) (hP : K.AFLAG_POSITIVE = 2 ^ p)
    (hN : K.AFLAG_NEGATIVE = 2 ^ n) (hS : K.AFLAG_ANY_EFFECT_AMOUNT_SENT = 2 ^ s)
    (hcp : c ≠ p) (hcn : c ≠ n) (hpn : p ≠ n) (hsc : s ≠ c) (hsp : s ≠ p) (hsn : s ≠ n)
    (h0 : app._flags = 0) :
    ((AuraApplication._InitFlags K env base app effMask)._flags.testBit c = true ↔
      base.GetCasterGUID = app.target) ∧
    ((AuraApplication._InitFlags K env base app effMask)._flags.testBit p = true ↔
      (AuraApplication._InitFlags K env base app effMask)._flags.testBit n = false) ∧
    ((base.GetCasterGUID = app.target ∨ env.casterPresent = false ∨ env.IsFriendlyTo = false) →
      ((AuraApplication._InitFlags K env base app effMask)._flags.testBit n = true ↔
        ∃ i, i < K.MAX_SPELL_EFFECTS ∧ (1 <<< i) &&& effMask ≠ 0 ∧
          base.m_spellInfo.IsPositiveEffect i = false)) ∧
    ((base.GetCasterGUID ≠ app.target ∧ env.casterPresent = true ∧ env.IsFriendlyTo = true) →
      ((AuraApplication._InitFlags K env base app effMask)._flags.testBit p = true ↔
        ∃ i, i < K.MAX_SPELL_EFFECTS ∧ (1 <<< i) &&& effMask ≠ 0 ∧
          base.m_spellInfo.IsPositiveEffect i = true)) := by
  have hneg := InitFlags_found K base effMask false
  have hpos := InitFlags_found K base effMask true
  simp only [Bool.false_eq_true, if_false, if_true] at hneg hpos
  rw [InitFlags_flags K env base app effMask c hC h0, hC, hP, hN, hS]
  generalize ((List.range K.MAX_SPELL_EFFECTS).any fun i =>
    ((1 <<< i) &&& effMask != 0) && !base.m_spellInfo.IsPositiveEffect i) = negativeFound
    at hneg ⊢
  generalize ((List.range K.MAX_SPELL_EFFECTS).any fun i =>
    ((1 <<< i) &&& effMask != 0) && base.m_spellInfo.IsPositiveEffect i) = positiveFound
    at hpos ⊢
  generalize (base.m_spellInfo.HasAttribute SpellAttr.SPELL_ATTR8_AURA_SEND_AMOUNT ||
    base.HasEffectType K AuraType.SPELL_AURA_OVERRIDE_ACTIONBAR_SPELLS) = sendAmount
  rw [← hneg, ← hpos]
  have e1 : ∀ x y : Nat, (2 ^ x).testBit y = decide (x = y) := fun x y => Nat.testBit_two_pow
  by_cases hself : base.GetCasterGUID = app.target <;>
    cases env.casterPresent <;> cases env.IsFriendlyTo <;>
    cases negativeFound <;> cases positiveFound <;> cases sendAmount <;>
    simp [hself, Nat.testBit_or, e1, hcp, hcn, hpn, hsc, hsp, hsn, Ne.symm hcp, Ne.symm hcn,
      Ne.symm hpn, Ne.symm hsc, Ne.symm hsp, Ne.symm hsn]

/-- C25, witness: the application of the aura of caster 7 on the target 7, with
all effects beneficial, is self-cast and positive and not negative. -/
theorem InitFlags_classification_witness :
    ((AuraApplication._InitFlags exampleConsts exampleAppEnv (exampleAura (exampleSpell 1 0) 1 0)
        { exampleApplication with _flags := 0 } 7)._flags.testBit 3 = true ↔
      (exampleAura (exampleSpell 1 0) 1 0).GetCasterGUID =
        ({ exampleApplication with _flags := 0 } : AuraApplication).target) ∧
    (AuraApplication._InitFlags exampleConsts exampleAppEnv (exampleAura (exampleSpell 1 0) 1 0)
      { exampleApplication with _flags := 0 } 7)._flags = 24 :=
  ⟨(InitFlags_classification exampleConsts exampleAppEnv (exampleAura (exampleSpell 1 0) 1 0)
      { exampleApplication with _flags := 0 } 7 3 4 7 6 rfl rfl rfl rfl (by decide) (by decide)
      (by decide) (by decide) (by decide) (by decide) rfl).1,
    by decide⟩

/-! ### Guarded apply and unapply of one effect -/

theorem and_shift_eq_zero (x i : Nat) : x &&& 1 <<< i = 0 ↔ x.testBit i = false := by
  rw [Nat.one_shiftLeft, Nat.and_two_pow]
  have hpos : 0 < 2 ^ i := Nat.two_pow_pos i
  cases x.testBit i
  · simp
  · simp only [Bool.toNat_true, Nat.one_mul, Bool.true_eq_false, iff_false]
    omega

theorem shift_and_eq_zero (x i : Nat) : (1 <<< i) &&& x = 0 ↔ x.testBit i = false := by
  rw [Nat.and_comm]
  exact and_shift_eq_zero x i

theorem HasEffect_testBit (app : AuraApplication) (i : Nat) :
    app.HasEffect i = app._flags.testBit i := by
  unfold AuraApplication.HasEffect
  cases h : app._flags.testBit i
  · rw [(and_shift_eq_zero _ _).mpr h]
    rfl
  · have hne : app._flags &&& 1 <<< i ≠ 0 := by
      intro hc
      rw [(and_shift_eq_zero _ _).mp hc] at h
      exact Bool.noConfusion h
    simpa using hne

/-- The function `_HandleEffect` with its assertions read as conditions on
single bits. -/
theorem HandleEffect_eq (base : Aura) (app : AuraApplication) (i : Nat) (apply : Bool) :
    AuraApplication._HandleEffect base app i apply =
      if base.HasEffect i = true ∧ app._effectsToApply.testBit i = true ∧
          app._flags.testBit i = !apply then
        some { app with
          _flags := if apply then (app._flags ||| 1 <<< i) % 2 ^ 8
            else app._flags &&& (255 ^^^ ((1 <<< i) % 2 ^ 8))
          _needClientUpdate := true }
      else none := by
  unfold AuraApplication._HandleEffect Aura.HasEffect
  cases hb : base.GetEffect i with
  | none => simp
  | some eff =>
    simp only [Option.isSome_some, true_and]
    rw [HasEffect_testBit]
    cases hf : app._flags.testBit i <;> cases hm : app._effectsToApply.testBit i <;>
      cases apply <;>
      simp [shift_and_eq_zero, and_shift_eq_zero, hf, hm]

theorem testBit_of_lt_256 {f k : Nat} (hf : f < 256) (hk : 8 ≤ k) : f.testBit k = false := by
  apply Nat.testBit_eq_false_of_lt
  calc f < 2 ^ 8 := hf
    _ ≤ 2 ^ k := Nat.pow_le_pow_right (by norm_num) hk

/-- The flags after a successful `_HandleEffect`: bit `i` is `apply`, the other
bits are unchanged. -/
theorem HandleEffect_flags {base : Aura} {app r : AuraApplication} {i : Nat} {apply : Bool}
    (hflags : app._flags < 256) (hmask : app._effectsToApply < 256)
    (h : AuraApplication._HandleEffect base app i apply = some r) :
    i < 8 ∧ base.HasEffect i = true ∧ app._effectsToApply.testBit i = true ∧
    app._flags.testBit i = (!apply) ∧
    (∀ k, r._flags.testBit k = if k = i then apply else app._flags.testBit k) ∧
    r._flags < 256 ∧ r._effectsToApply = app._effectsToApply := by
  rw [HandleEffect_eq] at h
  split at h
  · next hc =>
    obtain ⟨hb, hm, hf⟩ := hc
    have hi : i < 8 := by
      by_contra hge
      rw [testBit_of_lt_256 hmask (by omega)] at hm
      exact Bool.noConfusion hm
    have h255 : ∀ k, (255 : Nat).testBit k = decide (k < 8) := fun k =>
      Nat.testBit_two_pow_sub_one 8 k
    cases h
    refine ⟨hi, hb, hm, hf, ?_, ?_, rfl⟩
    · intro k
      cases apply
      · show (app._flags &&& (255 ^^^ ((1 <<< i) % 2 ^ 8))).testBit k = _
        rw [Nat.testBit_and, Nat.testBit_xor, h255, Nat.testBit_mod_two_pow, Nat.one_shiftLeft,
          Nat.testBit_two_pow]
        by_cases hk : k = i
        · subst hk
          simp [hi]
        · rw [if_neg hk]
          by_cases hk8 : k < 8
          · simp [hk8, Ne.symm hk]
          · rw [testBit_of_lt_256 hflags (by omega)]
            simp
      · show ((app._flags ||| 1 <<< i) % 2 ^ 8).testBit k = _
        rw [Nat.testBit_mod_two_pow, Nat.testBit_or, Nat.one_shiftLeft, Nat.testBit_two_pow]
        by_cases hk : k = i
        · subst hk
          simp [hi]
        · rw [if_neg hk]
          by_cases hk8 : k < 8
          · simp [hk8, Ne.symm hk]
          · rw [testBit_of_lt_256 hflags (by omega)]
            simp [hk8]
    · cases apply
      · show app._flags &&& (255 ^^^ ((1 <<< i) % 2 ^ 8)) < 256
        exact Nat.lt_of_le_of_lt Nat.and_le_left hflags
      · show (app._flags ||| 1 <<< i) % 2 ^ 8 < 256
        exact Nat.mod_lt _ (by norm_num)
  · cases h

/-- C26: for an application whose flags and effects-to-apply mask are 8-bit
values, `_HandleEffect(i, apply)` succeeds exactly when the aura has effect
`i`, bit `i` is in the effects-to-apply mask, and effect `i` is active on the
target iff `apply` is false; otherwise an assertion fails.  On success bit `i`
of the flags becomes `apply` (it was `!apply`) and every other bit is
unchanged; a successful apply can be followed by the unapply of the same
index, which restores the flags. -/
theorem HandleEffect_guarded (base : Aura) (app : AuraApplication) (i : Nat) (apply : Bool)
    (hflags : app._flags < 256) (hmask : app._effectsToApply < 256) :
    ((AuraApplication._HandleEffect base app i apply).isSome = true ↔
      base.HasEffect i = true ∧ app._effectsToApply.testBit i = true ∧
        app.HasEffect i = !apply) ∧
    (∀ r, AuraApplication._HandleEffect base app i apply = some r →
      app._flags.testBit i = (!apply) ∧
      ∀ k, r._flags.testBit k = if k = i then apply else app._flags.testBit k) ∧
    (∀ r1, AuraApplication._HandleEffect base app i true = some r1 →
      ∃ r2, AuraApplication._HandleEffect base r1 i false = some r2 ∧
        r2._flags = app._flags) := by
  refine ⟨?_, ?_, ?_⟩
  · rw [HandleEffect_eq, HasEffect_testBit]
    split
    · next hc => exact ⟨fun _ => hc, fun _ => rfl⟩
    · next hc => exact ⟨fun h => Bool.noConfusion h, fun h => absurd h hc⟩
  · intro r h
    obtain ⟨-, -, -, hf, hk, -, -⟩ := HandleEffect_flags hflags hmask h
    exact ⟨hf, hk⟩
  · intro r1 h1
    obtain ⟨_, hb, hm, hf, hk1, hlt1, he1⟩ := HandleEffect_flags hflags hmask h1
    have hsome : (AuraApplication._HandleEffect base r1 i false).isSome = true := by
      rw [HandleEffect_eq, if_pos]
      · rfl
      · refine ⟨hb, by rw [he1]; exact hm, ?_⟩
        rw [hk1 i, if_pos rfl]
        rfl
    obtain ⟨r2, h2⟩ := Option.isSome_iff_exists.mp hsome
    refine ⟨r2, h2, ?_⟩
    obtain ⟨-, -, -, -, hk2, -, -⟩ := HandleEffect_flags hlt1 (by rw [he1]; exact hmask) h2
    apply Nat.eq_of_testBit_eq
    intro k
    rw [hk2 k]
    by_cases hki : k = i
    · rw [if_pos hki, hki, hf]
      rfl
    · rw [if_neg hki, hk1 k, if_neg hki]

/-- C26, witness: on the application with the effects-to-apply mask 7 and no
active effect, the apply of effect 1 sets the flags to 2 and the unapply resets
them to 0; a second apply fails. -/
theorem HandleEffect_guarded_witness :
    ((AuraApplication._HandleEffect (exampleChargedAura 1)
        { exampleApplication with _flags := 0 } 1 true).isSome = true ↔
      (exampleChargedAura 1).HasEffect 1 = true ∧
        ({ exampleApplication with _flags := 0 } : AuraApplication)._effectsToApply.testBit 1
          = true ∧
        ({ exampleApplication with _flags := 0 } : AuraApplication).HasEffect 1 = !true) ∧
    (AuraApplication._HandleEffect (exampleChargedAura 1)
      { exampleApplication with _flags := 0 } 1 true).map (fun r => r._flags) = some 2 ∧
    ((AuraApplication._HandleEffect (exampleChargedAura 1)
      { exampleApplication with _flags := 0 } 1 true).bind fun r =>
        AuraApplication._HandleEffect (exampleChargedAura 1) r 1 false).map (fun r => r._flags)
      = some 0 ∧
    ((AuraApplication._HandleEffect (exampleChargedAura 1)
      { exampleApplication with _flags := 0 } 1 true).bind fun r =>
        AuraApplication._HandleEffect (exampleChargedAura 1) r 1 true).isSome = false :=
  ⟨(HandleEffect_guarded (exampleChargedAura 1) { exampleApplication with _flags := 0 } 1 true
      (by decide) (by decide)).1,
    by decide, by decide, by decide⟩

/-! ### The charge taken by a proc -/

/-- The aura after `PrepareProcToTrigger` when no script prevents the default and
the proc entry exists. -/
theorem PrepareProcToTrigger_eq (K : Consts) (env : ProcEnv) (a : Aura)
    (eventInfo : ProcEventInfo) (now : Int) (procEntry : SpellProcEntry)
    (hprepare : CallScriptPrepareProcHandlers env.prepareProcPrevented = true)
    (hentry : env.procEntry = some procEntry) :
    ∃ b, PrepareProcToTrigger K env a eventInfo now = some b ∧
      b.m_procCooldown = now + procEntry.Cooldown ∧
      b.m_isUsingCharges = a.m_isUsingCharges ∧ b.m_isRemoved = a.m_isRemoved ∧
      b.m_procCharges =
        if (procEntry.AttributesMask &&& K.PROC_ATTR_USE_STACKS_FOR_CHARGES = 0 ∧
            a.m_isUsingCharges = true ∧
            ∀ spellInfo, eventInfo.GetSpellInfo = some spellInfo →
              spellInfo.HasAttribute SpellAttr.SPELL_ATTR6_DONT_CONSUME_PROC_CHARGES = false)
        then toUInt8 ((a.m_procCharges : Int) - 1) else a.m_procCharges := by
  unfold PrepareProcToTrigger
  simp only []
  rw [hprepare, hentry]
  simp only [Bool.not_true, Bool.false_eq_true, if_false]
  unfold AddProcCooldown IsUsingCharges
  cases hs : eventInfo.GetSpellInfo with
  | none =>
    by_cases h1 : procEntry.AttributesMask &&& K.PROC_ATTR_USE_STACKS_FOR_CHARGES = 0 <;>
      cases h2 : a.m_isUsingCharges <;>
      exact ⟨_, rfl, rfl, by simp [h1, h2], by simp [h1, h2], by simp [h1, h2]⟩
  | some spellInfo =>
    by_cases h1 : procEntry.AttributesMask &&& K.PROC_ATTR_USE_STACKS_FOR_CHARGES = 0 <;>
      cases h2 : a.m_isUsingCharges <;>
      cases h3 : spellInfo.HasAttribute SpellAttr.SPELL_ATTR6_DONT_CONSUME_PROC_CHARGES <;>
      exact ⟨_, rfl, rfl, by simp [h1, h2, h3], by simp [h1, h2, h3], by simp [h1, h2, h3]⟩

/-- C27, counterexample: an aura with one charge is prepared for two procs in a
row (no script intervenes, the proc entry does not use stacks, the event has no
triggering spell).  The first call takes the charge; the aura still uses
charges, and the second call turns the count 0 into 255 instead of decreasing
it by one. -/
theorem PrepareProcToTrigger_counterexample :
    (exampleChargedAura 1).m_isUsingCharges = true ∧
    CallScriptPrepareProcHandlers exampleProcEnv.prepareProcPrevented = true ∧
    (PrepareProcToTrigger exampleConsts exampleProcEnv (exampleChargedAura 1) exampleEvent
      1000).map (fun b => (b.m_procCharges, b.m_isUsingCharges)) = some (0, true) ∧
    ((PrepareProcToTrigger exampleConsts exampleProcEnv (exampleChargedAura 1) exampleEvent
      1000).bind fun b =>
        PrepareProcToTrigger exampleConsts exampleProcEnv b exampleEvent 1000).map
      (fun b => b.m_procCharges) = some 255 := by
  decide

/-- C27 (amended): for an aura with an 8-bit charge count that is at least 1 if
the aura uses charges, and an existing proc entry: when no prepare-proc script
prevents the default, `PrepareProcToTrigger(now)` decreases the charge count by
exactly one if the aura uses charges, the proc entry does not represent charges
by the stack count and the triggering spell is not flagged as not consuming
charges, and leaves it unchanged otherwise; the cooldown expiry becomes `now`
plus the cooldown of the entry, so that `IsProcOnCooldown(t)` holds exactly for
`t < now + cooldown`.  When a script prevents the default, the aura is left as
it is. -/
theorem PrepareProcToTrigger_consumes (K : Consts) (env : ProcEnv) (a : Aura)
    (eventInfo : ProcEventInfo) (now : Int) (procEntry : SpellProcEntry)
    (hentry : env.procEntry = some procEntry)
    (hcount : a.m_isUsingCharges = true → 1 ≤ a.m_procCharges)
    (h8 : a.m_procCharges ≤ 255) :
    (CallScriptPrepareProcHandlers env.prepareProcPrevented = true →
      ∃ b, PrepareProcToTrigger K env a eventInfo now = some b ∧
        (a.m_isUsingCharges = true ∧
            procEntry.AttributesMask &&& K.PROC_ATTR_USE_STACKS_FOR_CHARGES = 0 ∧
            (∀ spellInfo, eventInfo.GetSpellInfo = some spellInfo →
              spellInfo.HasAttribute SpellAttr.SPELL_ATTR6_DONT_CONSUME_PROC_CHARGES = false) →
          b.m_procCharges + 1 = a.m_procCharges) ∧
        (¬ (a.m_isUsingCharges = true ∧
            procEntry.AttributesMask &&& K.PROC_ATTR_USE_STACKS_FOR_CHARGES = 0 ∧
            (∀ spellInfo, eventInfo.GetSpellInfo = some spellInfo →
              spellInfo.HasAttribute SpellAttr.SPELL_ATTR6_DONT_CONSUME_PROC_CHARGES = false)) →
          b.m_procCharges = a.m_procCharges) ∧
        b.m_procCooldown = now + procEntry.Cooldown ∧
        ∀ t, b.IsProcOnCooldown t = true ↔ t < now + procEntry.Cooldown) ∧
    (CallScriptPrepareProcHandlers env.prepareProcPrevented = false →
      PrepareProcToTrigger K env a eventInfo now = some a) := by
  constructor
  · intro hprepare
    obtain ⟨b, hb, hcd, -, -, hch⟩ := PrepareProcToTrigger_eq K env a eventInfo now procEntry
      hprepare hentry
    refine ⟨b, hb, ?_, ?_, hcd, ?_⟩
    · rintro ⟨h1, h2, h3⟩
      rw [if_pos ⟨h2, h1, h3⟩] at hch
      rw [hch]
      have := hcount h1
      unfold toUInt8
      omega
    · intro hn
      rw [if_neg (fun hc => hn ⟨hc.2.1, hc.1, hc.2.2⟩)] at hch
      exact hch
    · intro t
      unfold IsProcOnCooldown
      rw [hcd]
      simp
  · intro hprepare
    unfold PrepareProcToTrigger
    simp only []
    rw [hprepare]
    rfl

/-- C27 (amended), witness: with three charges, the proc at time 1000 with the
cooldown 0 leaves two charges and no cooldown after time 1000. -/
theorem PrepareProcToTrigger_consumes_witness :
    (CallScriptPrepareProcHandlers exampleProcEnv.prepareProcPrevented = true →
      ∃ b, PrepareProcToTrigger exampleConsts exampleProcEnv (exampleChargedAura 3) exampleEvent
          1000 = some b ∧
        ((exampleChargedAura 3).m_isUsingCharges = true ∧
            (exampleProcEntry 0).AttributesMask &&&
              exampleConsts.PROC_ATTR_USE_STACKS_FOR_CHARGES = 0 ∧
            (∀ spellInfo, exampleEvent.GetSpellInfo = some spellInfo →
              spellInfo.HasAttribute SpellAttr.SPELL_ATTR6_DONT_CONSUME_PROC_CHARGES = false) →
          b.m_procCharges + 1 = (exampleChargedAura 3).m_procCharges) ∧
        (¬ ((exampleChargedAura 3).m_isUsingCharges = true ∧
            (exampleProcEntry 0).AttributesMask &&&
              exampleConsts.PROC_ATTR_USE_STACKS_FOR_CHARGES = 0 ∧
            (∀ spellInfo, exampleEvent.GetSpellInfo = some spellInfo →
              spellInfo.HasAttribute SpellAttr.SPELL_ATTR6_DONT_CONSUME_PROC_CHARGES = false)) →
          b.m_procCharges = (exampleChargedAura 3).m_procCharges) ∧
        b.m_procCooldown = 1000 + (exampleProcEntry 0).Cooldown ∧
        ∀ t, b.IsProcOnCooldown t = true ↔ t < 1000 + (exampleProcEntry 0).Cooldown) ∧
    (PrepareProcToTrigger exampleConsts exampleProcEnv (exampleChargedAura 3) exampleEvent
      1000).map (fun b => (b.m_procCharges, b.m_procCooldown)) = some (2, 1000) :=
  ⟨(PrepareProcToTrigger_consumes exampleConsts exampleProcEnv (exampleChargedAura 3)
      exampleEvent 1000 (exampleProcEntry 0) rfl (fun _ => by decide) (by decide)).1,
    by decide⟩

/-! ### No underflow of the charge count in the proc path -/

/-- C29: when `GetProcEffectMask` has returned a non-zero mask for an aura that
uses charges (with an 8-bit charge count), the charge count is at least 1, and
the `PrepareProcToTrigger` that follows completes with a charge count that is
the old count or the old count minus one, exactly the latter when the charge is
taken: the count does not wrap from 0 to 255. -/
theorem proc_path_no_underflow (K : Consts) (env : ProcEnv) (a : Aura)
    (aurApp : AuraApplication) (eventInfo : ProcEventInfo) (now : Int) (procEffectMask : Nat)
    (hmask : GetProcEffectMask K env a aurApp eventInfo now = some procEffectMask)
    (hne : procEffectMask ≠ 0) (huse : a.IsUsingCharges = true) (h8 : a.GetCharges ≤ 255) :
    1 ≤ a.GetCharges ∧
    ∃ b, PrepareProcToTrigger K env a eventInfo now = some b ∧
      b.GetCharges ≤ a.GetCharges ∧
      (b.GetCharges = a.GetCharges ∨ b.GetCharges + 1 = a.GetCharges) ∧
      (CallScriptPrepareProcHandlers env.prepareProcPrevented = true →
        (∃ procEntry, env.procEntry = some procEntry ∧
          procEntry.AttributesMask &&& K.PROC_ATTR_USE_STACKS_FOR_CHARGES = 0) →
        (∀ spellInfo, eventInfo.GetSpellInfo = some spellInfo →
          spellInfo.HasAttribute SpellAttr.SPELL_ATTR6_DONT_CONSUME_PROC_CHARGES = false) →
        b.GetCharges + 1 = a.GetCharges) := by
  unfold GetProcEffectMask at hmask
  cases hentry : env.procEntry with
  | none =>
    rw [hentry] at hmask
    cases hmask
    exact absurd rfl hne
  | some procEntry =>
    rw [hentry] at hmask
    simp only [] at hmask
    have hcharges : procChargesFail K a procEntry eventInfo = false := by
      cases hf : procChargesFail K a procEntry eventInfo
      · rfl
      · exfalso
        rw [hf] at hmask
        split at hmask
        · cases hmask; exact hne rfl
        · split at hmask
          · cases hmask; exact hne rfl
          · simp only [if_true] at hmask
            cases hmask
            exact hne rfl
    have h1 : 1 ≤ a.GetCharges := by
      unfold procChargesFail at hcharges
      rw [huse] at hcharges
      simp only [Bool.true_and, Bool.or_eq_false_iff, beq_eq_false_iff_ne, ne_eq] at hcharges
      have := hcharges.1
      omega
    refine ⟨h1, ?_⟩
    unfold GetCharges at h1 h8 ⊢
    unfold IsUsingCharges at huse
    cases hprepare : CallScriptPrepareProcHandlers env.prepareProcPrevented
    · refine ⟨a, ?_, le_refl _, Or.inl rfl, fun hc => Bool.noConfusion hc⟩
      unfold PrepareProcToTrigger
      simp only []
      rw [hprepare]
      rfl
    · obtain ⟨b, hb, -, -, -, hch⟩ := PrepareProcToTrigger_eq K env a eventInfo now procEntry
        hprepare hentry
      have hdec : toUInt8 ((a.m_procCharges : Int) - 1) + 1 = a.m_procCharges := by
        unfold toUInt8
        omega
      refine ⟨b, hb, ?_, ?_, ?_⟩
      · rw [hch]
        split <;> omega
      · rw [hch]
        split
        · exact Or.inr hdec
        · exact Or.inl rfl
      · rintro - ⟨pe, hpe, hstack⟩ hspell
        cases hpe
        rw [hch, if_pos ⟨hstack, huse, hspell⟩]
        exact hdec

/-- C29, witness: the aura with one charge gets the mask 7 from
`GetProcEffectMask`, and the proc leaves it with 0 charges. -/
theorem proc_path_no_underflow_witness :
    GetProcEffectMask exampleConsts exampleProcEnv (exampleChargedAura 1) exampleApplication
      exampleEvent 1000 = some 7 ∧
    (1 ≤ (exampleChargedAura 1).GetCharges ∧
      ∃ b, PrepareProcToTrigger exampleConsts exampleProcEnv (exampleChargedAura 1) exampleEvent
          1000 = some b ∧
        b.GetCharges ≤ (exampleChargedAura 1).GetCharges ∧
        (b.GetCharges = (exampleChargedAura 1).GetCharges ∨
          b.GetCharges + 1 = (exampleChargedAura 1).GetCharges) ∧
        (CallScriptPrepareProcHandlers exampleProcEnv.prepareProcPrevented = true →
          (∃ procEntry, exampleProcEnv.procEntry = some procEntry ∧
            procEntry.AttributesMask &&& exampleConsts.PROC_ATTR_USE_STACKS_FOR_CHARGES = 0) →
          (∀ spellInfo, exampleEvent.GetSpellInfo = some spellInfo →
            spellInfo.HasAttribute SpellAttr.SPELL_ATTR6_DONT_CONSUME_PROC_CHARGES = false) →
          b.GetCharges + 1 = (exampleChargedAura 1).GetCharges)) :=
  ⟨by decide,
    proc_path_no_underflow exampleConsts exampleProcEnv (exampleChargedAura 1)
      exampleApplication exampleEvent 1000 7 (by decide) (by decide) (by decide) (by decide)⟩

/-! ### The drain timer after a drain -/

/-- C28, failing input: an aura with 10000 ms left of a spell that costs 10 mana
per second, the drain timer at 500 ms and a caster with 100 mana.  In a tick of
1500 ms the drain fires (the caster pays 10 mana) and the timer becomes
`500 + 1000 - 1500 = 0`; in a following tick of 5000 ms nothing is drained and
the timer stays 0. -/
theorem Update_drain_timer_lands_on_zero :
    (exampleDrainSpell 10 0).ManaPerSecond ≠ 0 ∧
    (0 : Int) < (exampleWorld (exampleDrainSpell 10 0) 10000 500
      (some (exampleCaster 100 100))).aura.m_duration ∧
    (exampleWorld (exampleDrainSpell 10 0) 10000 500
      (some (exampleCaster 100 100))).aura.m_timeCla ≤ ((1500 : Nat) : Int) ∧
    (Update exampleConsts
      (exampleWorld (exampleDrainSpell 10 0) 10000 500 (some (exampleCaster 100 100))) 1500).map
        (fun w => (w.aura.m_timeCla, w.caster.map (fun c => c.power 0), w.aura.m_isRemoved,
          w.aura.m_duration)) = some (0, some 90, false, 8500) ∧
    ((Update exampleConsts
      (exampleWorld (exampleDrainSpell 10 0) 10000 500 (some (exampleCaster 100 100))) 1500).bind
        fun w1 => Update exampleConsts w1 5000).map
        (fun w => (w.aura.m_timeCla, w.caster.map (fun c => c.power 0), w.aura.m_isRemoved,
          w.aura.m_duration)) = some (0, some 90, false, 3500) := by
  decide

/-! ### The roll-over of `RefreshTimers` -/

/-- The divisor of `RefreshTimers` is positive, at most the start value and at
most every non-zero period, when the start value is positive and no period is
negative. -/
theorem minAmplitude_bounds (a : Aura) :
    ∀ (l : List Nat) (m : Int), 0 < m →
      (∀ i eff, i ∈ l → a.GetEffect i = some eff → 0 ≤ eff.GetPeriodic) →
      0 < l.foldl
          (fun m i =>
            match a.GetEffect i with
            | some eff => if eff.GetPeriodic ≠ 0 then min eff.GetPeriodic m else m
            | none => m)
          m ∧
      l.foldl
          (fun m i =>
            match a.GetEffect i with
            | some eff => if eff.GetPeriodic ≠ 0 then min eff.GetPeriodic m else m
            | none => m)
          m ≤ m ∧
      ∀ i eff, i ∈ l → a.GetEffect i = some eff → eff.GetPeriodic ≠ 0 →
        l.foldl
          (fun m i =>
            match a.GetEffect i with
            | some eff => if eff.GetPeriodic ≠ 0 then min eff.GetPeriodic m else m
            | none => m)
          m ≤ eff.GetPeriodic := by
  intro l
  induction l with
  | nil =>
    intro m hm _
    exact ⟨hm, le_refl m, fun i eff hi => absurd hi (List.not_mem_nil i)⟩
  | cons j rest ih =>
    intro m hm hper
    rw [List.foldl_cons]
    have hrest : ∀ i eff, i ∈ rest → a.GetEffect i = some eff → 0 ≤ eff.GetPeriodic :=
      fun i eff hi => hper i eff (List.mem_cons_of_mem j hi)
    cases hj : a.GetEffect j with
    | none =>
      simp only []
      obtain ⟨h1, h2, h3⟩ := ih m hm hrest
      refine ⟨h1, h2, ?_⟩
      intro i eff hi he hne
      rcases List.mem_cons.mp hi with hij | hir
      · rw [hij, hj] at he
        cases he
      · exact h3 i eff hir he hne
    | some effj =>
      simp only []
      have hpj := hper j effj (List.mem_cons_self j rest) hj
      by_cases hz : effj.GetPeriodic ≠ 0
      · rw [if_pos hz]
        have hm2 : 0 < min effj.GetPeriodic m := by
          rw [lt_min_iff]
          exact ⟨by omega, hm⟩
        obtain ⟨h1, h2, h3⟩ := ih (min effj.GetPeriodic m) hm2 hrest
        refine ⟨h1, le_trans h2 (min_le_right _ _), ?_⟩
        intro i eff hi he hne
        rcases List.mem_cons.mp hi with hij | hir
        · rw [hij, hj] at he
          cases he
          exact le_trans h2 (min_le_left _ _)
        · exact h3 i eff hir he hne
      · rw [if_neg hz]
        obtain ⟨h1, h2, h3⟩ := ih m hm hrest
        refine ⟨h1, h2, ?_⟩
        intro i eff hi he hne
        rcases List.mem_cons.mp hi with hij | hir
        · rw [hij, hj] at he
          cases he
          exact absurd hne hz
        · exact h3 i eff hir he hne

/-- C30, counterexample: a rolling-duration aura without periodic effect has
1100000000 ms left and its recomputed maximum duration is `D = 1200000000`.  The
divisor is `D`, the rolled-over duration is `r = 1100000000`, and `D + r =
2300000000` does not fit 32 bits: the stored maximum duration is -1994967296. -/
theorem RefreshTimers_rollover_counterexample :
    (exampleRollingAura 1100000000).m_spellInfo.IsRollingDurationOver = true ∧
    (0 : Int) < CalcMaxDuration (exampleEnv 1200000000) (exampleRollingAura 1100000000) ∧
    (0 : Int) ≤ (exampleRollingAura 1100000000).m_duration ∧
    minAmplitude exampleConsts (exampleRollingAura 1100000000)
      (CalcMaxDuration (exampleEnv 1200000000) (exampleRollingAura 1100000000)) = 1200000000 ∧
    (RefreshTimers exampleConsts (exampleEnv 1200000000) (exampleRollingAura 1100000000)).map
      (fun b => (b.m_rolledOverDuration, b.m_maxDuration)) = some (1100000000, -1994967296) := by
  decide

/-- The divisor of `RefreshTimers` is the start value or one of the non-zero
periods. -/
theorem minAmplitude_attained (a : Aura) :
    ∀ (l : List Nat) (m : Int),
      l.foldl
          (fun m i =>
            match a.GetEffect i with
            | some eff => if eff.GetPeriodic ≠ 0 then min eff.GetPeriodic m else m
            | none => m)
          m = m ∨
      ∃ i eff, i ∈ l ∧ a.GetEffect i = some eff ∧ eff.GetPeriodic ≠ 0 ∧
        l.foldl
          (fun m i =>
            match a.GetEffect i with
            | some eff => if eff.GetPeriodic ≠ 0 then min eff.GetPeriodic m else m
            | none => m)
          m = eff.GetPeriodic := by
  intro l
  induction l with
  | nil =>
    intro m
    exact Or.inl rfl
  | cons j rest ih =>
    intro m
    rw [List.foldl_cons]
    have lift : ∀ m2 : Int,
        (∃ i eff, i ∈ rest ∧ a.GetEffect i = some eff ∧ eff.GetPeriodic ≠ 0 ∧
          rest.foldl
            (fun m i =>
              match a.GetEffect i with
              | some eff => if eff.GetPeriodic ≠ 0 then min eff.GetPeriodic m else m
              | none => m)
            m2 = eff.GetPeriodic) →
        ∃ i eff, i ∈ j :: rest ∧ a.GetEffect i = some eff ∧ eff.GetPeriodic ≠ 0 ∧
          rest.foldl
            (fun m i =>
              match a.GetEffect i with
              | some eff => if eff.GetPeriodic ≠ 0 then min eff.GetPeriodic m else m
              | none => m)
            m2 = eff.GetPeriodic := by
      intro m2 h
      obtain ⟨i, eff, hi, he, hne, hq⟩ := h
      exact ⟨i, eff, List.mem_cons_of_mem j hi, he, hne, hq⟩
    cases hj : a.GetEffect j with
    | none =>
      simp only []
      rcases ih m with h | h
      · exact Or.inl h
      · exact Or.inr (lift m h)
    | some effj =>
      simp only []
      by_cases hz : effj.GetPeriodic ≠ 0
      · rw [if_pos hz]
        rcases ih (min effj.GetPeriodic m) with h | h
        · rcases min_choice effj.GetPeriodic m with hc | hc
          · right
            refine ⟨j, effj, List.mem_cons_self j rest, hj, hz, ?_⟩
            rw [h, hc]
          · left
            rw [h, hc]
        · exact Or.inr (lift _ h)
      · rw [if_neg hz]
        rcases ih m with h | h
        · exact Or.inl h
        · exact Or.inr (lift m h)

/-- C30 (amended): in `Aura::RefreshTimers`, if the recomputed maximum duration
`D` is positive, no effect period is negative and the current duration is not
negative, then for a rolling-duration spell the divisor is positive, is at most
`D` and at most every non-zero effect period, and is `D` or one of those
periods; the call returns, the rolled-over duration `r` is the remainder of the
current duration by the divisor, `0 <= r < divisor`, and the new maximum duration
is `D + r` provided `D + r` fits a signed 32-bit integer.  For a spell that is
not rolling-duration the call returns and the maximum duration is `D`. -/
theorem RefreshTimers_rollover (K : Consts) (env : AuraEnv) (a : Aura)
    (hD : 0 < CalcMaxDuration env a)
    (hper : ∀ i eff, i < K.MAX_SPELL_EFFECTS → a.GetEffect i = some eff → 0 ≤ eff.GetPeriodic)
    (hdur : 0 ≤ a.m_duration) :
    (a.m_spellInfo.IsRollingDurationOver = true →
      0 < minAmplitude K a (CalcMaxDuration env a) ∧
      minAmplitude K a (CalcMaxDuration env a) ≤ CalcMaxDuration env a ∧
      (∀ i eff, i < K.MAX_SPELL_EFFECTS → a.GetEffect i = some eff → eff.GetPeriodic ≠ 0 →
        minAmplitude K a (CalcMaxDuration env a) ≤ eff.GetPeriodic) ∧
      (minAmplitude K a (CalcMaxDuration env a) = CalcMaxDuration env a ∨
        ∃ i eff, i < K.MAX_SPELL_EFFECTS ∧ a.GetEffect i = some eff ∧ eff.GetPeriodic ≠ 0 ∧
          minAmplitude K a (CalcMaxDuration env a) = eff.GetPeriodic) ∧
      ∃ b, RefreshTimers K env a = some b ∧
        b.m_rolledOverDuration = a.m_duration % minAmplitude K a (CalcMaxDuration env a) ∧
        0 ≤ b.m_rolledOverDuration ∧
        b.m_rolledOverDuration < minAmplitude K a (CalcMaxDuration env a) ∧
        b.m_rolledOverDuration < CalcMaxDuration env a ∧
        (CalcMaxDuration env a + b.m_rolledOverDuration ≤ INT32_MAX →
          b.m_maxDuration = CalcMaxDuration env a + b.m_rolledOverDuration)) ∧
    (a.m_spellInfo.IsRollingDurationOver = false →
      ∃ b, RefreshTimers K env a = some b ∧ b.m_maxDuration = CalcMaxDuration env a) := by
  have hb := minAmplitude_bounds a (List.range K.MAX_SPELL_EFFECTS) (CalcMaxDuration env a) hD
    (fun i eff hi he => hper i eff (List.mem_range.mp hi) he)
  have hat := minAmplitude_attained a (List.range K.MAX_SPELL_EFFECTS) (CalcMaxDuration env a)
  have hmin : minAmplitude K a (CalcMaxDuration env a) =
      (List.range K.MAX_SPELL_EFFECTS).foldl
        (fun m i =>
          match a.GetEffect i with
          | some eff => if eff.GetPeriodic ≠ 0 then min eff.GetPeriodic m else m
          | none => m)
        (CalcMaxDuration env a) := rfl
  rw [← hmin] at hb hat
  obtain ⟨hpos, hle, hall⟩ := hb
  constructor
  · intro hroll
    have hc : cRem a.m_duration (minAmplitude K a (CalcMaxDuration env a)) =
        some (a.m_duration % minAmplitude K a (CalcMaxDuration env a)) := by
      unfold cRem
      have hn : ¬ (minAmplitude K a (CalcMaxDuration env a) = 0 ∨
          (a.m_duration = INT32_MIN ∧ minAmplitude K a (CalcMaxDuration env a) = -1)) := by
        intro h
        rcases h with h | ⟨_, h⟩ <;> omega
      rw [if_neg hn, Int.tmod_eq_emod hdur (le_of_lt hpos)]
    have hsome : (RefreshTimers K env a).isSome = true := by
      rw [RefreshTimers_isSome]
      unfold RefreshTimersDefined
      rw [hc]
      simp
    obtain ⟨b, hbe⟩ := Option.isSome_iff_exists.mp hsome
    obtain ⟨r, hr, hro, hmax⟩ := (RefreshTimers_maxDuration hbe).2 hroll
    rw [hc] at hr
    cases hr
    have h0 : 0 ≤ a.m_duration % minAmplitude K a (CalcMaxDuration env a) :=
      Int.emod_nonneg _ (ne_of_gt hpos)
    have h1 : a.m_duration % minAmplitude K a (CalcMaxDuration env a) <
        minAmplitude K a (CalcMaxDuration env a) := Int.emod_lt_of_pos _ hpos
    refine ⟨hpos, hle, fun i eff hi he hne => hall i eff (List.mem_range.mpr hi) he hne, ?_, b, hbe,
      hro, ?_, ?_, ?_, ?_⟩
    · rcases hat with h | ⟨i, eff, hi, he, hne, hq⟩
      · exact Or.inl h
      · exact Or.inr ⟨i, eff, List.mem_range.mp hi, he, hne, hq⟩
    · rw [hro]
      exact h0
    · rw [hro]
      exact h1
    · rw [hro]
      exact lt_of_lt_of_le h1 hle
    · intro hfit
      rw [hro] at hfit
      rw [hmax, hro]
      apply toInt32_eq_self
      · unfold INT32_MIN
        omega
      · exact hfit
  · intro hroll
    have hsome : (RefreshTimers K env a).isSome = true := by
      rw [RefreshTimers_isSome]
      unfold RefreshTimersDefined
      rw [hroll]
      rfl
    obtain ⟨b, hbe⟩ := Option.isSome_iff_exists.mp hsome
    exact ⟨b, hbe, (RefreshTimers_maxDuration hbe).1 hroll⟩

/-- C30, witness: the rolling-duration aura with 2500 ms left and the periods
3000 ms and 1000 ms, for the recomputed maximum duration 30000 ms: the divisor
is 1000, the rolled-over duration 500 and the new maximum duration 30500. -/
theorem RefreshTimers_rollover_witness :
    ((examplePeriodicRollingAura.m_spellInfo.IsRollingDurationOver = true →
      0 < minAmplitude exampleConsts examplePeriodicRollingAura
        (CalcMaxDuration (exampleEnv 30000) examplePeriodicRollingAura) ∧
      minAmplitude exampleConsts examplePeriodicRollingAura
          (CalcMaxDuration (exampleEnv 30000) examplePeriodicRollingAura) ≤
        CalcMaxDuration (exampleEnv 30000) examplePeriodicRollingAura ∧
      (∀ i eff, i < exampleConsts.MAX_SPELL_EFFECTS →
        examplePeriodicRollingAura.GetEffect i = some eff → eff.GetPeriodic ≠ 0 →
        minAmplitude exampleConsts examplePeriodicRollingAura
          (CalcMaxDuration (exampleEnv 30000) examplePeriodicRollingAura) ≤ eff.GetPeriodic) ∧
      (minAmplitude exampleConsts examplePeriodicRollingAura
          (CalcMaxDuration (exampleEnv 30000) examplePeriodicRollingAura) =
          CalcMaxDuration (exampleEnv 30000) examplePeriodicRollingAura ∨
        ∃ i eff, i < exampleConsts.MAX_SPELL_EFFECTS ∧
          examplePeriodicRollingAura.GetEffect i = some eff ∧ eff.GetPeriodic ≠ 0 ∧
          minAmplitude exampleConsts examplePeriodicRollingAura
            (CalcMaxDuration (exampleEnv 30000) examplePeriodicRollingAura) = eff.GetPeriodic) ∧
      ∃ b, RefreshTimers exampleConsts (exampleEnv 30000) examplePeriodicRollingAura = some b ∧
        b.m_rolledOverDuration = examplePeriodicRollingAura.m_duration %
          minAmplitude exampleConsts examplePeriodicRollingAura
            (CalcMaxDuration (exampleEnv 30000) examplePeriodicRollingAura) ∧
        0 ≤ b.m_rolledOverDuration ∧
        b.m_rolledOverDuration < minAmplitude exampleConsts examplePeriodicRollingAura
          (CalcMaxDuration (exampleEnv 30000) examplePeriodicRollingAura) ∧
        b.m_rolledOverDuration <
          CalcMaxDuration (exampleEnv 30000) examplePeriodicRollingAura ∧
        (CalcMaxDuration (exampleEnv 30000) examplePeriodicRollingAura + b.m_rolledOverDuration ≤
            INT32_MAX →
          b.m_maxDuration =
            CalcMaxDuration (exampleEnv 30000) examplePeriodicRollingAura +
              b.m_rolledOverDuration)) ∧
    (examplePeriodicRollingAura.m_spellInfo.IsRollingDurationOver = false →
      ∃ b, RefreshTimers exampleConsts (exampleEnv 30000) examplePeriodicRollingAura = some b ∧
        b.m_maxDuration = CalcMaxDuration (exampleEnv 30000) examplePeriodicRollingAura)) ∧
    minAmplitude exampleConsts examplePeriodicRollingAura
      (CalcMaxDuration (exampleEnv 30000) examplePeriodicRollingAura) = 1000 ∧
    (RefreshTimers exampleConsts (exampleEnv 30000) examplePeriodicRollingAura).map
      (fun b => (b.m_rolledOverDuration, b.m_maxDuration)) = some (500, 30500) :=
  ⟨RefreshTimers_rollover exampleConsts (exampleEnv 30000) examplePeriodicRollingAura
      (by decide)
      (by
        intro i eff hi he
        have h3 : i < 3 := hi
        interval_cases i <;> cases he <;> decide)
      (by decide),
    by decide, by decide⟩

end Firelands
